import Mathlib

/-!
# Gthulhu API: manager-side intent distribution and cluster pod directory

A shallow embedding of

* `manager/service/strategy_svc.go` (`CreateScheduleStrategy`),
* `manager/k8s_adapter/adapter.go` (`QueryPods`, `listPods`, `podsFromCache`,
  `listPodsLive`, `buildLabelSelector`, `buildContainers`),
* `manager/domain/k8s_resource.go` (the domain records and the method `String`
  of an agent pod),
* `manager/client/deicison_maker.go` (`SendSchedulingIntent`),
* `decisionmaker/service/service.go` (`FindPodInfoFrom`, `parseCgroupToPodInfo`,
  `getPodInfoFromCgroup`, `getProcessInfo`),

together with the properties proved about them.

Conventions of the embedding:

* a Go `map[string]V` is an association list with pairwise distinct keys
  (`GoMap V`); the order in which `range` visits its keys is not fixed by the
  language, so every loop over a map takes the visiting order from a
  `rangeOrder` function, and theorems quantify over every such function that
  returns a permutation of the keys;
* collaborators behind interfaces (the repository, the agent transport, the
  cluster API client) and external libraries (label selectors, regular
  expressions) are records of functions; a call to a collaborator is recorded
  in a trace of `Call`s;
* a Go `error` is an `Option Error` (`none` is `nil`), a `(value, error)` pair
  is an `Except Error value`.
-/

namespace Api

/-! ## Go maps -/

/-- A Go `map[string]V`: key and value pairs in insertion order, keys distinct. -/
abbrev GoMap (V : Type) := List (String × V)

namespace GoMap

variable {V : Type}

/-- The keys of the map. -/
def keys (m : GoMap V) : List String := m.map Prod.fst

/-- The values of the map. -/
def values (m : GoMap V) : List V := m.map Prod.snd

/-- The two-valued lookup `v, ok := m[k]`. -/
def get? : GoMap V → String → Option V
  | [], _ => none
  | (k1, v) :: m, k => if k1 = k then some v else get? m k

/-- The one-valued lookup `m[k]`, which yields the zero value `d` for an absent key. -/
def getD (m : GoMap V) (k : String) (d : V) : V := (m.get? k).getD d

/-- The assignment `m[k] = v`. -/
def set : GoMap V → String → V → GoMap V
  | [], k, v => [(k, v)]
  | (k1, v1) :: m, k, v => if k1 = k then (k, v) :: m else (k1, v1) :: set m k v

/-- The statement `delete(m, k)`. -/
def delete : GoMap V → String → GoMap V
  | [], _ => []
  | (k1, v1) :: m, k => if k1 = k then m else (k1, v1) :: delete m k

/-- The entries of the map in the order in which a `range` loop visits them,
given the order `order` in which the keys are visited. -/
def range (order : List String → List String) (m : GoMap V) : List (String × V) :=
  (order m.keys).filterMap (fun k => (m.get? k).map (fun v => (k, v)))

/-- Well-formedness of a map: no key occurs twice. -/
def WF (m : GoMap V) : Prop := m.keys.Nodup

instance (m : GoMap V) : Decidable m.WF := by
  unfold WF
  infer_instance

end GoMap

/-! ## Errors -/

/-- A Go `error` value. -/
inductive Error where
  /-- The sentinel `domain.ErrNilQueryInput`. -/
  | ErrNilQueryInput
  /-- The sentinel `domain.ErrNoClient`. -/
  | ErrNoClient
  /-- An error made from a message only (`fmt.Errorf` without `%w`, or an
  error returned by a collaborator or library). -/
  | msg (text : String)
  /-- An error wrapping a cause: `fmt.Errorf("context: %w", err)` and
  `errors.WithMessagef(err, "context")`. -/
  | wrap (context : String) (cause : Error)
  /-- The result of `errs.NewHTTPStatusError(code, message, cause)`. -/
  | httpStatus (code : Nat) (message : String) (cause : Error)
  deriving DecidableEq, Repr

deriving instance DecidableEq for Except

/-- The constant `http.StatusNotFound`. -/
def StatusNotFound : Nat := 404

/-! ## Domain records (`manager/domain`) -/

/-- An identifier `bson.ObjectID`. -/
abbrev ObjectID := Nat

/-- The record `domain.LabelSelector`. -/
structure LabelSelector where
  Key : String
  Value : String
  deriving DecidableEq, Repr

/-- The type `domain.NodeState`. -/
inductive NodeState where
  | NodeStateOnline
  | NodeStateOffline
  | NodeStateUnknown
  deriving DecidableEq, Repr

/-- The record `domain.DecisionMakerPod`. -/
structure DecisionMakerPod where
  NodeID : String
  Port : Int
  Host : String
  State : NodeState
  deriving DecidableEq, Repr

/-- The record `domain.Container`. -/
structure Container where
  ContainerID : String
  Name : String
  Command : List String
  deriving DecidableEq, Repr

/-- The record `domain.Pod`. -/
structure Pod where
  K8SNamespace : String
  Labels : GoMap String
  PodID : String
  NodeID : String
  Containers : List Container
  deriving DecidableEq, Repr

/-- The record `domain.QueryPodsOptions`. -/
structure QueryPodsOptions where
  K8SNamespace : List String
  LabelSelectors : List LabelSelector
  CommandRegex : String
  deriving DecidableEq, Repr

/-- The record `domain.QueryDecisionMakerPodsOptions`. -/
structure QueryDecisionMakerPodsOptions where
  K8SNamespace : List String
  NodeIDs : List String
  DecisionMakerLabel : LabelSelector
  deriving DecidableEq, Repr

/-- The record `domain.Claims`, of which the service reads the user ID only. -/
structure Claims where
  UID : String
  deriving DecidableEq, Repr

/-- Modelled from the spec: `domain.BaseEntity` and its constructor
`domain.NewBaseEntity` are not among the sources. The spec (section 4.2,
step 3) says the strategy is stamped with creator and creation metadata; the
record holds the fresh identifier and the creator and updater identifiers. -/
structure BaseEntity where
  ID : ObjectID
  CreatorID : ObjectID
  UpdaterID : ObjectID
  deriving DecidableEq, Repr

/-- Modelled from the spec: `domain.NewBaseEntity(creator, updater)`, which
draws the fresh identifier `id`. -/
def NewBaseEntity (id : ObjectID) (creator updater : ObjectID) : BaseEntity :=
  { ID := id, CreatorID := creator, UpdaterID := updater }

/-- The record `domain.ScheduleStrategy`, with the fields the REST handler
fills in (`manager/rest/strategy_hdl.go`). -/
structure ScheduleStrategy where
  BaseEntity : BaseEntity
  StrategyNamespace : String
  LabelSelectors : List LabelSelector
  K8sNamespace : List String
  CommandRegex : String
  Priority : Int
  ExecutionTime : Int
  deriving DecidableEq, Repr

/-- Modelled from the spec: the intent state machine of section 3,
`Created → Sent`; the source names the second state `domain.IntentStateSent`. -/
inductive IntentState where
  | IntentStateCreated
  | IntentStateSent
  deriving DecidableEq, Repr

/-- The record `domain.ScheduleIntent`, with the fields that the transport
(`manager/client/deicison_maker.go`) and the REST handler read. -/
structure ScheduleIntent where
  ID : ObjectID
  StrategyID : ObjectID
  PodID : String
  NodeID : String
  K8sNamespace : String
  CommandRegex : String
  Priority : Int
  ExecutionTime : Int
  PodLabels : GoMap String
  State : IntentState
  deriving DecidableEq, Repr

/-- Modelled from the spec: `domain.NewScheduleIntent(strategy, pod)` is not
among the sources. Section 4.2, step 3: one intent per matched pod, copying
that pod's label snapshot and node ID and the strategy's priority, execution
time and command regex onto the intent; the state starts as `Created`. The
intent holds a single namespace while the strategy's scope is a list, so the
namespace is the pod's. The argument `id` is the fresh identifier that the
constructor draws. -/
def NewScheduleIntent (id : ObjectID) (strategy : ScheduleStrategy) (pod : Pod) :
    ScheduleIntent :=
  { ID := id
    StrategyID := strategy.BaseEntity.ID
    PodID := pod.PodID
    NodeID := pod.NodeID
    K8sNamespace := pod.K8SNamespace
    CommandRegex := strategy.CommandRegex
    Priority := strategy.Priority
    ExecutionTime := strategy.ExecutionTime
    PodLabels := pod.Labels
    State := IntentState.IntentStateCreated }

/-! ## Collaborators of the service -/

/-- The interface `domain.K8SAdapter`, as the service uses it. -/
structure K8SAdapter where
  QueryPods : QueryPodsOptions → Except Error (List Pod)
  QueryDecisionMakerPods : QueryDecisionMakerPodsOptions → Except Error (List DecisionMakerPod)

/-- The interface `domain.Repository`, as `CreateScheduleStrategy` uses it. -/
structure Repository where
  InsertStrategyAndIntents : ScheduleStrategy → List ScheduleIntent → Option Error
  BatchUpdateIntentsState : List ObjectID → IntentState → Option Error

/-- The interface `domain.DecisionMakerAdapter`. The agent pod is passed by
pointer, so the argument is optional (`none` is `nil`). -/
structure DecisionMakerAdapter where
  SendSchedulingIntent : Option DecisionMakerPod → List ScheduleIntent → Option Error

/-- The record `service.Service`. -/
structure Service where
  K8SAdapter : K8SAdapter
  Repo : Repository
  DMAdapter : DecisionMakerAdapter

/-- What the Go runtime and the identifier library decide during one call:
the result of `operator.GetBsonObjectUID()`, the sequence of fresh object
identifiers, and the order in which `range` visits the keys of a map. -/
structure Runtime where
  GetBsonObjectUID : Claims → Except Error ObjectID
  NewObjectID : Nat → ObjectID
  rangeOrder : List String → List String

/-- A call made to a collaborator, with its arguments. -/
inductive Call where
  | QueryPods (opt : QueryPodsOptions)
  | InsertStrategyAndIntents (strategy : ScheduleStrategy) (intents : List ScheduleIntent)
  | QueryDecisionMakerPods (opt : QueryDecisionMakerPodsOptions)
  | SendSchedulingIntent (dmPod : Option DecisionMakerPod) (intents : List ScheduleIntent)
  | BatchUpdateIntentsState (ids : List ObjectID) (state : IntentState)
  deriving DecidableEq, Repr

/-- The result of a service call: the collaborator calls made, in order, and
the returned error. -/
structure Outcome where
  calls : List Call
  err : Option Error
  deriving DecidableEq, Repr

/-! ## `CreateScheduleStrategy` (`manager/service/strategy_svc.go`) -/

/-- The state of the first loop (lines 37 to 47): the intents built so far and
the node IDs seen so far; `nodeIDsMap` is the set of seen node IDs. -/
structure IntentsAcc where
  intents : List ScheduleIntent
  nodeIDsMap : GoMap Unit
  nodeIDs : List String
  deriving DecidableEq, Repr

/-- One iteration of the loop over the matched pods (lines 40 to 47). The
identifier of the intent is the next fresh one after the strategy's. -/
def intentsStep (rt : Runtime) (strategy : ScheduleStrategy) (acc : IntentsAcc) (pod : Pod) :
    IntentsAcc :=
  let intent := NewScheduleIntent (rt.NewObjectID (acc.intents.length + 1)) strategy pod
  let intents := acc.intents ++ [intent]
  match acc.nodeIDsMap.get? pod.NodeID with
  | some _ => { acc with intents := intents }
  | none =>
    { intents := intents
      nodeIDsMap := acc.nodeIDsMap.set pod.NodeID ()
      nodeIDs := acc.nodeIDs ++ [pod.NodeID] }

/-- The loop over the matched pods (lines 37 to 47). -/
def buildIntents (rt : Runtime) (strategy : ScheduleStrategy) (pods : List Pod) : IntentsAcc :=
  pods.foldl (intentsStep rt strategy) { intents := [], nodeIDsMap := [], nodeIDs := [] }

/-- The three maps of lines 74 to 76, all keyed by agent host. -/
structure Groups where
  nodeIDIntentsMap : GoMap (List ScheduleIntent)
  nodeIDIntentIDsMap : GoMap (List ObjectID)
  nodeIDDMap : GoMap DecisionMakerPod
  deriving DecidableEq, Repr

/-- The body of the inner loop (lines 79 to 83). -/
def groupStep (dmPod : DecisionMakerPod) (g : Groups) (intent : ScheduleIntent) : Groups :=
  if intent.NodeID = dmPod.NodeID then
    { nodeIDIntentIDsMap :=
        g.nodeIDIntentIDsMap.set dmPod.Host (g.nodeIDIntentIDsMap.getD dmPod.Host [] ++ [intent.ID])
      nodeIDIntentsMap :=
        g.nodeIDIntentsMap.set dmPod.Host (g.nodeIDIntentsMap.getD dmPod.Host [] ++ [intent])
      nodeIDDMap := g.nodeIDDMap.set dmPod.Host dmPod }
  else g

/-- The nested loops of lines 77 to 85. -/
def groupIntents (dms : List DecisionMakerPod) (intents : List ScheduleIntent) : Groups :=
  dms.foldl (fun g dmPod => intents.foldl (groupStep dmPod) g)
    { nodeIDIntentsMap := [], nodeIDIntentIDsMap := [], nodeIDDMap := [] }

/-- The delivery loop (lines 86 to 97) over the hosts still to visit, after
the calls `calls` have been made. -/
def deliver (svc : Service) (g : Groups) : List String → List Call → Outcome
  | [], calls => { calls := calls, err := none }
  | host :: rest, calls =>
    let intents := g.nodeIDIntentsMap.getD host []
    let dmPod := g.nodeIDDMap.get? host
    let calls1 := calls ++ [Call.SendSchedulingIntent dmPod intents]
    match svc.DMAdapter.SendSchedulingIntent dmPod intents with
    | some err =>
      { calls := calls1
        err := some (Error.wrap ("send scheduling intents to decision maker " ++ host) err) }
    | none =>
      let ids := g.nodeIDIntentIDsMap.getD host []
      let calls2 := calls1 ++ [Call.BatchUpdateIntentsState ids IntentState.IntentStateSent]
      match svc.Repo.BatchUpdateIntentsState ids IntentState.IntentStateSent with
      | some err =>
        { calls := calls2
          err := some (Error.wrap "insert strategy and intents into repository" err) }
      | none => deliver svc g rest calls2

/-- The agent label of lines 54 to 57. -/
def dmLabel : LabelSelector := { Key := "app", Value := "decisionmaker" }

/-- The query options of lines 20 to 24. -/
def queryOptOf (strategy : ScheduleStrategy) : QueryPodsOptions :=
  { K8SNamespace := strategy.K8sNamespace
    LabelSelectors := strategy.LabelSelectors
    CommandRegex := strategy.CommandRegex }

/-- The agent query options of lines 59 to 62. -/
def dmQueryOptOf (nodeIDs : List String) : QueryDecisionMakerPodsOptions :=
  { K8SNamespace := [], NodeIDs := nodeIDs, DecisionMakerLabel := dmLabel }

/-- The strategy after line 35 has stamped it with its base entity. -/
def stampStrategy (rt : Runtime) (operatorID : ObjectID) (strategy : ScheduleStrategy) :
    ScheduleStrategy :=
  { strategy with BaseEntity := NewBaseEntity (rt.NewObjectID 0) operatorID operatorID }

/-- The method `(*Service).CreateScheduleStrategy`. -/
def CreateScheduleStrategy (rt : Runtime) (svc : Service) (operator : Claims)
    (strategy : ScheduleStrategy) : Outcome :=
  match rt.GetBsonObjectUID operator with
  | .error err =>
    { calls := [], err := some (Error.wrap ("invalid operator ID " ++ operator.UID) err) }
  | .ok operatorID =>
    let queryOpt := queryOptOf strategy
    let calls1 := [Call.QueryPods queryOpt]
    match svc.K8SAdapter.QueryPods queryOpt with
    | .error err => { calls := calls1, err := some err }
    | .ok pods =>
      if pods.length = 0 then
        { calls := calls1
          err := some (Error.httpStatus StatusNotFound "no pods match the strategy criteria"
            (Error.msg "no pods found for the given namespaces and label selectors")) }
      else
        let strategy1 := stampStrategy rt operatorID strategy
        let acc := buildIntents rt strategy1 pods
        let calls2 := calls1 ++ [Call.InsertStrategyAndIntents strategy1 acc.intents]
        match svc.Repo.InsertStrategyAndIntents strategy1 acc.intents with
        | some err =>
          { calls := calls2
            err := some (Error.wrap "insert strategy and intents into repository" err) }
        | none =>
          let dmQueryOpt := dmQueryOptOf acc.nodeIDs
          let calls3 := calls2 ++ [Call.QueryDecisionMakerPods dmQueryOpt]
          match svc.K8SAdapter.QueryDecisionMakerPods dmQueryOpt with
          | .error err => { calls := calls3, err := some err }
          | .ok dms =>
            if dms.length = 0 then { calls := calls3, err := none }
            else
              let g := groupIntents dms acc.intents
              deliver svc g (rt.rangeOrder g.nodeIDIntentsMap.keys) calls3

/-! ### Vocabulary for the statements about `CreateScheduleStrategy` -/

/-- The intents that the call builds for the matched pods `pods`. -/
def intentsOf (rt : Runtime) (operatorID : ObjectID) (strategy : ScheduleStrategy)
    (pods : List Pod) : List ScheduleIntent :=
  (buildIntents rt (stampStrategy rt operatorID strategy) pods).intents

/-- The node IDs that the call passes to `QueryDecisionMakerPods`. -/
def nodeIDsOf (rt : Runtime) (operatorID : ObjectID) (strategy : ScheduleStrategy)
    (pods : List Pod) : List String :=
  (buildIntents rt (stampStrategy rt operatorID strategy) pods).nodeIDs

/-- The call reaches line 74: the operator is valid, `QueryPods` returns the
non-empty list `pods`, the strategy and its intents are persisted, and
`QueryDecisionMakerPods` returns the non-empty list `dms`. -/
def ReachesGrouping (rt : Runtime) (svc : Service) (operator : Claims)
    (strategy : ScheduleStrategy) (operatorID : ObjectID) (pods : List Pod)
    (dms : List DecisionMakerPod) : Prop :=
  rt.GetBsonObjectUID operator = .ok operatorID ∧
  svc.K8SAdapter.QueryPods (queryOptOf strategy) = .ok pods ∧
  pods ≠ [] ∧
  svc.Repo.InsertStrategyAndIntents (stampStrategy rt operatorID strategy)
    (intentsOf rt operatorID strategy pods) = none ∧
  svc.K8SAdapter.QueryDecisionMakerPods (dmQueryOptOf (nodeIDsOf rt operatorID strategy pods))
    = .ok dms ∧
  dms ≠ []

instance (rt : Runtime) (svc : Service) (operator : Claims) (strategy : ScheduleStrategy)
    (operatorID : ObjectID) (pods : List Pod) (dms : List DecisionMakerPod) :
    Decidable (ReachesGrouping rt svc operator strategy operatorID pods dms) := by
  unfold ReachesGrouping
  infer_instance

/-- The three calls that precede the delivery loop. -/
def preludeCalls (rt : Runtime) (operatorID : ObjectID) (strategy : ScheduleStrategy)
    (pods : List Pod) : List Call :=
  [ Call.QueryPods (queryOptOf strategy),
    Call.InsertStrategyAndIntents (stampStrategy rt operatorID strategy)
      (intentsOf rt operatorID strategy pods),
    Call.QueryDecisionMakerPods (dmQueryOptOf (nodeIDsOf rt operatorID strategy pods)) ]

namespace Groups

/-- The `SendSchedulingIntent` call of the visit of `host` (lines 87 and 88). -/
def sendCall (g : Groups) (host : String) : Call :=
  Call.SendSchedulingIntent (g.nodeIDDMap.get? host) (g.nodeIDIntentsMap.getD host [])

/-- The `BatchUpdateIntentsState` call of the visit of `host` (line 92). -/
def updateCall (g : Groups) (host : String) : Call :=
  Call.BatchUpdateIntentsState (g.nodeIDIntentIDsMap.getD host []) IntentState.IntentStateSent

/-- The calls of a visit of `host` in which both calls succeed. -/
def visitCalls (g : Groups) (host : String) : List Call := [g.sendCall host, g.updateCall host]

/-- The transport accepts the batch of `host`. -/
def SendOK (g : Groups) (svc : Service) (host : String) : Prop :=
  svc.DMAdapter.SendSchedulingIntent (g.nodeIDDMap.get? host) (g.nodeIDIntentsMap.getD host [])
    = none

/-- The repository accepts the state update of the batch of `host`. -/
def UpdateOK (g : Groups) (svc : Service) (host : String) : Prop :=
  svc.Repo.BatchUpdateIntentsState (g.nodeIDIntentIDsMap.getD host [])
    IntentState.IntentStateSent = none

instance (g : Groups) (svc : Service) (host : String) : Decidable (g.SendOK svc host) := by
  unfold SendOK
  infer_instance

instance (g : Groups) (svc : Service) (host : String) : Decidable (g.UpdateOK svc host) := by
  unfold UpdateOK
  infer_instance

end Groups

namespace GoMap

/-- The effect on a map of lists of appending the elements `xs`, one
assignment `m[k] = append(m[k], x)` after the other. -/
def appendAt {α : Type} (m : GoMap (List α)) (k : String) (xs : List α) : GoMap (List α) :=
  match xs with
  | [] => m
  | _ :: _ => m.set k (m.getD k [] ++ xs)

end GoMap

/-- The batch that the grouping loops collect for `host`: for each agent pod
at that host, in list order, the intents of its node, in list order. -/
def batchOf (dms : List DecisionMakerPod) (intents : List ScheduleIntent) (host : String) :
    List ScheduleIntent :=
  (dms.filter (fun d => d.Host = host)).flatMap
    (fun d => intents.filter (fun i => i.NodeID = d.NodeID))

/-- The agent pods at `host` whose node has at least one intent, in list order. -/
def claimants (dms : List DecisionMakerPod) (intents : List ScheduleIntent) (host : String) :
    List DecisionMakerPod :=
  dms.filter (fun d => d.Host = host ∧ (intents.filter (fun i => i.NodeID = d.NodeID)) ≠ [])

/-- The deliveries recorded in a trace: the arguments of its
`SendSchedulingIntent` calls, in order. -/
def deliveries (calls : List Call) : List (Option DecisionMakerPod × List ScheduleIntent) :=
  calls.filterMap (fun c =>
    match c with
    | Call.SendSchedulingIntent d l => some (d, l)
    | _ => none)

/-- The state updates recorded in a trace: the arguments of its
`BatchUpdateIntentsState` calls, in order. -/
def stateUpdates (calls : List Call) : List (List ObjectID × IntentState) :=
  calls.filterMap (fun c =>
    match c with
    | Call.BatchUpdateIntentsState ids st => some (ids, st)
    | _ => none)

/-! ### A two-node scenario

The scenario of section 8 of the design: a strategy with selector `app=web`
matches pod `p1` on node `A` and pod `p2` on node `B`; the agent of node `A`
is at `host1:9000` and the agent of node `B` at `host2:9000`. -/

namespace Scenario

/-- The pod `p1` on node `A`. -/
def p1 : Pod :=
  { K8SNamespace := "default", Labels := [("app", "web")], PodID := "p1", NodeID := "A",
    Containers := [] }

/-- The pod `p2` on node `B`. -/
def p2 : Pod :=
  { K8SNamespace := "default", Labels := [("app", "web")], PodID := "p2", NodeID := "B",
    Containers := [] }

/-- The agent pod of node `A`. -/
def dmA : DecisionMakerPod :=
  { NodeID := "A", Port := 9000, Host := "host1", State := NodeState.NodeStateOnline }

/-- The agent pod of node `B`. -/
def dmB : DecisionMakerPod :=
  { NodeID := "B", Port := 9000, Host := "host2", State := NodeState.NodeStateOnline }

/-- A second agent pod that reports node `A`, at another host. -/
def dmA2 : DecisionMakerPod :=
  { NodeID := "A", Port := 9000, Host := "host3", State := NodeState.NodeStateOnline }

/-- A second agent pod at `host1` that reports node `A`, on another port. -/
def dmA1 : DecisionMakerPod :=
  { NodeID := "A", Port := 9001, Host := "host1", State := NodeState.NodeStateOnline }

/-- The strategy as the REST handler hands it to the service. -/
def strategy : ScheduleStrategy :=
  { BaseEntity := { ID := 0, CreatorID := 0, UpdaterID := 0 }
    StrategyNamespace := ""
    LabelSelectors := [{ Key := "app", Value := "web" }]
    K8sNamespace := []
    CommandRegex := ""
    Priority := 100
    ExecutionTime := 100 }

/-- The operator. -/
def operator : Claims := { UID := "0000000000000000000000aa" }

/-- A runtime that visits map keys in insertion order. -/
def rtForward : Runtime :=
  { GetBsonObjectUID := fun _ => .ok 170
    NewObjectID := fun n => 1000 + n
    rangeOrder := fun ks => ks }

/-- A runtime that visits map keys in reverse insertion order. -/
def rtReverse : Runtime :=
  { GetBsonObjectUID := fun _ => .ok 170
    NewObjectID := fun n => 1000 + n
    rangeOrder := fun ks => ks.reverse }

/-- The error of an unreachable agent. -/
def unreachable : Error := Error.msg "connection refused"

/-- Collaborators that find the pods `pods` and the agents `dms`, persist
everything, and deliver to every host but the hosts in `down`. -/
def svc (pods : List Pod) (dms : List DecisionMakerPod) (down : List String) : Service :=
  { K8SAdapter :=
      { QueryPods := fun _ => .ok pods
        QueryDecisionMakerPods := fun _ => .ok dms }
    Repo :=
      { InsertStrategyAndIntents := fun _ _ => none
        BatchUpdateIntentsState := fun _ _ => none }
    DMAdapter :=
      { SendSchedulingIntent := fun dmPod _ =>
          match dmPod with
          | none => some unreachable
          | some dm => if dm.Host ∈ down then some unreachable else none } }

end Scenario

/-! ## Kubernetes records (`k8s.io/api/core/v1`)

The fields of the cluster API objects that the adapter reads. -/

namespace apiv1

set_option linter.dupNamespace false in
/-- The record `apiv1.ContainerPort`. -/
structure ContainerPort where
  ContainerPort : Int
  deriving DecidableEq, Repr

/-- The record `apiv1.Container`. -/
structure Container where
  Name : String
  Command : List String
  Args : List String
  Ports : List ContainerPort
  deriving DecidableEq, Repr

/-- The record `apiv1.ContainerStatus`. -/
structure ContainerStatus where
  Name : String
  ContainerID : String
  deriving DecidableEq, Repr

/-- The record `apiv1.PodSpec`. -/
structure PodSpec where
  NodeName : String
  Containers : List Container
  deriving DecidableEq, Repr

/-- The record `apiv1.PodStatus`; a phase is a string. -/
structure PodStatus where
  Phase : String
  PodIP : String
  HostIP : String
  ContainerStatuses : List ContainerStatus
  deriving DecidableEq, Repr

/-- The record `apiv1.Pod`, with the fields of its object metadata inline. -/
structure Pod where
  UID : String
  Name : String
  Namespace : String
  Labels : GoMap String
  Spec : PodSpec
  Status : PodStatus
  deriving DecidableEq, Repr

end apiv1

/-- The constant `metav1.NamespaceAll`. -/
def NamespaceAll : String := ""

/-! ## External libraries and the cluster API client -/

/-- A parsed label selector (`labels.Selector`), as the adapter observes it:
its printed form `selector.String()` and its test `selector.Matches`. -/
structure Selector where
  asString : String
  Matches : GoMap String → Bool

/-- A compiled regular expression (`*regexp.Regexp`), as the adapter observes
it: its test `MatchString`. -/
structure Regexp where
  MatchString : String → Bool

/-- What lies outside the adapter: `labels.Parse`, `regexp.Compile`, and the
order in which `range` visits the keys of a map. -/
structure Environment where
  labelsParse : String → Except Error Selector
  regexpCompile : String → Except Error Regexp
  rangeOrder : List String → List String

/-- The cluster API client (`kubernetes.Interface`), as the adapter uses it:
`client.CoreV1().Pods(ns).List(ctx, ListOptions{LabelSelector: s})`. -/
structure Client where
  ListPods : String → String → Except Error (List apiv1.Pod)

/-! ## The adapter (`manager/k8s_adapter/adapter.go`) -/

/-- The record `Adapter`: the client (`none` is `nil`), the pod cache keyed by
pod UID, and the synced flag. The lock, the stop channel and the two `Once`
guards do not take part in a sequential run. -/
structure Adapter where
  client : Option Client
  podCache : GoMap apiv1.Pod
  cacheHasSynced : Bool

/-- The method `setPodCache`. -/
def setPodCache (a : Adapter) (pod : apiv1.Pod) : Adapter :=
  { a with podCache := a.podCache.set pod.UID pod }

/-- The method `deletePodCache`. -/
def deletePodCache (a : Adapter) (uid : String) : Adapter :=
  { a with podCache := a.podCache.delete uid }

/-- The tokens that `buildLabelSelector` collects in its slice `labels`. -/
def buildLabelSelectorTokens (selectors : List LabelSelector) : List String :=
  selectors.foldl
    (fun labels selector =>
      if selector.Key = "" then labels
      else if selector.Value = "" then labels ++ [selector.Key]
      else labels ++ [selector.Key ++ "=" ++ selector.Value])
    []

/-- The function `buildLabelSelector`. -/
def buildLabelSelector (selectors : List LabelSelector) : String :=
  String.intercalate "," (buildLabelSelectorTokens selectors)

/-- The map `statusByName` of `buildContainers`: container name to container ID. -/
def statusByName (pod : apiv1.Pod) : GoMap String :=
  pod.Status.ContainerStatuses.foldl (fun m status => m.set status.Name status.ContainerID) []

/-- The function `buildContainers`; `cmdRegex` is `none` for a `nil` pointer. -/
def buildContainers (pod : apiv1.Pod) (cmdRegex : Option Regexp) : List Container :=
  pod.Spec.Containers.foldl
    (fun result container =>
      let command := container.Command ++ container.Args
      let skip :=
        match cmdRegex with
        | some re => !re.MatchString (String.intercalate " " command)
        | none => false
      if skip then result
      else result ++ [{ ContainerID := (statusByName pod).getD container.Name ""
                        Name := container.Name
                        Command := command }])
    []

/-- The function `copyLabels`: an empty map gives `nil`, the empty map of the
embedding; otherwise the entries are copied in the order `range` visits them. -/
def copyLabels (env : Environment) (labels : GoMap String) : GoMap String :=
  if labels.length = 0 then []
  else (GoMap.range env.rangeOrder labels).foldl (fun cloned kv => cloned.set kv.1 kv.2) []

/-- The method `podsFromCache`. -/
def podsFromCache (env : Environment) (a : Adapter) (namespaces : List String)
    (selector : Selector) : List apiv1.Pod :=
  let nsAll := namespaces.length = 0 ∨
    (namespaces.length = 1 ∧ namespaces.head? = some NamespaceAll)
  let nsSet : GoMap Unit := namespaces.foldl (fun m ns => m.set ns ()) []
  (GoMap.range env.rangeOrder a.podCache).foldl
    (fun pods kv =>
      let pod := kv.2
      if ¬ nsAll ∧ (nsSet.get? pod.Namespace).isNone then pods
      else if selector.asString ≠ "" ∧ selector.Matches pod.Labels = false then pods
      else pods ++ [pod])
    []

/-- The loop of `listPodsLive` over the namespaces still to list. -/
def listPodsLiveLoop (client : Client) (labelSelector : String) :
    List String → List apiv1.Pod → Adapter → Except Error (List apiv1.Pod) × Adapter
  | [], results, a => (.ok results, a)
  | ns :: rest, results, a =>
    match client.ListPods ns labelSelector with
    | .error err => (.error (Error.wrap ("list pods in namespace " ++ ns) err), a)
    | .ok pods =>
      listPodsLiveLoop client labelSelector rest (results ++ pods) (pods.foldl setPodCache a)

/-- The method `listPodsLive`. It dereferences the client, which its callers
have checked; on a `nil` client the Go code panics, here it reports
`ErrNoClient`. -/
def listPodsLive (a : Adapter) (namespaces : List String) (labelSelector : String) :
    Except Error (List apiv1.Pod) × Adapter :=
  match a.client with
  | none => (.error Error.ErrNoClient, a)
  | some client => listPodsLiveLoop client labelSelector namespaces [] a

/-- The method `listPods`. -/
def listPods (env : Environment) (a : Adapter) (namespaces : List String)
    (labelSelector : String) : Except Error (List apiv1.Pod) × Adapter :=
  match env.labelsParse labelSelector with
  | .error err => (.error (Error.wrap ("parse label selector " ++ labelSelector.quote) err), a)
  | .ok selector =>
    if a.cacheHasSynced then (.ok (podsFromCache env a namespaces selector), a)
    else listPodsLive a namespaces labelSelector

/-- The record that `QueryPods` builds for a listed pod (lines 175 to 182). -/
def toDomainPod (env : Environment) (cmdRegex : Option Regexp) (pod : apiv1.Pod) : Pod :=
  { K8SNamespace := pod.Namespace
    Labels := copyLabels env pod.Labels
    PodID := pod.UID
    NodeID := pod.Spec.NodeName
    Containers := buildContainers pod cmdRegex }

/-- The loop of `QueryPods` over the listed pods (lines 167 to 184). -/
def queryPodsResults (env : Environment) (cmdRegex : Option Regexp) (pods : List apiv1.Pod) :
    List Pod :=
  pods.foldl
    (fun results pod =>
      if cmdRegex.isSome ∧ (buildContainers pod cmdRegex).length = 0 then results
      else results ++ [toDomainPod env cmdRegex pod])
    []

/-- The method `QueryPods`; `opt` is `none` for a `nil` pointer, and the
receiver is an adapter that exists, so the test `a == nil || a.client == nil`
is the test of the client. The result is the returned pair and the adapter
after the call. -/
def QueryPods (env : Environment) (a : Adapter) (opt : Option QueryPodsOptions) :
    Except Error (List Pod) × Adapter :=
  match opt with
  | none => (.error Error.ErrNilQueryInput, a)
  | some opt =>
    match a.client with
    | none => (.error Error.ErrNoClient, a)
    | some _ =>
      let labelSelector := buildLabelSelector opt.LabelSelectors
      let namespaces := if opt.K8SNamespace.length = 0 then [NamespaceAll] else opt.K8SNamespace
      let compiled : Except Error (Option Regexp) :=
        if opt.CommandRegex ≠ "" then
          match env.regexpCompile opt.CommandRegex with
          | .error err => .error (Error.wrap "compile command regex" err)
          | .ok re => .ok (some re)
        else .ok none
      match compiled with
      | .error err => (.error err, a)
      | .ok cmdRegex =>
        match listPods env a namespaces labelSelector with
        | (.error err, a1) => (.error err, a1)
        | (.ok pods, a1) => (.ok (queryPodsResults env cmdRegex pods), a1)

namespace apiv1

/-- The constant `apiv1.PodRunning`. -/
def PodRunning : String := "Running"

/-- The constant `apiv1.PodPending`. -/
def PodPending : String := "Pending"

end apiv1

/-- The loop of `firstContainerPort` over the containers still to visit. -/
def firstContainerPortLoop : List apiv1.Container → Int
  | [] => 0
  | container :: rest =>
    match container.Ports with
    | [] => firstContainerPortLoop rest
    | port :: _ => port.ContainerPort

/-- The function `firstContainerPort`. -/
def firstContainerPort (pod : apiv1.Pod) : Int :=
  firstContainerPortLoop pod.Spec.Containers

/-- The function `mapPodState`. -/
def mapPodState (phase : String) : NodeState :=
  if phase = apiv1.PodRunning then NodeState.NodeStateOnline
  else if phase = apiv1.PodPending then NodeState.NodeStateUnknown
  else NodeState.NodeStateOffline

/-- The record that `QueryDecisionMakerPods` builds for a listed pod that
passes the node filter (lines 221 to 231). -/
def toDecisionMakerPod (pod : apiv1.Pod) : DecisionMakerPod :=
  let host := if pod.Status.PodIP = "" then pod.Status.HostIP else pod.Status.PodIP
  { NodeID := pod.Spec.NodeName
    Port := firstContainerPort pod
    Host := host
    State := mapPodState pod.Status.Phase }

/-- The loop of `QueryDecisionMakerPods` over the listed pods (lines 213 to
232); `nodeFilters` is the set of the requested node IDs. -/
def queryDecisionMakerPodsResults (nodeFilters : GoMap Unit) (pods : List apiv1.Pod) :
    List DecisionMakerPod :=
  pods.foldl
    (fun results pod =>
      if nodeFilters.length > 0 ∧ (nodeFilters.get? pod.Spec.NodeName).isNone then results
      else results ++ [toDecisionMakerPod pod])
    []

/-- The method `QueryDecisionMakerPods`; `opt` is `none` for a `nil` pointer. -/
def QueryDecisionMakerPods (env : Environment) (a : Adapter)
    (opt : Option QueryDecisionMakerPodsOptions) :
    Except Error (List DecisionMakerPod) × Adapter :=
  match opt with
  | none => (.error Error.ErrNilQueryInput, a)
  | some opt =>
    match a.client with
    | none => (.error Error.ErrNoClient, a)
    | some _ =>
      let labelSelector := buildLabelSelector [opt.DecisionMakerLabel]
      let namespaces := if opt.K8SNamespace.length = 0 then [NamespaceAll] else opt.K8SNamespace
      let nodeFilters : GoMap Unit := opt.NodeIDs.foldl (fun m id => m.set id ()) []
      match listPods env a namespaces labelSelector with
      | (.error err, a1) => (.error err, a1)
      | (.ok pods, a1) => (.ok (queryDecisionMakerPodsResults nodeFilters pods), a1)

/-! ### The Directory as a sequence of steps

The watcher callbacks of `startPodWatcher`, the cache write of `listPodsLive`
and the queries all take the cache lock, so a run of the Directory is a
sequence of atomic steps on the adapter. -/

/-- A step of the Directory. -/
inductive DirectoryStep where
  /-- An add or update event: `AddFunc` and `UpdateFunc` call `setPodCache`. -/
  | addOrUpdate (pod : apiv1.Pod)
  /-- A delete event: `DeleteFunc` calls `deletePodCache` with the pod UID. -/
  | delete (uid : String)
  /-- The cache write of line 285, by a live-query fallback, of a pod that the
  fallback has listed at some earlier moment. -/
  | liveWrite (pod : apiv1.Pod)
  /-- A query: a call of `listPods`. -/
  | query (namespaces : List String) (labelSelector : String)

/-- The effect of one step: the adapter after it, and the result it returns
when it is a query. -/
def stepDirectory (env : Environment) (a : Adapter) :
    DirectoryStep → Adapter × List (Except Error (List apiv1.Pod))
  | DirectoryStep.addOrUpdate pod => (setPodCache a pod, [])
  | DirectoryStep.delete uid => (deletePodCache a uid, [])
  | DirectoryStep.liveWrite pod => (setPodCache a pod, [])
  | DirectoryStep.query namespaces labelSelector =>
    ((listPods env a namespaces labelSelector).2, [(listPods env a namespaces labelSelector).1])

/-- A run of the Directory: the adapter after the steps and the results of
the queries among them, in order. -/
def runDirectory (env : Environment) : Adapter → List DirectoryStep →
    Adapter × List (Except Error (List apiv1.Pod))
  | a, [] => (a, [])
  | a, step :: rest =>
    ((runDirectory env (stepDirectory env a step).1 rest).1,
      (stepDirectory env a step).2 ++ (runDirectory env (stepDirectory env a step).1 rest).2)

/-- The cache is a map whose every entry is stored under the UID of its pod,
as `setPodCache` stores it. -/
def CacheWellKeyed (m : GoMap apiv1.Pod) : Prop :=
  m.WF ∧ ∀ kv ∈ m, kv.2.UID = kv.1

instance (m : GoMap apiv1.Pod) : Decidable (CacheWellKeyed m) := by
  unfold CacheWellKeyed
  infer_instance

/-- The step is an add or update event, or a live-query cache write, for the
pod UID `uid`. -/
def DirectoryStep.writes (uid : String) : DirectoryStep → Prop
  | DirectoryStep.addOrUpdate pod => pod.UID = uid
  | DirectoryStep.liveWrite pod => pod.UID = uid
  | _ => False

/-! ### Vocabulary for the statements about the adapter -/

/-- A label map satisfies a selector (section 3 of the design): the key is
present when the selector's value is empty, the key maps to exactly that value
otherwise. -/
def LabelSelector.satisfiedBy (selector : LabelSelector) (labels : GoMap String) : Bool :=
  if selector.Value = "" then (labels.get? selector.Key).isSome
  else decide (labels.get? selector.Key = some selector.Value)

/-- The cluster API server that holds the pods `snapshot` and does not fail
(section 6 of the design: a listing operation per namespace with
label-selector filtering): the pods of the namespace, every pod for
`NamespaceAll`, that the parsed selector matches. -/
def snapshotClient (env : Environment) (snapshot : List apiv1.Pod) : Client :=
  { ListPods := fun ns labelSelector =>
      match env.labelsParse labelSelector with
      | .error err => .error err
      | .ok selector =>
        .ok (snapshot.filter
          (fun pod => (decide (ns = NamespaceAll) || decide (pod.Namespace = ns)) &&
            selector.Matches pod.Labels)) }

/-- The cache that the watcher builds from add events for the pods `snapshot`. -/
def cacheOf (snapshot : List apiv1.Pod) : GoMap apiv1.Pod :=
  snapshot.foldl (fun m pod => m.set pod.UID pod) []

/-- Two results of a listing agree: both fail with the same error, or both
succeed with the same pods up to order. -/
def SameListing : Except Error (List apiv1.Pod) → Except Error (List apiv1.Pod) → Prop
  | .ok pods1, .ok pods2 => pods1.Perm pods2
  | .error err1, .error err2 => err1 = err2
  | _, _ => False

/-! ### Fixtures for the adapter -/

namespace Scenario

/-- The pieces of a character list between the separators `sep`. -/
def splitChars (sep : Char) : List Char → List (List Char)
  | [] => [[]]
  | c :: cs =>
    if c = sep then [] :: splitChars sep cs
    else
      match splitChars sep cs with
      | [] => [[c]]
      | w :: ws => (c :: w) :: ws

/-- The requirement that a token `key` or `key=value` stands for. -/
def requirementOf (token : List Char) : LabelSelector :=
  match splitChars '=' token with
  | [] => { Key := "", Value := "" }
  | [key] => { Key := String.mk key, Value := "" }
  | key :: value :: _ => { Key := String.mk key, Value := String.mk value }

/-- A stand-in for `labels.Parse` in the examples: the empty string is the
selector that matches everything, and any other string is read as a
comma-separated list of `key` and `key=value` requirements. It validates
nothing and knows no other operator. -/
def plainParse (s : String) : Except Error Selector :=
  if s = "" then .ok { asString := "", Matches := fun _ => true }
  else
    .ok { asString := s
          Matches := fun labels =>
            ((splitChars ',' s.data).map requirementOf).all (fun r => r.satisfiedBy labels) }

/-- A stand-in for `regexp.Compile` in the examples: the pattern `(` does not
compile, and any other pattern matches the texts that contain it. -/
def plainCompile (pattern : String) : Except Error Regexp :=
  if pattern = "(" then .error (Error.msg "missing closing )")
  else .ok { MatchString := fun text => decide (pattern.data <:+: text.data) }

/-- An environment that visits map keys in insertion order. -/
def env : Environment :=
  { labelsParse := plainParse, regexpCompile := plainCompile, rangeOrder := fun ks => ks }

/-- An environment that visits map keys in reverse insertion order. -/
def envReverse : Environment :=
  { labelsParse := plainParse, regexpCompile := plainCompile, rangeOrder := fun ks => ks.reverse }

/-- A web pod in namespace `ns1` on node `node-1`, with a server container and
a sidecar container. -/
def webPod : apiv1.Pod :=
  { UID := "uid-1", Name := "web-1", Namespace := "ns1", Labels := [("app", "web")]
    Spec :=
      { NodeName := "node-1"
        Containers :=
          [ { Name := "c1", Command := ["serve"], Args := ["--port", "80"], Ports := [] },
            { Name := "c2", Command := ["sidecar"], Args := [], Ports := [] } ] }
    Status :=
      { Phase := "Running", PodIP := "10.0.0.1", HostIP := "10.0.0.2"
        ContainerStatuses := [{ Name := "c1", ContainerID := "docker://123" }] } }

/-- A database pod in namespace `ns2` on node `node-2`. -/
def dbPod : apiv1.Pod :=
  { UID := "uid-2", Name := "db-1", Namespace := "ns2", Labels := [("app", "db")]
    Spec :=
      { NodeName := "node-2"
        Containers := [{ Name := "c1", Command := ["postgres"], Args := [], Ports := [] }] }
    Status :=
      { Phase := "Running", PodIP := "10.0.1.1", HostIP := "10.0.1.2"
        ContainerStatuses := [] } }

/-- An adapter whose cache holds the pods `snapshot`, with the synced flag
`synced` and a client for a cluster that holds the same pods. -/
def adapter (e : Environment) (snapshot : List apiv1.Pod) (synced : Bool) : Adapter :=
  { client := some (snapshotClient e snapshot)
    podCache := cacheOf snapshot
    cacheHasSynced := synced }

end Scenario

/-! ## Go library functions used by the agent

The functions of the Go standard library that the process resolver calls,
restricted to the way it calls them: the separators and the replaced text are
single characters. A string is its list of characters. -/

namespace strings

/-- The pieces of a character list between the occurrences of `sep`. -/
def splitList (sep : Char) : List Char → List (List Char)
  | [] => [[]]
  | c :: cs =>
    if c = sep then [] :: splitList sep cs
    else
      match splitList sep cs with
      | [] => [[c]]
      | w :: ws => (c :: w) :: ws

/-- The function `strings.Split(s, sep)` for a separator of one character. -/
def Split (s : String) (sep : Char) : List String :=
  (splitList sep s.data).map String.mk

/-- The function `strings.HasPrefix`. -/
def HasPrefix (s p : String) : Bool := p.data.isPrefixOf s.data

/-- The function `strings.TrimPrefix`. -/
def TrimPrefix (s p : String) : String :=
  if HasPrefix s p then String.mk (s.data.drop p.data.length) else s

/-- The function `strings.ReplaceAll(s, old, new)` for texts of one character. -/
def ReplaceAll (s : String) (old new : Char) : String :=
  String.mk (s.data.map (fun c => if c = old then new else c))

/-- The function `strings.Contains`. -/
def Contains (s sub : String) : Bool := decide (sub.data <:+: s.data)

/-- The predicate `unicode.IsSpace`: the code points with the property
`White_Space`. -/
def isSpace (c : Char) : Bool :=
  decide ((9 ≤ c.toNat ∧ c.toNat ≤ 13) ∨ c.toNat = 32 ∨ c.toNat = 133 ∨ c.toNat = 160 ∨
    c.toNat = 5760 ∨ (8192 ≤ c.toNat ∧ c.toNat ≤ 8202) ∨ c.toNat = 8232 ∨ c.toNat = 8233 ∨
    c.toNat = 8239 ∨ c.toNat = 8287 ∨ c.toNat = 12288)

/-- The function `strings.TrimSpace`. -/
def TrimSpace (s : String) : String :=
  String.mk (((s.data.dropWhile isSpace).reverse.dropWhile isSpace).reverse)

/-- The fields of a character list; `current` holds, reversed, the characters
of the field being read. -/
def fieldsList : List Char → List Char → List String
  | [], current => if current.isEmpty then [] else [String.mk current.reverse]
  | c :: cs, current =>
    if isSpace c then
      if current.isEmpty then fieldsList cs []
      else String.mk current.reverse :: fieldsList cs []
    else fieldsList cs (c :: current)

/-- The function `strings.Fields`. -/
def Fields (s : String) : List String := fieldsList s.data []

end strings

namespace strconv

/-- The value of a list of decimal digits read after the value `acc`, or
`none` when a character is not a decimal digit. -/
def parseDigits : List Char → Nat → Option Nat
  | [], acc => some acc
  | c :: cs, acc =>
    if 48 ≤ c.toNat ∧ c.toNat ≤ 57 then parseDigits cs (acc * 10 + (c.toNat - 48)) else none

/-- The function `strconv.Atoi`: an optional sign followed by one or more
decimal digits, whose value fits the 64-bit type `int`. -/
def Atoi (s : String) : Except Error Int :=
  let signed : Bool × List Char :=
    match s.data with
    | '-' :: cs => (true, cs)
    | '+' :: cs => (false, cs)
    | cs => (false, cs)
  if signed.2.isEmpty then .error (Error.msg "strconv.Atoi: invalid syntax")
  else
    match parseDigits signed.2 0 with
    | none => .error (Error.msg "strconv.Atoi: invalid syntax")
    | some n =>
      let value : Int := if signed.1 then -(n : Int) else (n : Int)
      if -9223372036854775808 ≤ value ∧ value ≤ 9223372036854775807 then .ok value
      else .error (Error.msg "strconv.Atoi: value out of range")

end strconv

/-! ## The agent-side process resolver (`decisionmaker/service/service.go`) -/

namespace DecisionMaker

/-- The record `domain.PodProcess` of the agent. -/
structure PodProcess where
  PID : Int
  Command : String
  PPID : Int
  deriving DecidableEq, Repr

/-- The record `domain.PodInfo` of the agent. -/
structure PodInfo where
  PodName : String
  Namespace : String
  PodUID : String
  ContainerID : String
  Processes : List PodProcess
  deriving DecidableEq, Repr

/-- An entry of a directory (`os.DirEntry`), as the resolver reads it. -/
structure DirEntry where
  Name : String
  IsDir : Bool
  deriving DecidableEq, Repr

/-- The process-table file system: `os.ReadDir`, `os.Open` followed by a line
scanner (the lines of the file), and `os.ReadFile`. -/
structure FileSystem where
  ReadDir : String → Except Error (List DirEntry)
  Open : String → Except Error (List String)
  ReadFile : String → Except Error String

/-- The constant `procDir`. -/
def procDir : String := "/proc"

/-- The loop of `getPodInfoFromCgroup` over the segments still to visit: the
pod UID and the container ID that the first segment starting with `pod`
gives, or `none` when no segment starts with `pod`. -/
def getPodInfoLoop : List String → Option (String × String)
  | [] => none
  | part :: rest =>
    if strings.HasPrefix part "pod" then
      some (strings.ReplaceAll (strings.TrimPrefix part "pod") '_' '-', rest.head?.getD "")
    else getPodInfoLoop rest

/-- The method `getPodInfoFromCgroup`. -/
def getPodInfoFromCgroup (cgroupPath : String) : Except Error (String × String) :=
  let found := (getPodInfoLoop (strings.Split cgroupPath '/')).getD ("", "")
  if found.1 = "" then .error (Error.msg "pod UID not found in cgroup path")
  else .ok (found.1, found.2)

/-- The path of line 64, `fmt.Sprintf("%s/%d/cgroup", rootDir, pid)`. -/
def cgroupPathOf (rootDir : String) (pid : Int) : String :=
  rootDir ++ "/" ++ toString pid ++ "/cgroup"

/-- The path of line 159, `fmt.Sprintf("/%s/%d/comm", rootDir, pid)`. -/
def commPathOf (rootDir : String) (pid : Int) : String :=
  "/" ++ rootDir ++ "/" ++ toString pid ++ "/comm"

/-- The path of line 165, `fmt.Sprintf("/%s/%d/stat", rootDir, pid)`. -/
def statPathOf (rootDir : String) (pid : Int) : String :=
  "/" ++ rootDir ++ "/" ++ toString pid ++ "/stat"

/-- The method `getProcessInfo`; its error result is always `nil`. -/
def getProcessInfo (fs : FileSystem) (rootDir : String) (pid : Int) : Except Error PodProcess :=
  let process0 : PodProcess := { PID := pid, Command := "", PPID := 0 }
  let process1 : PodProcess :=
    match fs.ReadFile (commPathOf rootDir pid) with
    | .ok data => { process0 with Command := strings.TrimSpace data }
    | .error _ => process0
  let process2 : PodProcess :=
    match fs.ReadFile (statPathOf rootDir pid) with
    | .ok data =>
      let fields := strings.Fields data
      if fields.length ≥ 4 then
        match strconv.Atoi (fields.getD 3 "") with
        | .ok ppid => { process1 with PPID := ppid }
        | .error _ => process1
      else process1
    | .error _ => process1
  .ok process2

/-- The method `parseCgroupToPodInfo`: the returned error and the map after
the call (the map holds pointers, so an update of a pod info is an update of
its entry). -/
def parseCgroupToPodInfo (fs : FileSystem) (rootDir : String) (line : String) (pid : Int)
    (podInfoMap : GoMap PodInfo) : Option Error × GoMap PodInfo :=
  let parts := strings.Split line ':'
  if parts.length ≥ 3 then
    match getPodInfoFromCgroup (parts.getD 2 "") with
    | .error err => (some err, podInfoMap)
    | .ok (podUID, containerID) =>
      match getProcessInfo fs rootDir pid with
      | .error err => (some err, podInfoMap)
      | .ok process =>
        match podInfoMap.get? podUID with
        | some podInfo =>
          let podInfo1 : PodInfo := { podInfo with Processes := podInfo.Processes ++ [process] }
          let podInfo2 : PodInfo :=
            if containerID ≠ "" ∧ podInfo1.ContainerID = "" then
              { podInfo1 with ContainerID := containerID }
            else podInfo1
          (none, podInfoMap.set podUID podInfo2)
        | none =>
          (none, podInfoMap.set podUID
            { PodName := "", Namespace := "", PodUID := podUID, ContainerID := containerID,
              Processes := [process] })
  else (none, podInfoMap)

/-- The scanner loop of lines 71 to 80 over the lines still to read. -/
def scanLines (fs : FileSystem) (rootDir : String) (pid : Int) :
    List String → GoMap PodInfo → GoMap PodInfo
  | [], podMap => podMap
  | line :: rest, podMap =>
    if strings.Contains line "kubepods" then
      match parseCgroupToPodInfo fs rootDir line pid podMap with
      | (some _, podMap1) => podMap1
      | (none, podMap1) => scanLines fs rootDir pid rest podMap1
    else scanLines fs rootDir pid rest podMap

/-- The state of the loop over the directory entries: the pod map, and the
paths that `os.Open` has been called with. -/
structure ScanState where
  podMap : GoMap PodInfo
  opened : List String
  deriving DecidableEq, Repr

/-- The body of the loop over the directory entries (lines 51 to 84). -/
def scanEntry (fs : FileSystem) (rootDir : String) (st : ScanState) (entry : DirEntry) :
    ScanState :=
  if entry.IsDir = false then st
  else
    match strconv.Atoi entry.Name with
    | .error _ => st
    | .ok pid =>
      let opened := st.opened ++ [cgroupPathOf rootDir pid]
      match fs.Open (cgroupPathOf rootDir pid) with
      | .error _ => { st with opened := opened }
      | .ok lines => { podMap := scanLines fs rootDir pid lines st.podMap, opened := opened }

/-- The result of a scan: the returned pair, and the paths that `os.Open` has
been called with, in order. -/
structure Scan where
  result : Except Error (List PodInfo)
  opened : List String
  deriving DecidableEq, Repr

/-- The method `FindPodInfoFrom`; `rangeOrder` is the order in which `range`
visits the keys of the pod map. The cause of the error is formatted with
`%v`; the embedding keeps the cause itself. -/
def FindPodInfoFrom (rangeOrder : List String → List String) (fs : FileSystem)
    (rootDir : String) : Scan :=
  match fs.ReadDir rootDir with
  | .error err => { result := .error (Error.wrap "failed to read /proc directory" err), opened := [] }
  | .ok entries =>
    let st := entries.foldl (scanEntry fs rootDir) { podMap := [], opened := [] }
    { result := .ok ((GoMap.range rangeOrder st.podMap).map Prod.snd), opened := st.opened }

/-- The method `GetAllPodInfos`. -/
def GetAllPodInfos (rangeOrder : List String → List String) (fs : FileSystem) : Scan :=
  FindPodInfoFrom rangeOrder fs procDir

/-- The file system `fs` with the entries `entries` in every directory. -/
def FileSystem.withEntries (fs : FileSystem) (entries : List DirEntry) : FileSystem :=
  { fs with ReadDir := fun _ => .ok entries }

/-- The entry is a process candidate of the scan: a directory whose name
`strconv.Atoi` accepts. -/
def candidatePath (rootDir : String) (entry : DirEntry) : Option String :=
  if entry.IsDir = false then none
  else
    match strconv.Atoi entry.Name with
    | .error _ => none
    | .ok pid => some (cgroupPathOf rootDir pid)

end DecisionMaker

/-! ### Fixtures for the agent -/

namespace Scenario

/-- The cgroup line of the design. -/
def cgroupLine : String := "9:cpuset:/kubepods/burstable/pod123abc_456def/docker-abcdef.scope"

/-- A process table in which every directory holds the entries `entries`,
every cgroup record that can be opened has the single line `cgroupLine`, the
cgroup record `/proc/7/cgroup` cannot be opened, every `comm` record reads
`nginx` and every `stat` record names the parent process 1. -/
def procFS (entries : List DecisionMaker.DirEntry) : DecisionMaker.FileSystem :=
  { ReadDir := fun _ => .ok entries
    Open := fun path =>
      if path = "/proc/7/cgroup" then .error (Error.msg "no such file or directory")
      else .ok [cgroupLine]
    ReadFile := fun path =>
      if "/comm".data.isSuffixOf path.data then .ok "nginx\n"
      else if "/stat".data.isSuffixOf path.data then .ok "42 (nginx) S 1 42 42 0"
      else .error (Error.msg "no such file or directory") }

end Scenario

namespace Scenario

/-- The pod info of another pod, with a container ID and no process. -/
def otherInfo : DecisionMaker.PodInfo :=
  { PodName := "", Namespace := "", PodUID := "other", ContainerID := "x", Processes := [] }

/-- The pod info of the pod of `cgroupLine` after a first process, with no
container ID yet. -/
def webInfo : DecisionMaker.PodInfo :=
  { PodName := "", Namespace := "", PodUID := "123abc-456def", ContainerID := "",
    Processes := [{ PID := 42, Command := "nginx", PPID := 1 }] }

/-- A pod map with the two pod infos. -/
def podInfoMap : GoMap DecisionMaker.PodInfo :=
  [("other", otherInfo), ("123abc-456def", webInfo)]

end Scenario

/-- The token of a label selector in the words of the design (section 4.1):
the key alone (existence) when the value is empty, `key=value` (equality)
otherwise. -/
def selectorToken (selector : LabelSelector) : String :=
  if selector.Value = "" then selector.Key else selector.Key ++ "=" ++ selector.Value

/-- The selector string in the words of the design: one token per selector,
in input order, joined by commas. -/
def joinedSelectorTokens (selectors : List LabelSelector) : String :=
  String.intercalate "," (selectors.map selectorToken)

namespace Scenario

/-- An agent pod scheduled on node `A` whose status has no address yet. -/
def dmPendingA : DecisionMakerPod :=
  { NodeID := "A", Port := 9000, Host := "", State := NodeState.NodeStateUnknown }

/-- An agent pod scheduled on node `B` whose status has no address yet. -/
def dmPendingB : DecisionMakerPod :=
  { NodeID := "B", Port := 9000, Host := "", State := NodeState.NodeStateUnknown }

end Scenario

namespace DecisionMaker

/-- The process ID of a directory entry that is a process candidate of the
scan: the value that `strconv.Atoi` gives for the name of a directory. -/
def candidatePid (entry : DirEntry) : Option Int :=
  if entry.IsDir = false then none
  else
    match strconv.Atoi entry.Name with
    | .error _ => none
    | .ok pid => some pid

/-- The process lists of the pod map hold each process ID at most once, and
only process IDs of `pids`. -/
def PidsWithin (podMap : GoMap PodInfo) (pids : List Int) : Prop :=
  ∀ kv ∈ podMap, (kv.2.Processes.map (fun p => p.PID)).Nodup ∧
    ∀ p ∈ kv.2.Processes, p.PID ∈ pids

end DecisionMaker

namespace Scenario

/-- A process table as `procFS` in which every cgroup record has two lines
with the marker `kubepods`, one per controller, for the same pod. -/
def procFSTwoLines (entries : List DecisionMaker.DirEntry) : DecisionMaker.FileSystem :=
  { procFS entries with
    Open := fun _ =>
      .ok [ "9:cpuset:/kubepods/burstable/pod123abc_456def/docker-abcdef.scope",
            "8:memory:/kubepods/burstable/pod123abc_456def/docker-abcdef.scope" ] }

end Scenario

namespace Scenario

/-- A process table under the relative directory `testdata/proc` of the
working directory, with the single process 42: its records are found under
the paths `testdata/proc/42/cgroup`, `testdata/proc/42/comm` and
`testdata/proc/42/stat`, and there is no directory `/testdata`. -/
def relativeFS : DecisionMaker.FileSystem :=
  { ReadDir := fun path =>
      if path = "testdata/proc" then .ok [{ Name := "42", IsDir := true }]
      else .error (Error.msg "no such file or directory")
    Open := fun path =>
      if path = "testdata/proc/42/cgroup" then .ok [cgroupLine]
      else .error (Error.msg "no such file or directory")
    ReadFile := fun path =>
      if path = "testdata/proc/42/comm" then .ok "nginx\n"
      else if path = "testdata/proc/42/stat" then .ok "42 (nginx) S 1 42 42 0"
      else .error (Error.msg "no such file or directory") }

end Scenario

/-! ## The agent transport (`manager/client/deicison_maker.go`) and the text of an agent pod -/

namespace strconv

/-- The function `strconv.Itoa`: the decimal digits of the number, after a
minus sign when it is negative. -/
def Itoa (n : Int) : String := toString n

end strconv

/-- The Go conversion `rune(n)` of an `int`: the value is cut to 32 bits and
read as a signed number. -/
def runeOfInt (n : Int) : Int := (n + 2147483648) % 4294967296 - 2147483648

/-- The Go conversion `string(r)` of a rune: the text of the single code point
`r`, or of the replacement character U+FFFD when `r` is not a valid code
point. -/
def stringOfRune (r : Int) : String :=
  if 0 ≤ r ∧ Nat.isValidChar r.toNat then String.singleton (Char.ofNat r.toNat)
  else String.singleton (Char.ofNat 65533)

/-- The method `(*DecisionMakerPod).String` (`manager/domain/k8s_resource.go`,
lines 10 to 12). -/
def DecisionMakerPod.String (d : DecisionMakerPod) : String :=
  "(" ++ d.NodeID ++ ")" ++ d.Host ++ ":" ++ stringOfRune (runeOfInt d.Port)

namespace dmrest

/-- The record `dmrest.Intent` (`decisionmaker/rest/handler.go`). -/
structure Intent where
  PodID : String
  NodeID : String
  K8sNamespace : String
  CommandRegex : String
  Priority : Int
  ExecutionTime : Int
  PodLabels : GoMap String
  deriving DecidableEq, Repr

/-- The record `dmrest.HandleIntentsRequest`. -/
structure HandleIntentsRequest where
  Intents : List Intent
  deriving DecidableEq, Repr

end dmrest

/-- An HTTP request, as the transport builds it: method, URL, the header
`Content-Type` and the body. -/
structure HTTPRequest where
  Method : String
  URL : String
  ContentType : String
  Body : String
  deriving DecidableEq, Repr

/-- An HTTP response, as the transport reads it. -/
structure HTTPResponse where
  StatusCode : Int
  Status : String
  deriving DecidableEq, Repr

/-- The constant `http.MethodPost`. -/
def MethodPost : String := "POST"

/-- The constant `http.StatusOK`. -/
def StatusOK : Int := 200

/-- The record `DecisionMakerClient`: the embedded HTTP client (`Do`) and the
library functions `json.Marshal` and `http.NewRequestWithContext`. -/
structure DecisionMakerClient where
  jsonMarshal : dmrest.HandleIntentsRequest → Except Error String
  NewRequest : String → String → String → Except Error HTTPRequest
  Do : HTTPRequest → Except Error HTTPResponse

/-- The method `DecisionMakerClient.SendSchedulingIntent`, for an agent pod
that exists (the first line dereferences the pointer). -/
def DecisionMakerClient.SendSchedulingIntent (dm : DecisionMakerClient)
    (decisionMaker : DecisionMakerPod) (intents : List ScheduleIntent) : Option Error :=
  let reqPayload : dmrest.HandleIntentsRequest :=
    { Intents := intents.map (fun intent =>
        { PodID := intent.PodID
          NodeID := intent.NodeID
          K8sNamespace := intent.K8sNamespace
          CommandRegex := intent.CommandRegex
          Priority := intent.Priority
          ExecutionTime := intent.ExecutionTime
          PodLabels := intent.PodLabels }) }
  match dm.jsonMarshal reqPayload with
  | .error err => some err
  | .ok jsonBody =>
    let endpoint := "http://" ++ decisionMaker.Host ++ ":" ++ strconv.Itoa decisionMaker.Port ++
      "/api/v1/intents"
    match dm.NewRequest MethodPost endpoint jsonBody with
    | .error err => some err
    | .ok req =>
      let req1 : HTTPRequest := { req with ContentType := "application/json" }
      match dm.Do req1 with
      | .error err => some err
      | .ok resp =>
        if resp.StatusCode ≠ StatusOK then
          some (Error.msg ("decision maker " ++ decisionMaker.String ++
            " returned non-OK status: " ++ resp.Status))
        else none

namespace Scenario

/-- A transport whose only agent, at `http://host1:9000/api/v1/intents`, is
out of service; every other URL answers `200 OK`. The body of a request is a
fixed text. -/
def agentOutOfService : DecisionMakerClient :=
  { jsonMarshal := fun _ => .ok "intents"
    NewRequest := fun method url body =>
      .ok { Method := method, URL := url, ContentType := "", Body := body }
    Do := fun req =>
      if req.URL = "http://host1:9000/api/v1/intents" then
        .ok { StatusCode := 503, Status := "503 Service Unavailable" }
      else .ok { StatusCode := 200, Status := "200 OK" } }

end Scenario

namespace DecisionMaker

/-- The pod UIDs to which the scanner loop of lines 71 to 80 appends the
process of a cgroup record: one for each line that holds the marker
`kubepods`, has at least three fields between `:` and resolves to a pod, in
line order, up to the first such line with three fields that does not
resolve (where the loop is left). -/
def appendedPods : List String → List String
  | [] => []
  | line :: rest =>
    if strings.Contains line "kubepods" then
      if (strings.Split line ':').length ≥ 3 then
        match getPodInfoFromCgroup ((strings.Split line ':').getD 2 "") with
        | .error _ => []
        | .ok found => found.1 :: appendedPods rest
      else appendedPods rest
    else appendedPods rest

/-- The process IDs that the visit of a directory entry appends to the process
list of the pod `podUID`: the process ID of a candidate whose cgroup record
can be opened, once for each append of that record to the pod. -/
def appendedPids (fs : FileSystem) (rootDir : String) (entry : DirEntry) (podUID : String) :
    List Int :=
  match candidatePid entry with
  | none => []
  | some pid =>
    match fs.Open (cgroupPathOf rootDir pid) with
    | .error _ => []
    | .ok lines => ((appendedPods lines).filter (fun u => u = podUID)).map (fun _ => pid)

/-- The process IDs of the process list that the pod map holds for a key, in
list order; none for an absent key. -/
def pidsOf (podMap : GoMap PodInfo) (key : String) : List Int :=
  match podMap.get? key with
  | none => []
  | some podInfo => podInfo.Processes.map (fun p => p.PID)

end DecisionMaker

/-! ## Lemmas about `CreateScheduleStrategy` -/

theorem deliver_append (svc : Service) (g : Groups) (hosts : List String) (calls : List Call) :
    deliver svc g hosts calls =
      { calls := calls ++ (deliver svc g hosts []).calls, err := (deliver svc g hosts []).err } := by
  induction hosts generalizing calls with
  | nil => simp [deliver]
  | cons host rest ih =>
    simp only [deliver, List.nil_append]
    cases hs : svc.DMAdapter.SendSchedulingIntent (g.nodeIDDMap.get? host)
        (g.nodeIDIntentsMap.getD host []) with
    | some e => simp
    | none =>
      cases hu : svc.Repo.BatchUpdateIntentsState (g.nodeIDIntentIDsMap.getD host [])
          IntentState.IntentStateSent with
      | some e => simp
      | none =>
        simp only
        rw [ih (calls ++ [_] ++ [_]), ih ([_] ++ [_])]
        simp

theorem deliver_all_ok (svc : Service) (g : Groups) (hosts : List String) (calls : List Call)
    (hok : ∀ h ∈ hosts, g.SendOK svc h ∧ g.UpdateOK svc h) :
    deliver svc g hosts calls = { calls := calls ++ hosts.flatMap g.visitCalls, err := none } := by
  induction hosts generalizing calls with
  | nil => simp [deliver]
  | cons host rest ih =>
    have h1 := (hok host (List.mem_cons_self _ _)).1
    have h2 := (hok host (List.mem_cons_self _ _)).2
    unfold Groups.SendOK at h1
    unfold Groups.UpdateOK at h2
    simp only [deliver, h1, h2]
    rw [ih _ (fun h hh => hok h (List.mem_cons_of_mem _ hh))]
    simp [Groups.visitCalls, Groups.sendCall, Groups.updateCall]

theorem deliver_send_fails (svc : Service) (g : Groups) (pre post : List String) (host : String)
    (calls : List Call) (e : Error)
    (hok : ∀ h ∈ pre, g.SendOK svc h ∧ g.UpdateOK svc h)
    (hfail : svc.DMAdapter.SendSchedulingIntent (g.nodeIDDMap.get? host)
      (g.nodeIDIntentsMap.getD host []) = some e) :
    deliver svc g (pre ++ host :: post) calls =
      { calls := calls ++ pre.flatMap g.visitCalls ++ [g.sendCall host]
        err := some (Error.wrap ("send scheduling intents to decision maker " ++ host) e) } := by
  induction pre generalizing calls with
  | nil => simp [deliver, hfail, Groups.sendCall]
  | cons p pre ih =>
    have h1 := (hok p (List.mem_cons_self _ _)).1
    have h2 := (hok p (List.mem_cons_self _ _)).2
    unfold Groups.SendOK at h1
    unfold Groups.UpdateOK at h2
    rw [List.cons_append]
    simp only [deliver, h1, h2]
    rw [ih _ (fun h hh => hok h (List.mem_cons_of_mem _ hh))]
    simp [Groups.visitCalls, Groups.sendCall, Groups.updateCall]

theorem deliver_update_fails (svc : Service) (g : Groups) (pre post : List String)
    (host : String) (calls : List Call) (e : Error)
    (hok : ∀ h ∈ pre, g.SendOK svc h ∧ g.UpdateOK svc h)
    (hsend : g.SendOK svc host)
    (hfail : svc.Repo.BatchUpdateIntentsState (g.nodeIDIntentIDsMap.getD host [])
      IntentState.IntentStateSent = some e) :
    deliver svc g (pre ++ host :: post) calls =
      { calls := calls ++ pre.flatMap g.visitCalls ++ g.visitCalls host
        err := some (Error.wrap "insert strategy and intents into repository" e) } := by
  unfold Groups.SendOK at hsend
  induction pre generalizing calls with
  | nil => simp [deliver, hsend, hfail, Groups.visitCalls, Groups.sendCall, Groups.updateCall]
  | cons p pre ih =>
    have h1 := (hok p (List.mem_cons_self _ _)).1
    have h2 := (hok p (List.mem_cons_self _ _)).2
    unfold Groups.SendOK at h1
    unfold Groups.UpdateOK at h2
    rw [List.cons_append]
    simp only [deliver, h1, h2]
    rw [ih _ (fun h hh => hok h (List.mem_cons_of_mem _ hh))]
    simp [Groups.visitCalls, Groups.sendCall, Groups.updateCall]

theorem CreateScheduleStrategy_of_reaches (rt : Runtime) (svc : Service) (operator : Claims)
    (strategy : ScheduleStrategy) (operatorID : ObjectID) (pods : List Pod)
    (dms : List DecisionMakerPod)
    (h : ReachesGrouping rt svc operator strategy operatorID pods dms) :
    CreateScheduleStrategy rt svc operator strategy =
      deliver svc (groupIntents dms (intentsOf rt operatorID strategy pods))
        (rt.rangeOrder (groupIntents dms (intentsOf rt operatorID strategy pods)).nodeIDIntentsMap.keys)
        (preludeCalls rt operatorID strategy pods) := by
  obtain ⟨h1, h2, h3, h4, h5, h6⟩ := h
  have hp : pods.length ≠ 0 := by simpa using h3
  have hd : dms.length ≠ 0 := by simpa using h6
  unfold intentsOf at h4
  unfold nodeIDsOf at h5
  simp only [CreateScheduleStrategy, h1, h2, hp, if_false, h4, h5, hd, preludeCalls, intentsOf,
    nodeIDsOf, List.cons_append, List.nil_append]

theorem deliver_calls_kind (svc : Service) (g : Groups) (hosts : List String) :
    ∀ c ∈ (deliver svc g hosts []).calls,
      (∃ d l, c = Call.SendSchedulingIntent d l) ∨ (∃ ids st, c = Call.BatchUpdateIntentsState ids st) := by
  induction hosts with
  | nil => simp [deliver]
  | cons host rest ih =>
    intro c hc
    simp only [deliver, List.nil_append] at hc
    cases hs : svc.DMAdapter.SendSchedulingIntent (g.nodeIDDMap.get? host)
        (g.nodeIDIntentsMap.getD host []) with
    | some e =>
      simp only [hs, List.mem_singleton] at hc
      exact Or.inl ⟨_, _, hc⟩
    | none =>
      cases hu : svc.Repo.BatchUpdateIntentsState (g.nodeIDIntentIDsMap.getD host [])
          IntentState.IntentStateSent with
      | some e =>
        simp only [hs, hu, List.mem_append, List.mem_singleton] at hc
        rcases hc with hc | hc
        · exact Or.inl ⟨_, _, hc⟩
        · exact Or.inr ⟨_, _, hc⟩
      | none =>
        simp only [hs, hu] at hc
        rw [deliver_append] at hc
        simp only [List.mem_append, List.mem_singleton] at hc
        rcases hc with (hc | hc) | hc
        · exact Or.inl ⟨_, _, hc⟩
        · exact Or.inr ⟨_, _, hc⟩
        · exact ih c hc

theorem foldl_intentsStep_intents (rt : Runtime) (s : ScheduleStrategy) (pods : List Pod)
    (acc : IntentsAcc) :
    (pods.foldl (intentsStep rt s) acc).intents =
      acc.intents ++ (pods.enumFrom (acc.intents.length + 1)).map
        (fun ip => NewScheduleIntent (rt.NewObjectID ip.1) s ip.2) := by
  induction pods generalizing acc with
  | nil => simp
  | cons pod pods ih =>
    have hstep : (intentsStep rt s acc pod).intents =
        acc.intents ++ [NewScheduleIntent (rt.NewObjectID (acc.intents.length + 1)) s pod] := by
      unfold intentsStep
      cases acc.nodeIDsMap.get? pod.NodeID <;> rfl
    rw [List.foldl_cons, ih, hstep]
    simp [List.enumFrom_cons]

theorem intentsOf_eq (rt : Runtime) (operatorID : ObjectID) (strategy : ScheduleStrategy)
    (pods : List Pod) :
    intentsOf rt operatorID strategy pods =
      (pods.enumFrom 1).map
        (fun ip => NewScheduleIntent (rt.NewObjectID ip.1) (stampStrategy rt operatorID strategy) ip.2) := by
  unfold intentsOf buildIntents
  rw [foldl_intentsStep_intents]
  simp

/-! ### Go maps -/

namespace GoMap

variable {V : Type}

theorem get?_set (m : GoMap V) (k h : String) (v : V) :
    (m.set k v).get? h = if k = h then some v else m.get? h := by
  induction m with
  | nil => simp [set, get?]
  | cons kv m ih =>
    obtain ⟨k1, v1⟩ := kv
    by_cases h1 : k1 = k
    · subst h1
      by_cases h2 : k1 = h <;> simp [set, get?, h2]
    · by_cases h2 : k = h
      · subst h2
        simp [set, get?, h1, ih]
      · by_cases h3 : k1 = h
        · subst h3
          simp only [set, h1, if_false, get?, if_true, h2]
        · simp only [set, h1, if_false, get?, h3, h2, ih]

theorem getD_set (m : GoMap V) (k h : String) (v d : V) :
    (m.set k v).getD h d = if k = h then v else m.getD h d := by
  unfold getD
  rw [get?_set]
  by_cases h1 : k = h <;> simp [h1]

theorem set_set (m : GoMap V) (k : String) (v w : V) : (m.set k v).set k w = m.set k w := by
  induction m with
  | nil => simp [set]
  | cons kv m ih =>
    obtain ⟨k1, v1⟩ := kv
    by_cases h1 : k1 = k <;> simp [set, h1, ih]

theorem mem_keys_set (m : GoMap V) (k h : String) (v : V) :
    h ∈ (m.set k v).keys ↔ h ∈ m.keys ∨ h = k := by
  induction m with
  | nil => simp [set, keys]
  | cons kv m ih =>
    obtain ⟨k1, v1⟩ := kv
    by_cases h1 : k1 = k
    · subst h1
      simp only [set, if_true, keys, List.map_cons, List.mem_cons]
      tauto
    · have ih2 : h ∈ List.map Prod.fst (set m k v) ↔ h ∈ List.map Prod.fst m ∨ h = k := ih
      simp only [set, h1, if_false, keys, List.map_cons, List.mem_cons, ih2]
      tauto

theorem WF_set (m : GoMap V) (k : String) (v : V) (hm : m.WF) : (m.set k v).WF := by
  induction m with
  | nil => simp [set, WF, keys]
  | cons kv m ih =>
    obtain ⟨k1, v1⟩ := kv
    have hm2 : k1 ∉ keys m ∧ WF m := by
      simpa only [WF, keys, List.map_cons, List.nodup_cons] using hm
    by_cases h1 : k1 = k
    · subst h1
      simpa only [set, if_true, WF, keys, List.map_cons, List.nodup_cons] using hm
    · have hk : k1 ∉ keys (set m k v) := by
        rw [mem_keys_set]
        rintro (h | h)
        · exact hm2.1 h
        · exact h1 h
      have hw : (keys (set m k v)).Nodup := ih hm2.2
      simp only [set, h1, if_false, WF, keys, List.map_cons, List.nodup_cons]
      exact ⟨hk, hw⟩

theorem getD_appendAt {α : Type} (m : GoMap (List α)) (k h : String) (xs : List α) :
    (m.appendAt k xs).getD h [] = if k = h then m.getD h [] ++ xs else m.getD h [] := by
  cases xs with
  | nil => by_cases h1 : k = h <;> simp [appendAt, h1]
  | cons x xs =>
    simp only [appendAt, getD_set]
    by_cases h1 : k = h
    · subst h1; simp
    · simp [h1]

theorem mem_keys_appendAt {α : Type} (m : GoMap (List α)) (k h : String) (xs : List α) :
    h ∈ (m.appendAt k xs).keys ↔ h ∈ m.keys ∨ (h = k ∧ xs ≠ []) := by
  cases xs with
  | nil => simp [appendAt]
  | cons x xs => simp [appendAt, mem_keys_set]

theorem WF_appendAt {α : Type} (m : GoMap (List α)) (k : String) (xs : List α) (hm : m.WF) :
    (m.appendAt k xs).WF := by
  cases xs with
  | nil => simpa [appendAt] using hm
  | cons x xs => exact WF_set m k _ hm

theorem appendAt_set {α : Type} (m : GoMap (List α)) (k : String) (x : α) (xs : List α) :
    (m.set k (m.getD k [] ++ [x])).appendAt k xs = m.appendAt k (x :: xs) := by
  cases xs with
  | nil => simp [appendAt]
  | cons y ys =>
    simp only [appendAt, getD_set, if_true, set_set, List.append_assoc, List.singleton_append]

end GoMap

/-! ### The grouping loops -/

theorem foldl_groupStep (d : DecisionMakerPod) (intents : List ScheduleIntent) (g : Groups) :
    intents.foldl (groupStep d) g =
      { nodeIDIntentsMap :=
          g.nodeIDIntentsMap.appendAt d.Host (intents.filter (fun i => i.NodeID = d.NodeID))
        nodeIDIntentIDsMap :=
          g.nodeIDIntentIDsMap.appendAt d.Host
            ((intents.filter (fun i => i.NodeID = d.NodeID)).map (fun i => i.ID))
        nodeIDDMap :=
          match intents.filter (fun i => i.NodeID = d.NodeID) with
          | [] => g.nodeIDDMap
          | _ :: _ => g.nodeIDDMap.set d.Host d } := by
  induction intents generalizing g with
  | nil => simp [GoMap.appendAt]
  | cons i rest ih =>
    rw [List.foldl_cons, ih]
    by_cases h : i.NodeID = d.NodeID
    · simp only [groupStep, h, if_true, List.filter_cons, decide_True, List.map_cons,
        GoMap.appendAt_set]
      cases hr : rest.filter (fun i => i.NodeID = d.NodeID) with
      | nil => simp
      | cons j js => simp [GoMap.set_set]
    · simp [groupStep, h, List.filter_cons]

theorem foldl_group_intents (dms : List DecisionMakerPod) (intents : List ScheduleIntent)
    (g : Groups) (h : String) :
    (dms.foldl (fun g d => intents.foldl (groupStep d) g) g).nodeIDIntentsMap.getD h [] =
      g.nodeIDIntentsMap.getD h [] ++ batchOf dms intents h := by
  induction dms generalizing g with
  | nil => simp [batchOf]
  | cons d dms ih =>
    rw [List.foldl_cons, ih, foldl_groupStep]
    simp only [GoMap.getD_appendAt, batchOf, List.filter_cons]
    by_cases hd : d.Host = h <;> simp [hd]

theorem foldl_group_ids (dms : List DecisionMakerPod) (intents : List ScheduleIntent)
    (g : Groups) (h : String) :
    (dms.foldl (fun g d => intents.foldl (groupStep d) g) g).nodeIDIntentIDsMap.getD h [] =
      g.nodeIDIntentIDsMap.getD h [] ++ (batchOf dms intents h).map (fun i => i.ID) := by
  induction dms generalizing g with
  | nil => simp [batchOf]
  | cons d dms ih =>
    rw [List.foldl_cons, ih, foldl_groupStep]
    simp only [GoMap.getD_appendAt, batchOf, List.filter_cons]
    by_cases hd : d.Host = h <;> simp [hd]

theorem foldl_group_keys (dms : List DecisionMakerPod) (intents : List ScheduleIntent)
    (g : Groups) (h : String) :
    h ∈ (dms.foldl (fun g d => intents.foldl (groupStep d) g) g).nodeIDIntentsMap.keys ↔
      h ∈ g.nodeIDIntentsMap.keys ∨ claimants dms intents h ≠ [] := by
  induction dms generalizing g with
  | nil => simp [claimants]
  | cons d dms ih =>
    rw [List.foldl_cons, ih, foldl_groupStep]
    simp only [GoMap.mem_keys_appendAt, claimants, List.filter_cons]
    by_cases hd : d.Host = h
    · by_cases hf : (intents.filter (fun i => i.NodeID = d.NodeID)) = []
      · simp [hd, hf]
      · simp [hd, hf]
    · have hd2 : ¬ h = d.Host := fun e => hd e.symm
      simp [hd, hd2]

theorem foldl_group_WF (dms : List DecisionMakerPod) (intents : List ScheduleIntent)
    (g : Groups) (hg : g.nodeIDIntentsMap.WF) :
    (dms.foldl (fun g d => intents.foldl (groupStep d) g) g).nodeIDIntentsMap.WF := by
  induction dms generalizing g with
  | nil => simpa using hg
  | cons d dms ih =>
    rw [List.foldl_cons]
    apply ih
    rw [foldl_groupStep]
    exact GoMap.WF_appendAt _ _ _ hg

theorem foldl_group_dm (dms : List DecisionMakerPod) (intents : List ScheduleIntent)
    (g : Groups) (h : String) :
    (dms.foldl (fun g d => intents.foldl (groupStep d) g) g).nodeIDDMap.get? h =
      match (claimants dms intents h).getLast? with
      | some d => some d
      | none => g.nodeIDDMap.get? h := by
  induction dms generalizing g with
  | nil => simp [claimants]
  | cons d dms ih =>
    rw [List.foldl_cons, ih, foldl_groupStep]
    have hc : claimants dms intents h = dms.filter (fun d => d.Host = h ∧
        (intents.filter (fun i => i.NodeID = d.NodeID)) ≠ []) := rfl
    simp only [claimants, List.filter_cons]
    rw [← hc]
    by_cases hd : d.Host = h
    · cases hf : intents.filter (fun i => i.NodeID = d.NodeID) with
      | nil => simp [hd]
      | cons j js =>
        simp only [hd, ne_eq, reduceCtorEq, not_false_eq_true, and_self, decide_True, if_true,
          GoMap.get?_set]
        cases hl : claimants dms intents h with
        | nil => simp
        | cons c cs => simp [List.getLast?_eq_getLast _ (List.cons_ne_nil c cs)]
    · cases hf : intents.filter (fun i => i.NodeID = d.NodeID) with
      | nil => simp [hd]
      | cons j js => simp [hd, GoMap.get?_set]

theorem groupIntents_intents (dms : List DecisionMakerPod) (intents : List ScheduleIntent)
    (h : String) :
    (groupIntents dms intents).nodeIDIntentsMap.getD h [] = batchOf dms intents h := by
  unfold groupIntents
  rw [foldl_group_intents]
  simp [GoMap.getD, GoMap.get?]

theorem groupIntents_ids (dms : List DecisionMakerPod) (intents : List ScheduleIntent)
    (h : String) :
    (groupIntents dms intents).nodeIDIntentIDsMap.getD h [] =
      (batchOf dms intents h).map (fun i => i.ID) := by
  unfold groupIntents
  rw [foldl_group_ids]
  simp [GoMap.getD, GoMap.get?]

theorem groupIntents_keys (dms : List DecisionMakerPod) (intents : List ScheduleIntent)
    (h : String) :
    h ∈ (groupIntents dms intents).nodeIDIntentsMap.keys ↔ claimants dms intents h ≠ [] := by
  unfold groupIntents
  rw [foldl_group_keys]
  simp [GoMap.keys]

theorem groupIntents_WF (dms : List DecisionMakerPod) (intents : List ScheduleIntent) :
    (groupIntents dms intents).nodeIDIntentsMap.WF := by
  unfold groupIntents
  apply foldl_group_WF
  simp [GoMap.WF, GoMap.keys]

theorem groupIntents_dm (dms : List DecisionMakerPod) (intents : List ScheduleIntent)
    (h : String) :
    (groupIntents dms intents).nodeIDDMap.get? h = (claimants dms intents h).getLast? := by
  unfold groupIntents
  rw [foldl_group_dm]
  cases (claimants dms intents h).getLast? <;> simp [GoMap.get?]

theorem mem_batchOf (dms : List DecisionMakerPod) (intents : List ScheduleIntent) (h : String)
    (i : ScheduleIntent) :
    i ∈ batchOf dms intents h ↔ ∃ d ∈ dms, d.Host = h ∧ i ∈ intents ∧ i.NodeID = d.NodeID := by
  simp only [batchOf, List.mem_flatMap, List.mem_filter, decide_eq_true_eq]
  constructor
  · rintro ⟨d, ⟨hd, hh⟩, hi, hn⟩
    exact ⟨d, hd, hh, hi, hn⟩
  · rintro ⟨d, hd, hh, hi, hn⟩
    exact ⟨d, ⟨hd, hh⟩, hi, hn⟩

theorem filter_host_singleton (dms : List DecisionMakerPod)
    (hhosts : (dms.map (fun d => d.Host)).Nodup) (d : DecisionMakerPod) (hd : d ∈ dms) :
    dms.filter (fun x => x.Host = d.Host) = [d] := by
  induction dms with
  | nil => simp at hd
  | cons x dms ih =>
    have hx : (∀ y ∈ dms, ¬ x.Host = y.Host) ∧ (dms.map (fun d => d.Host)).Nodup := by
      have h0 : (∀ y ∈ dms, ¬ y.Host = x.Host) ∧ (dms.map (fun d => d.Host)).Nodup := by
        simpa [List.nodup_cons] using hhosts
      exact ⟨fun y hy e => h0.1 y hy e.symm, h0.2⟩
    rcases List.mem_cons.mp hd with hd | hd
    · subst hd
      have hnone : dms.filter (fun x => x.Host = d.Host) = [] := by
        rw [List.filter_eq_nil_iff]
        intro y hy
        simpa using fun e : y.Host = d.Host => hx.1 y hy e.symm
      simp [List.filter_cons, hnone]
    · have hne : ¬ x.Host = d.Host := hx.1 d hd
      simp [List.filter_cons, hne, ih hx.2 hd]

theorem sum_map_indicator (l : List String) (a : String) :
    (l.map (fun h => if h = a then 1 else 0)).sum = l.count a := by
  induction l with
  | nil => simp
  | cons x l ih =>
    by_cases hx : x = a
    · subst hx
      simp [ih, Nat.add_comm]
    · have hx2 : (x == a) = false := by simpa using hx
      simp [ih, hx, List.count_cons, hx2]

theorem intentsOf_ids_nodup (rt : Runtime) (operatorID : ObjectID) (strategy : ScheduleStrategy)
    (pods : List Pod) (hfresh : Function.Injective rt.NewObjectID) :
    ((intentsOf rt operatorID strategy pods).map (fun i => i.ID)).Nodup := by
  rw [intentsOf_eq]
  have h : ((pods.enumFrom 1).map (fun ip => NewScheduleIntent (rt.NewObjectID ip.1)
      (stampStrategy rt operatorID strategy) ip.2)).map (fun i => i.ID) =
      ((pods.enumFrom 1).map Prod.fst).map rt.NewObjectID := by
    simp only [List.map_map, Function.comp_def, NewScheduleIntent]
  rw [h, List.enumFrom_map_fst]
  exact (List.nodup_range' 1 pods.length).map hfresh

theorem intentsOf_nodup (rt : Runtime) (operatorID : ObjectID) (strategy : ScheduleStrategy)
    (pods : List Pod) (hfresh : Function.Injective rt.NewObjectID) :
    (intentsOf rt operatorID strategy pods).Nodup :=
  List.Nodup.of_map _ (intentsOf_ids_nodup rt operatorID strategy pods hfresh)

theorem intentsOf_node (rt : Runtime) (operatorID : ObjectID) (strategy : ScheduleStrategy)
    (pods : List Pod) (i : ScheduleIntent) (hi : i ∈ intentsOf rt operatorID strategy pods) :
    ∃ p ∈ pods, i.NodeID = p.NodeID := by
  rw [intentsOf_eq] at hi
  obtain ⟨ip, hip, rfl⟩ := List.mem_map.mp hi
  refine ⟨ip.2, ?_, rfl⟩
  have : ip.2 ∈ (pods.enumFrom 1).map Prod.snd := List.mem_map_of_mem _ hip
  rwa [List.enumFrom_map_snd] at this

theorem deliveries_visits (g : Groups) (pre : List Call) (order : List String)
    (hpre : deliveries pre = []) :
    deliveries (pre ++ order.flatMap g.visitCalls) =
      order.map (fun h => (g.nodeIDDMap.get? h, g.nodeIDIntentsMap.getD h [])) := by
  unfold deliveries at hpre ⊢
  rw [List.filterMap_append, hpre, List.nil_append]
  induction order with
  | nil => simp
  | cons h order ih =>
    simp only [List.flatMap_cons, List.filterMap_append, ih, List.map_cons]
    simp [Groups.visitCalls, Groups.sendCall, Groups.updateCall]

theorem stateUpdates_visits (g : Groups) (pre : List Call) (order : List String)
    (hpre : stateUpdates pre = []) :
    stateUpdates (pre ++ order.flatMap g.visitCalls) =
      order.map (fun h => (g.nodeIDIntentIDsMap.getD h [], IntentState.IntentStateSent)) := by
  unfold stateUpdates at hpre ⊢
  rw [List.filterMap_append, hpre, List.nil_append]
  induction order with
  | nil => simp
  | cons h order ih =>
    simp only [List.flatMap_cons, List.filterMap_append, ih, List.map_cons]
    simp [Groups.visitCalls, Groups.sendCall, Groups.updateCall]

theorem deliveries_prelude (rt : Runtime) (operatorID : ObjectID) (strategy : ScheduleStrategy)
    (pods : List Pod) : deliveries (preludeCalls rt operatorID strategy pods) = [] := by
  simp [deliveries, preludeCalls]

theorem stateUpdates_prelude (rt : Runtime) (operatorID : ObjectID)
    (strategy : ScheduleStrategy) (pods : List Pod) :
    stateUpdates (preludeCalls rt operatorID strategy pods) = [] := by
  simp [stateUpdates, preludeCalls]

theorem CreateScheduleStrategy_all_ok (rt : Runtime) (svc : Service) (operator : Claims)
    (strategy : ScheduleStrategy) (operatorID : ObjectID) (pods : List Pod)
    (dms : List DecisionMakerPod)
    (hreach : ReachesGrouping rt svc operator strategy operatorID pods dms)
    (horder : ∀ ks, (rt.rangeOrder ks).Perm ks)
    (hsend : ∀ d l, svc.DMAdapter.SendSchedulingIntent (some d) l = none)
    (hupd : ∀ ids st, svc.Repo.BatchUpdateIntentsState ids st = none) :
    CreateScheduleStrategy rt svc operator strategy =
      { calls := preludeCalls rt operatorID strategy pods ++
          (rt.rangeOrder (groupIntents dms
            (intentsOf rt operatorID strategy pods)).nodeIDIntentsMap.keys).flatMap
            (groupIntents dms (intentsOf rt operatorID strategy pods)).visitCalls
        err := none } := by
  rw [CreateScheduleStrategy_of_reaches _ _ _ _ _ _ _ hreach]
  refine deliver_all_ok svc _ _ _ (fun h hh => ⟨?_, hupd _ _⟩)
  have hkey := (horder _).mem_iff.mp hh
  rw [groupIntents_keys] at hkey
  unfold Groups.SendOK
  rw [groupIntents_dm, List.getLast?_eq_getLast _ hkey]
  exact hsend _ _

/-- Under pairwise distinct hosts, the facts about the batch of the agent pod
`d0` that is the only one to report the node of the intent `i`. -/
theorem batch_of_unique_agent (dms : List DecisionMakerPod) (intents : List ScheduleIntent)
    (hhosts : (dms.map (fun d => d.Host)).Nodup) (hnodup : intents.Nodup)
    (i : ScheduleIntent) (hi : i ∈ intents) (d0 : DecisionMakerPod) (hd0 : d0 ∈ dms)
    (hn0 : d0.NodeID = i.NodeID)
    (huniq : ∀ d ∈ dms, d.NodeID = i.NodeID → d = d0) :
    (∀ h, (batchOf dms intents h).count i = if h = d0.Host then 1 else 0) ∧
    claimants dms intents d0.Host = [d0] := by
  have hbatch0 : batchOf dms intents d0.Host = intents.filter (fun j => j.NodeID = d0.NodeID) := by
    unfold batchOf
    rw [filter_host_singleton dms hhosts d0 hd0]
    simp
  have hmemf : i ∈ intents.filter (fun j => j.NodeID = d0.NodeID) := by
    simp [List.mem_filter, hi, hn0]
  refine ⟨?_, ?_⟩
  · intro h
    by_cases hh : h = d0.Host
    · subst hh
      rw [hbatch0, if_pos rfl]
      exact List.count_eq_one_of_mem (hnodup.filter _) hmemf
    · rw [if_neg hh, List.count_eq_zero]
      intro hmem
      obtain ⟨d, hd, hdh, _, hn⟩ := (mem_batchOf _ _ _ _).mp hmem
      have := huniq d hd hn.symm
      subst this
      exact hh hdh.symm
  · have hsub : claimants dms intents d0.Host =
        (dms.filter (fun x => x.Host = d0.Host)).filter
          (fun d => (intents.filter (fun i => i.NodeID = d.NodeID)) ≠ []) := by
      unfold claimants
      rw [List.filter_filter]
      congr 1
      funext d
      simp only [Bool.decide_and]
      exact Bool.and_comm _ _
    rw [hsub, filter_host_singleton dms hhosts d0 hd0]
    have hne : intents.filter (fun j => j.NodeID = d0.NodeID) ≠ [] :=
      List.ne_nil_of_mem hmemf
    simp only [List.filter_cons, hne, ne_eq, not_false_eq_true, decide_True, if_true,
      List.filter_nil]

theorem perm_pair {α : Type} (l : List α) (a b : α) (h : l.Perm [a, b]) :
    l = [a, b] ∨ l = [b, a] := by
  have hlen := h.length_eq
  match l, hlen with
  | [x, y], _ =>
    have hx : x = a ∨ x = b := by simpa using h.mem_iff.mp (List.mem_cons_self x [y])
    have ha : a = x ∨ a = y := by simpa using h.mem_iff.mpr (List.mem_cons_self a [b])
    have hb : b = x ∨ b = y := by simpa using h.mem_iff.mpr (show b ∈ [a, b] by simp)
    have hy : y = a ∨ y = b := by simpa using h.mem_iff.mp (show y ∈ [x, y] by simp)
    rcases hx with hx | hx
    · subst hx
      rcases hb with hb | hb
      · subst hb
        rcases hy with hy | hy <;> subst hy <;> simp
      · subst hb; simp
    · subst hx
      rcases ha with ha | ha
      · subst ha
        rcases hy with hy | hy <;> subst hy <;> simp
      · subst ha; simp

/-- The grouping of the two intents of two pods on two nodes, each node with
its own agent pod at its own host. -/
theorem groupIntents_two_nodes (dA dB : DecisionMakerPod) (i1 i2 : ScheduleIntent)
    (h1 : i1.NodeID = dA.NodeID) (h2 : i2.NodeID = dB.NodeID)
    (hnode : dA.NodeID ≠ dB.NodeID) (hhost : dA.Host ≠ dB.Host) :
    groupIntents [dA, dB] [i1, i2] =
      { nodeIDIntentsMap := [(dA.Host, [i1]), (dB.Host, [i2])]
        nodeIDIntentIDsMap := [(dA.Host, [i1.ID]), (dB.Host, [i2.ID])]
        nodeIDDMap := [(dA.Host, dA), (dB.Host, dB)] } := by
  have h3 : ¬ i2.NodeID = dA.NodeID := fun e => hnode (e.symm.trans h2)
  have h4 : ¬ i1.NodeID = dB.NodeID := fun e => hnode (h1.symm.trans e)
  have hfA : [i1, i2].filter (fun i => i.NodeID = dA.NodeID) = [i1] := by
    simp only [List.filter_cons, h1, h3, decide_True, decide_False, if_true, List.filter_nil]
    simp
  have hfB : [i1, i2].filter (fun i => i.NodeID = dB.NodeID) = [i2] := by
    simp only [List.filter_cons, h2, h4, decide_True, decide_False, if_true, List.filter_nil]
    simp
  have hunf : groupIntents [dA, dB] [i1, i2] =
      List.foldl (groupStep dB) (List.foldl (groupStep dA)
        { nodeIDIntentsMap := [], nodeIDIntentIDsMap := [], nodeIDDMap := [] } [i1, i2])
        [i1, i2] := rfl
  rw [hunf, foldl_groupStep, foldl_groupStep, hfA, hfB]
  simp only [GoMap.appendAt, GoMap.set, GoMap.getD, GoMap.get?, hhost, if_false, List.map_cons,
    List.map_nil, Option.getD_none, List.nil_append]

/-- The trace of state updates when the delivery loop stops at a failed send. -/
theorem stateUpdates_abort (g : Groups) (prelude : List Call) (pre : List String) (h : String)
    (hp : stateUpdates prelude = []) :
    stateUpdates (prelude ++ pre.flatMap g.visitCalls ++ [g.sendCall h]) =
      pre.map (fun h => (g.nodeIDIntentIDsMap.getD h [], IntentState.IntentStateSent)) := by
  have h1 := stateUpdates_visits g prelude pre hp
  unfold stateUpdates at h1 ⊢
  rw [List.filterMap_append, h1]
  simp [Groups.sendCall]

theorem intentsOf_pair (rt : Runtime) (operatorID : ObjectID) (strategy : ScheduleStrategy)
    (p1 p2 : Pod) :
    intentsOf rt operatorID strategy [p1, p2] =
      [ NewScheduleIntent (rt.NewObjectID 1) (stampStrategy rt operatorID strategy) p1,
        NewScheduleIntent (rt.NewObjectID 2) (stampStrategy rt operatorID strategy) p2 ] := by
  rw [intentsOf_eq]
  rfl

/-! ## Properties of `CreateScheduleStrategy` -/

/-- The trace of deliveries when the delivery loop stops at a failed send. -/
theorem deliveries_abort (g : Groups) (prelude : List Call) (pre : List String) (h : String)
    (hp : deliveries prelude = []) :
    deliveries (prelude ++ pre.flatMap g.visitCalls ++ [g.sendCall h]) =
      (pre ++ [h]).map (fun h => (g.nodeIDDMap.get? h, g.nodeIDIntentsMap.getD h [])) := by
  have h1 := deliveries_visits g prelude pre hp
  unfold deliveries at h1 ⊢
  rw [List.filterMap_append, h1]
  simp [Groups.sendCall]

/-- When agent pods that report one node have one host and the intents have
pairwise distinct IDs, the batches of two different hosts share no intent ID. -/
theorem batch_ids_disjoint (dms : List DecisionMakerPod) (intents : List ScheduleIntent)
    (hsame : ∀ d1 ∈ dms, ∀ d2 ∈ dms, d1.NodeID = d2.NodeID → d1.Host = d2.Host)
    (hids : (intents.map (fun i => i.ID)).Nodup)
    (h1 h2 : String) (hne : h1 ≠ h2) (intent : ScheduleIntent)
    (hintent : intent ∈ batchOf dms intents h1) :
    intent.ID ∉ (batchOf dms intents h2).map (fun i => i.ID) := by
  intro hmem
  obtain ⟨j, hj, hjid⟩ := List.mem_map.mp hmem
  obtain ⟨d1, hd1, hh1, hi1, hn1⟩ := (mem_batchOf _ _ _ _).mp hintent
  obtain ⟨d2, hd2, hh2, hi2, hn2⟩ := (mem_batchOf _ _ _ _).mp hj
  have hji : j = intent := List.inj_on_of_nodup_map hids hi2 hi1 hjid
  subst hji
  have := hsame d1 hd1 d2 hd2 (hn1.symm.trans hn2)
  exact hne (hh1.symm.trans (this.trans hh2))

/-- C3, as amended: in the delivery loop, for every visiting order of the
destination hosts, written as `pre ++ host :: post`: when the visits of the
hosts of `pre` succeed and `SendSchedulingIntent` fails for `host` with `e`,
the call returns at once the error that wraps `e`, and the calls made are the
three calls before the loop, then the delivery and the `Sent` update of each
host of `pre`, then the failed delivery to `host`, and nothing else. So the
state updates made are exactly the `Sent` updates of the batches of the hosts
of `pre`, which stay made, and the deliveries are those to the hosts of `pre`
and the failed one: the visit of `host` makes no state update, and no host of
`post` receives a delivery or a state update. When agent pods that report the
same node have the same host, the intents have pairwise distinct IDs and each
host is visited once, no intent of the batch of `host` or of a host of `post`
has its ID in a state update. -/
theorem C3_delivery_aborts_at_first_failed_send (rt : Runtime) (svc : Service)
    (operator : Claims) (strategy : ScheduleStrategy) (operatorID : ObjectID)
    (pods : List Pod) (dms : List DecisionMakerPod) (g : Groups)
    (pre post : List String) (host : String) (e : Error)
    (hreach : ReachesGrouping rt svc operator strategy operatorID pods dms)
    (hg : g = groupIntents dms (intentsOf rt operatorID strategy pods))
    (horder : rt.rangeOrder g.nodeIDIntentsMap.keys = pre ++ host :: post)
    (hpre : ∀ h ∈ pre, g.SendOK svc h ∧ g.UpdateOK svc h)
    (hfail : svc.DMAdapter.SendSchedulingIntent (g.nodeIDDMap.get? host)
      (g.nodeIDIntentsMap.getD host []) = some e) :
    (CreateScheduleStrategy rt svc operator strategy).err =
        some (Error.wrap ("send scheduling intents to decision maker " ++ host) e) ∧
    (CreateScheduleStrategy rt svc operator strategy).calls =
        preludeCalls rt operatorID strategy pods ++ pre.flatMap g.visitCalls ++
          [g.sendCall host] ∧
    stateUpdates (CreateScheduleStrategy rt svc operator strategy).calls =
        pre.map (fun h =>
          ((g.nodeIDIntentsMap.getD h []).map (fun intent => intent.ID),
            IntentState.IntentStateSent)) ∧
    deliveries (CreateScheduleStrategy rt svc operator strategy).calls =
        (pre ++ [host]).map (fun h => (g.nodeIDDMap.get? h, g.nodeIDIntentsMap.getD h [])) ∧
    ((∀ d1 ∈ dms, ∀ d2 ∈ dms, d1.NodeID = d2.NodeID → d1.Host = d2.Host) →
      Function.Injective rt.NewObjectID →
      (pre ++ host :: post).Nodup →
      ∀ h ∈ host :: post, ∀ intent ∈ g.nodeIDIntentsMap.getD h [],
        ∀ update ∈ stateUpdates (CreateScheduleStrategy rt svc operator strategy).calls,
          intent.ID ∉ update.1) := by
  subst hg
  have hcalls : (CreateScheduleStrategy rt svc operator strategy).calls =
      preludeCalls rt operatorID strategy pods ++
        pre.flatMap (groupIntents dms (intentsOf rt operatorID strategy pods)).visitCalls ++
        [(groupIntents dms (intentsOf rt operatorID strategy pods)).sendCall host] := by
    rw [CreateScheduleStrategy_of_reaches rt svc operator strategy operatorID pods dms hreach,
      horder, deliver_send_fails svc _ pre post host _ e hpre hfail]
  have herr : (CreateScheduleStrategy rt svc operator strategy).err =
      some (Error.wrap ("send scheduling intents to decision maker " ++ host) e) := by
    rw [CreateScheduleStrategy_of_reaches rt svc operator strategy operatorID pods dms hreach,
      horder, deliver_send_fails svc _ pre post host _ e hpre hfail]
  have hupd : stateUpdates (CreateScheduleStrategy rt svc operator strategy).calls =
      pre.map (fun h =>
        (((groupIntents dms (intentsOf rt operatorID strategy pods)).nodeIDIntentsMap.getD
            h []).map (fun intent => intent.ID),
          IntentState.IntentStateSent)) := by
    rw [hcalls, stateUpdates_abort _ _ _ _ (stateUpdates_prelude rt operatorID strategy pods)]
    simp only [groupIntents_ids, groupIntents_intents]
  refine ⟨herr, hcalls, hupd, ?_, ?_⟩
  · rw [hcalls, deliveries_abort _ _ _ _ (deliveries_prelude rt operatorID strategy pods)]
  · intro hsame hfresh hnodup h hh intent hintent update hupdate hid
    rw [hupd] at hupdate
    obtain ⟨h0, hh0, rfl⟩ := List.mem_map.mp hupdate
    rw [groupIntents_intents] at hintent hid
    have hne : h ≠ h0 := by
      intro heq
      subst heq
      exact (List.nodup_append.mp hnodup).2.2 hh0 hh
    exact batch_ids_disjoint dms _ hsame
      (intentsOf_ids_nodup rt operatorID strategy pods hfresh) h h0 hne intent hintent hid

/-- Witness of C3 as amended: two agents on two nodes at two hosts, and the
second host visited is down. -/
theorem C3_delivery_aborts_at_first_failed_send_witness :
    (CreateScheduleStrategy Scenario.rtForward
        (Scenario.svc [Scenario.p1, Scenario.p2] [Scenario.dmA, Scenario.dmB] ["host2"])
        Scenario.operator Scenario.strategy).err =
      some (Error.wrap "send scheduling intents to decision maker host2" Scenario.unreachable) ∧
    stateUpdates (CreateScheduleStrategy Scenario.rtForward
        (Scenario.svc [Scenario.p1, Scenario.p2] [Scenario.dmA, Scenario.dmB] ["host2"])
        Scenario.operator Scenario.strategy).calls =
      ["host1"].map (fun h =>
        (((groupIntents [Scenario.dmA, Scenario.dmB]
            (intentsOf Scenario.rtForward 170 Scenario.strategy
              [Scenario.p1, Scenario.p2])).nodeIDIntentsMap.getD h []).map
            (fun intent => intent.ID),
          IntentState.IntentStateSent)) ∧
    ∀ h ∈ ["host2"], ∀ intent ∈ (groupIntents [Scenario.dmA, Scenario.dmB]
          (intentsOf Scenario.rtForward 170 Scenario.strategy
            [Scenario.p1, Scenario.p2])).nodeIDIntentsMap.getD h [],
      ∀ update ∈ stateUpdates (CreateScheduleStrategy Scenario.rtForward
          (Scenario.svc [Scenario.p1, Scenario.p2] [Scenario.dmA, Scenario.dmB] ["host2"])
          Scenario.operator Scenario.strategy).calls,
        intent.ID ∉ update.1 :=
  have h := C3_delivery_aborts_at_first_failed_send Scenario.rtForward
    (Scenario.svc [Scenario.p1, Scenario.p2] [Scenario.dmA, Scenario.dmB] ["host2"])
    Scenario.operator Scenario.strategy 170 [Scenario.p1, Scenario.p2]
    [Scenario.dmA, Scenario.dmB]
    (groupIntents [Scenario.dmA, Scenario.dmB]
      (intentsOf Scenario.rtForward 170 Scenario.strategy [Scenario.p1, Scenario.p2]))
    ["host1"] [] "host2" Scenario.unreachable
    (by decide) rfl (by decide) (by decide) (by decide)
  ⟨h.1, h.2.2.1,
    h.2.2.2.2 (by decide) (fun a b hab => Nat.add_left_cancel hab) (by decide)⟩

/-- Counterexample to C3 as stated: the only matched pod is on node `A`, and
two agent pods report node `A`, at `host1` and at `host3`; `host1` is visited
first and `host3` is down. The batch of the failing host `host3` is the
intent of the pod, and the ID of that intent is in the `Sent` update made for
`host1`: the intent of the failing host has a state update. -/
theorem C3_failing_host_intent_already_sent_counterexample :
    (CreateScheduleStrategy Scenario.rtForward
        (Scenario.svc [Scenario.p1] [Scenario.dmA, Scenario.dmA2] ["host3"])
        Scenario.operator Scenario.strategy).err =
      some (Error.wrap "send scheduling intents to decision maker host3" Scenario.unreachable) ∧
    deliveries (CreateScheduleStrategy Scenario.rtForward
        (Scenario.svc [Scenario.p1] [Scenario.dmA, Scenario.dmA2] ["host3"])
        Scenario.operator Scenario.strategy).calls =
      [ (some Scenario.dmA, intentsOf Scenario.rtForward 170 Scenario.strategy [Scenario.p1]),
        (some Scenario.dmA2, intentsOf Scenario.rtForward 170 Scenario.strategy [Scenario.p1]) ] ∧
    (intentsOf Scenario.rtForward 170 Scenario.strategy [Scenario.p1]).map
      (fun intent => intent.ID) = [1001] ∧
    stateUpdates (CreateScheduleStrategy Scenario.rtForward
        (Scenario.svc [Scenario.p1] [Scenario.dmA, Scenario.dmA2] ["host3"])
        Scenario.operator Scenario.strategy).calls =
      [([1001], IntentState.IntentStateSent)] := by
  decide

/-- C5: when the operator is valid and `QueryPods` returns an empty list for
the strategy's selectors, `CreateScheduleStrategy` returns a not-found error
(HTTP status 404) and its only collaborator call is `QueryPods`: it calls
neither `InsertStrategyAndIntents` nor `QueryDecisionMakerPods` nor
`SendSchedulingIntent` nor `BatchUpdateIntentsState`. -/
theorem C5_zero_match_is_not_found (rt : Runtime) (svc : Service) (operator : Claims)
    (strategy : ScheduleStrategy) (operatorID : ObjectID)
    (hop : rt.GetBsonObjectUID operator = .ok operatorID)
    (hq : svc.K8SAdapter.QueryPods (queryOptOf strategy) = .ok []) :
    (CreateScheduleStrategy rt svc operator strategy).err =
        some (Error.httpStatus 404 "no pods match the strategy criteria"
          (Error.msg "no pods found for the given namespaces and label selectors")) ∧
    (CreateScheduleStrategy rt svc operator strategy).calls =
        [Call.QueryPods (queryOptOf strategy)] := by
  simp [CreateScheduleStrategy, hop, hq, StatusNotFound]

/-- Witness of C5: the scenario with no matching pod. -/
theorem C5_zero_match_is_not_found_witness :
    (CreateScheduleStrategy Scenario.rtForward (Scenario.svc [] [Scenario.dmA] [])
        Scenario.operator Scenario.strategy).err =
        some (Error.httpStatus 404 "no pods match the strategy criteria"
          (Error.msg "no pods found for the given namespaces and label selectors")) ∧
    (CreateScheduleStrategy Scenario.rtForward (Scenario.svc [] [Scenario.dmA] [])
        Scenario.operator Scenario.strategy).calls =
        [Call.QueryPods (queryOptOf Scenario.strategy)] :=
  C5_zero_match_is_not_found Scenario.rtForward (Scenario.svc [] [Scenario.dmA] [])
    Scenario.operator Scenario.strategy 170 rfl rfl

/-- C6: when the operator is valid, `QueryPods` returns the non-empty list
`pods`, the strategy and its intents have been persisted, and
`QueryDecisionMakerPods` returns an empty list, `CreateScheduleStrategy`
returns `nil`; its calls are `QueryPods`, `InsertStrategyAndIntents` and
`QueryDecisionMakerPods` only, so there is no `SendSchedulingIntent` and no
`BatchUpdateIntentsState` call, and every persisted intent has state
`Created`. -/
theorem C6_no_agent_is_success (rt : Runtime) (svc : Service) (operator : Claims)
    (strategy : ScheduleStrategy) (operatorID : ObjectID) (pods : List Pod)
    (hop : rt.GetBsonObjectUID operator = .ok operatorID)
    (hq : svc.K8SAdapter.QueryPods (queryOptOf strategy) = .ok pods)
    (hne : pods ≠ [])
    (hins : svc.Repo.InsertStrategyAndIntents (stampStrategy rt operatorID strategy)
      (intentsOf rt operatorID strategy pods) = none)
    (hdm : svc.K8SAdapter.QueryDecisionMakerPods
      (dmQueryOptOf (nodeIDsOf rt operatorID strategy pods)) = .ok []) :
    (CreateScheduleStrategy rt svc operator strategy).err = none ∧
    (CreateScheduleStrategy rt svc operator strategy).calls =
      [ Call.QueryPods (queryOptOf strategy),
        Call.InsertStrategyAndIntents (stampStrategy rt operatorID strategy)
          (intentsOf rt operatorID strategy pods),
        Call.QueryDecisionMakerPods (dmQueryOptOf (nodeIDsOf rt operatorID strategy pods)) ] ∧
    (∀ c ∈ (CreateScheduleStrategy rt svc operator strategy).calls,
      (∀ d l, c ≠ Call.SendSchedulingIntent d l) ∧
      (∀ ids st, c ≠ Call.BatchUpdateIntentsState ids st)) ∧
    (∀ i ∈ intentsOf rt operatorID strategy pods, i.State = IntentState.IntentStateCreated) := by
  have hp : pods.length ≠ 0 := by simpa using hne
  unfold intentsOf at hins
  unfold nodeIDsOf at hdm
  have hout : CreateScheduleStrategy rt svc operator strategy =
      { calls := [ Call.QueryPods (queryOptOf strategy),
          Call.InsertStrategyAndIntents (stampStrategy rt operatorID strategy)
            (intentsOf rt operatorID strategy pods),
          Call.QueryDecisionMakerPods (dmQueryOptOf (nodeIDsOf rt operatorID strategy pods)) ],
        err := none } := by
    simp [CreateScheduleStrategy, hop, hq, hp, hins, hdm, intentsOf, nodeIDsOf]
  refine ⟨by rw [hout], by rw [hout], ?_, ?_⟩
  · intro c hc
    rw [hout] at hc
    simp only [List.mem_cons, List.mem_singleton, List.not_mem_nil, or_false] at hc
    rcases hc with hc | hc | hc <;> subst hc <;> exact ⟨fun _ _ => by simp, fun _ _ => by simp⟩
  · intro i hi
    rw [intentsOf_eq] at hi
    obtain ⟨ip, _, rfl⟩ := List.mem_map.mp hi
    rfl

/-- Witness of C6: the two pods are matched and no agent pod is found. -/
theorem C6_no_agent_is_success_witness :
    (CreateScheduleStrategy Scenario.rtForward (Scenario.svc [Scenario.p1, Scenario.p2] [] [])
        Scenario.operator Scenario.strategy).err = none :=
  (C6_no_agent_is_success Scenario.rtForward (Scenario.svc [Scenario.p1, Scenario.p2] [] [])
    Scenario.operator Scenario.strategy 170 [Scenario.p1, Scenario.p2] rfl rfl (by decide)
    rfl rfl).1

/-- C4: when the operator is valid and `QueryPods` returns the non-empty list
`pods` of `N` pods, `CreateScheduleStrategy` calls `InsertStrategyAndIntents`
once, with the stamped strategy and a list of exactly `N` intents whose `i`-th
element is `NewScheduleIntent` of the stamped strategy and the `i`-th pod, so
it carries that pod's ID, node ID and labels and the strategy's priority and
execution time. -/
theorem C4_one_intent_per_matched_pod (rt : Runtime) (svc : Service) (operator : Claims)
    (strategy : ScheduleStrategy) (operatorID : ObjectID) (pods : List Pod)
    (hop : rt.GetBsonObjectUID operator = .ok operatorID)
    (hq : svc.K8SAdapter.QueryPods (queryOptOf strategy) = .ok pods)
    (hne : pods ≠ []) :
    ∃ (intents : List ScheduleIntent) (rest : List Call),
      (CreateScheduleStrategy rt svc operator strategy).calls =
        Call.QueryPods (queryOptOf strategy) ::
        Call.InsertStrategyAndIntents (stampStrategy rt operatorID strategy) intents :: rest ∧
      (∀ c ∈ rest, ∀ s l, c ≠ Call.InsertStrategyAndIntents s l) ∧
      intents.length = pods.length ∧
      ∀ (i : Nat) (hi : i < pods.length),
        ∃ intent, intents[i]? = some intent ∧
          intent = NewScheduleIntent (rt.NewObjectID (i + 1))
            (stampStrategy rt operatorID strategy) (pods.get ⟨i, hi⟩) ∧
          intent.PodID = (pods.get ⟨i, hi⟩).PodID ∧
          intent.NodeID = (pods.get ⟨i, hi⟩).NodeID ∧
          intent.PodLabels = (pods.get ⟨i, hi⟩).Labels ∧
          intent.Priority = strategy.Priority ∧
          intent.ExecutionTime = strategy.ExecutionTime := by
  have hp : pods.length ≠ 0 := by simpa using hne
  refine ⟨intentsOf rt operatorID strategy pods, ?_⟩
  have hrest : ∃ rest, (CreateScheduleStrategy rt svc operator strategy).calls =
        Call.QueryPods (queryOptOf strategy) ::
        Call.InsertStrategyAndIntents (stampStrategy rt operatorID strategy)
          (intentsOf rt operatorID strategy pods) :: rest ∧
      (∀ c ∈ rest, ∀ s l, c ≠ Call.InsertStrategyAndIntents s l) := by
    simp only [CreateScheduleStrategy, hop, hq, hp, if_false, List.cons_append, List.nil_append]
    cases hins : svc.Repo.InsertStrategyAndIntents (stampStrategy rt operatorID strategy)
        (buildIntents rt (stampStrategy rt operatorID strategy) pods).intents with
    | some e => exact ⟨[], rfl, by simp⟩
    | none =>
      simp only
      cases hdm : svc.K8SAdapter.QueryDecisionMakerPods
          (dmQueryOptOf (buildIntents rt (stampStrategy rt operatorID strategy) pods).nodeIDs) with
      | error e => exact ⟨[_], rfl, by simp⟩
      | ok dms =>
        simp only
        by_cases hd : dms.length = 0
        · simp only [hd, if_true]
          exact ⟨[_], rfl, by simp⟩
        · simp only [hd, if_false]
          rw [deliver_append]
          refine ⟨_ :: (deliver svc _ _ []).calls, rfl, ?_⟩
          intro c hc s l
          rcases List.mem_cons.mp hc with hc | hc
          · subst hc; simp
          · rcases deliver_calls_kind svc _ _ c hc with ⟨d, l2, h⟩ | ⟨ids, st, h⟩ <;>
              subst h <;> simp
  obtain ⟨rest, h1, h2⟩ := hrest
  refine ⟨rest, h1, h2, ?_, ?_⟩
  · rw [intentsOf_eq]; simp
  · intro i hi
    refine ⟨_, ?_, rfl, rfl, rfl, rfl, rfl, rfl⟩
    rw [intentsOf_eq]
    simp [List.getElem?_map, List.getElem?_enumFrom, hi, Nat.add_comm]

/-- Witness of C4: the two pods of the scenario give two intents. -/
theorem C4_one_intent_per_matched_pod_witness :
    ∃ (intents : List ScheduleIntent) (rest : List Call),
      (CreateScheduleStrategy Scenario.rtForward
          (Scenario.svc [Scenario.p1, Scenario.p2] [Scenario.dmA, Scenario.dmB] [])
          Scenario.operator Scenario.strategy).calls =
        Call.QueryPods (queryOptOf Scenario.strategy) ::
        Call.InsertStrategyAndIntents (stampStrategy Scenario.rtForward 170 Scenario.strategy)
          intents :: rest ∧
      intents.length = 2 := by
  obtain ⟨intents, rest, h1, _, h3, _⟩ :=
    C4_one_intent_per_matched_pod Scenario.rtForward
      (Scenario.svc [Scenario.p1, Scenario.p2] [Scenario.dmA, Scenario.dmB] [])
      Scenario.operator Scenario.strategy 170 [Scenario.p1, Scenario.p2] rfl rfl (by decide)
  exact ⟨intents, rest, h1, h3⟩

/-- C1: for every non-empty list of matched pods, when every matched pod's
node has exactly one agent pod in the list returned by
`QueryDecisionMakerPods`, the agent pods have pairwise distinct hosts, and
every `SendSchedulingIntent` and `BatchUpdateIntentsState` call succeeds, then
for every order in which the hosts are visited the call returns no error, and
for each intent: it occurs exactly once in all the batches delivered, every
batch that holds it is delivered to an agent pod of the list that reports the
intent's node, and its ID is in a list passed to `BatchUpdateIntentsState`
with state `Sent`. Fresh object identifiers are pairwise distinct. -/
theorem C1_every_intent_delivered_once_and_sent (rt : Runtime) (svc : Service)
    (operator : Claims) (strategy : ScheduleStrategy) (operatorID : ObjectID)
    (pods : List Pod) (dms : List DecisionMakerPod)
    (hreach : ReachesGrouping rt svc operator strategy operatorID pods dms)
    (hfresh : Function.Injective rt.NewObjectID)
    (horder : ∀ ks, (rt.rangeOrder ks).Perm ks)
    (hone : ∀ p ∈ pods, (dms.filter (fun d => d.NodeID = p.NodeID)).length = 1)
    (hhosts : (dms.map (fun d => d.Host)).Nodup)
    (hsend : ∀ d l, svc.DMAdapter.SendSchedulingIntent (some d) l = none)
    (hupd : ∀ ids st, svc.Repo.BatchUpdateIntentsState ids st = none) :
    (CreateScheduleStrategy rt svc operator strategy).err = none ∧
    ∀ intent ∈ intentsOf rt operatorID strategy pods,
      ((deliveries (CreateScheduleStrategy rt svc operator strategy).calls).map
        (fun dl => dl.2.count intent)).sum = 1 ∧
      (∀ dl ∈ deliveries (CreateScheduleStrategy rt svc operator strategy).calls,
        intent ∈ dl.2 → ∃ d ∈ dms, dl.1 = some d ∧ d.NodeID = intent.NodeID) ∧
      (∃ ids, (ids, IntentState.IntentStateSent) ∈
          stateUpdates (CreateScheduleStrategy rt svc operator strategy).calls ∧
        intent.ID ∈ ids) := by
  rw [CreateScheduleStrategy_all_ok rt svc operator strategy operatorID pods dms hreach horder
    hsend hupd]
  refine ⟨rfl, ?_⟩
  intro i hi
  simp only
  rw [deliveries_visits _ _ _ (deliveries_prelude _ _ _ _),
    stateUpdates_visits _ _ _ (stateUpdates_prelude _ _ _ _)]
  have hnodup := intentsOf_nodup rt operatorID strategy pods hfresh
  obtain ⟨p, hp, hnode⟩ := intentsOf_node rt operatorID strategy pods i hi
  obtain ⟨d0, hd0⟩ := List.length_eq_one.mp (hone p hp)
  have hd0mem : d0 ∈ dms ∧ d0.NodeID = p.NodeID := by
    have hm : d0 ∈ dms.filter (fun d => d.NodeID = p.NodeID) := by rw [hd0]; simp
    simpa [List.mem_filter] using hm
  have huniq : ∀ d ∈ dms, d.NodeID = i.NodeID → d = d0 := by
    intro d hd hn
    have hm : d ∈ dms.filter (fun d => d.NodeID = p.NodeID) := by
      simp [List.mem_filter, hd, hn, hnode]
    rw [hd0] at hm
    simpa using hm
  obtain ⟨hcount, hclaim⟩ := batch_of_unique_agent dms _ hhosts hnodup i hi d0 hd0mem.1
    (hd0mem.2.trans hnode.symm) huniq
  have hkey : d0.Host ∈ (groupIntents dms
      (intentsOf rt operatorID strategy pods)).nodeIDIntentsMap.keys := by
    rw [groupIntents_keys, hclaim]
    simp
  have hvisit : d0.Host ∈ rt.rangeOrder (groupIntents dms
      (intentsOf rt operatorID strategy pods)).nodeIDIntentsMap.keys :=
    (horder _).mem_iff.mpr hkey
  refine ⟨?_, ?_, ?_⟩
  · simp only [List.map_map, Function.comp_def, groupIntents_intents, hcount]
    rw [sum_map_indicator, (horder _).count_eq]
    exact List.count_eq_one_of_mem (groupIntents_WF dms _) hkey
  · intro dl hdl hmem
    obtain ⟨h, _, rfl⟩ := List.mem_map.mp hdl
    simp only [groupIntents_intents] at hmem
    have hh : h = d0.Host := by
      by_contra hne
      have hc := hcount h
      rw [if_neg hne, List.count_eq_zero] at hc
      exact hc hmem
    subst hh
    refine ⟨d0, hd0mem.1, ?_, hd0mem.2.trans hnode.symm⟩
    simp only [groupIntents_dm, hclaim]
    rfl
  · refine ⟨_, List.mem_map.mpr ⟨d0.Host, hvisit, rfl⟩, ?_⟩
    rw [groupIntents_ids]
    apply List.mem_map_of_mem
    have hc := hcount d0.Host
    rw [if_pos rfl] at hc
    exact List.count_pos_iff.mp (by omega)

/-- Witness of C1: the scenario of two pods on two nodes with one agent each. -/
theorem C1_every_intent_delivered_once_and_sent_witness :
    (CreateScheduleStrategy Scenario.rtForward
        (Scenario.svc [Scenario.p1, Scenario.p2] [Scenario.dmA, Scenario.dmB] [])
        Scenario.operator Scenario.strategy).err = none ∧
    ∀ intent ∈ intentsOf Scenario.rtForward 170 Scenario.strategy [Scenario.p1, Scenario.p2],
      ((deliveries (CreateScheduleStrategy Scenario.rtForward
          (Scenario.svc [Scenario.p1, Scenario.p2] [Scenario.dmA, Scenario.dmB] [])
          Scenario.operator Scenario.strategy).calls).map
        (fun dl => dl.2.count intent)).sum = 1 ∧
      (∀ dl ∈ deliveries (CreateScheduleStrategy Scenario.rtForward
          (Scenario.svc [Scenario.p1, Scenario.p2] [Scenario.dmA, Scenario.dmB] [])
          Scenario.operator Scenario.strategy).calls,
        intent ∈ dl.2 →
          ∃ d ∈ [Scenario.dmA, Scenario.dmB], dl.1 = some d ∧ d.NodeID = intent.NodeID) ∧
      (∃ ids, (ids, IntentState.IntentStateSent) ∈
          stateUpdates (CreateScheduleStrategy Scenario.rtForward
            (Scenario.svc [Scenario.p1, Scenario.p2] [Scenario.dmA, Scenario.dmB] [])
            Scenario.operator Scenario.strategy).calls ∧
        intent.ID ∈ ids) :=
  C1_every_intent_delivered_once_and_sent Scenario.rtForward
    (Scenario.svc [Scenario.p1, Scenario.p2] [Scenario.dmA, Scenario.dmB] [])
    Scenario.operator Scenario.strategy 170 [Scenario.p1, Scenario.p2]
    [Scenario.dmA, Scenario.dmB] (by decide) (fun a b h => Nat.add_left_cancel h)
    (fun ks => List.Perm.refl ks) (by decide) (by decide) (fun _ _ => rfl) (fun _ _ => rfl)

/-- C2, as amended: when the strategy matches pod `p1` on node `A` and pod
`p2` on another node `B`, the agent pods are `dA` for `A` and `dB` for `B` at
two different hosts, delivery to `dA` succeeds and delivery to `dB` fails,
then for every order in which the two hosts are visited the call returns an
error and the ID of the intent of `p2` is in no list passed to
`BatchUpdateIntentsState`; the ID of the intent of `p1` is passed with state
`Sent` exactly when the host of `dA` is visited first. -/
theorem C2_partial_failure_depends_on_order (rt : Runtime) (svc : Service)
    (operator : Claims) (strategy : ScheduleStrategy) (operatorID : ObjectID)
    (p1 p2 : Pod) (dA dB : DecisionMakerPod) (e : Error)
    (hreach : ReachesGrouping rt svc operator strategy operatorID [p1, p2] [dA, dB])
    (hfresh : Function.Injective rt.NewObjectID)
    (horder : ∀ ks, (rt.rangeOrder ks).Perm ks)
    (hA : dA.NodeID = p1.NodeID) (hB : dB.NodeID = p2.NodeID)
    (hnode : p1.NodeID ≠ p2.NodeID) (hhost : dA.Host ≠ dB.Host)
    (hsendA : ∀ l, svc.DMAdapter.SendSchedulingIntent (some dA) l = none)
    (hsendB : ∀ l, svc.DMAdapter.SendSchedulingIntent (some dB) l = some e) :
    (CreateScheduleStrategy rt svc operator strategy).err ≠ none ∧
    (∀ u ∈ stateUpdates (CreateScheduleStrategy rt svc operator strategy).calls,
      rt.NewObjectID 2 ∉ u.1) ∧
    ((∃ ids, (ids, IntentState.IntentStateSent) ∈
          stateUpdates (CreateScheduleStrategy rt svc operator strategy).calls ∧
        rt.NewObjectID 1 ∈ ids) ↔
      rt.rangeOrder [dA.Host, dB.Host] = [dA.Host, dB.Host]) := by
  have hg := groupIntents_two_nodes dA dB
    (NewScheduleIntent (rt.NewObjectID 1) (stampStrategy rt operatorID strategy) p1)
    (NewScheduleIntent (rt.NewObjectID 2) (stampStrategy rt operatorID strategy) p2)
    hA.symm hB.symm (by rw [hA, hB]; exact hnode) hhost
  have hhost2 : ¬ dB.Host = dA.Host := fun h => hhost h.symm
  have h12 : rt.NewObjectID 2 ≠ rt.NewObjectID 1 := fun h => by
    have := hfresh h
    omega
  rw [CreateScheduleStrategy_of_reaches _ _ _ _ _ _ _ hreach, intentsOf_pair]
  generalize hgen : groupIntents [dA, dB]
    [NewScheduleIntent (rt.NewObjectID 1) (stampStrategy rt operatorID strategy) p1,
     NewScheduleIntent (rt.NewObjectID 2) (stampStrategy rt operatorID strategy) p2] = g at hg ⊢
  have hk : g.nodeIDIntentsMap.keys = [dA.Host, dB.Host] := by rw [hg]; rfl
  have hdA : g.nodeIDDMap.get? dA.Host = some dA := by rw [hg]; simp [GoMap.get?]
  have hdB : g.nodeIDDMap.get? dB.Host = some dB := by rw [hg]; simp [GoMap.get?, hhost]
  have hiA : g.nodeIDIntentIDsMap.getD dA.Host [] = [rt.NewObjectID 1] := by
    rw [hg]; simp [GoMap.getD, GoMap.get?, NewScheduleIntent]
  have hfailB : svc.DMAdapter.SendSchedulingIntent (g.nodeIDDMap.get? dB.Host)
      (g.nodeIDIntentsMap.getD dB.Host []) = some e := by rw [hdB]; exact hsendB _
  have hsA : g.SendOK svc dA.Host := by
    unfold Groups.SendOK
    rw [hdA]
    exact hsendA _
  have hprel := stateUpdates_prelude rt operatorID strategy [p1, p2]
  have hupdates : stateUpdates (preludeCalls rt operatorID strategy [p1, p2] ++
      ([] : List String).flatMap g.visitCalls ++ g.visitCalls dA.Host) =
      [([rt.NewObjectID 1], IntentState.IntentStateSent)] := by
    have h := stateUpdates_visits g (preludeCalls rt operatorID strategy [p1, p2]) [dA.Host] hprel
    simpa [hiA] using h
  have hmem1 : ∀ u ∈ [([rt.NewObjectID 1], IntentState.IntentStateSent)],
      rt.NewObjectID 2 ∉ u.1 := by
    intro u hu
    have hu2 : u = ([rt.NewObjectID 1], IntentState.IntentStateSent) := by simpa using hu
    subst hu2
    simpa using h12
  rw [hk]
  rcases perm_pair _ _ _ (horder [dA.Host, dB.Host]) with ho | ho
  · rw [ho]
    cases hu : svc.Repo.BatchUpdateIntentsState (g.nodeIDIntentIDsMap.getD dA.Host [])
        IntentState.IntentStateSent with
    | none =>
      have hd := deliver_send_fails svc g [dA.Host] [] dB.Host
        (preludeCalls rt operatorID strategy [p1, p2]) e
        (by
          intro h hh
          have hh2 : h = dA.Host := by simpa using hh
          subst hh2
          exact ⟨hsA, hu⟩)
        hfailB
      have hl : [dA.Host] ++ [dB.Host] = [dA.Host, dB.Host] := rfl
      rw [hl] at hd
      rw [hd]
      simp only [stateUpdates_abort g _ _ _ hprel, List.map_cons, List.map_nil, hiA]
      exact ⟨by simp, hmem1, by simp⟩
    | some e2 =>
      have hd := deliver_update_fails svc g [] [dB.Host] dA.Host
        (preludeCalls rt operatorID strategy [p1, p2]) e2 (by simp) hsA hu
      have hl : [] ++ dA.Host :: [dB.Host] = [dA.Host, dB.Host] := rfl
      rw [hl] at hd
      rw [hd]
      simp only [hupdates]
      exact ⟨by simp, hmem1, by simp⟩
  · rw [ho]
    have hd := deliver_send_fails svc g [] [dA.Host] dB.Host
      (preludeCalls rt operatorID strategy [p1, p2]) e (by simp) hfailB
    have hl : [] ++ dB.Host :: [dA.Host] = [dB.Host, dA.Host] := rfl
    rw [hl] at hd
    rw [hd]
    simp only [stateUpdates_abort g _ _ _ hprel, List.map_nil]
    refine ⟨by simp, ?_, ?_⟩
    · intro u hu
      simp at hu
    · simp [hhost, hhost2]

/-- Witness of C2 as amended: host1 is visited first, so the intent of `p1`
is marked `Sent`. -/
theorem C2_partial_failure_depends_on_order_witness :
    (CreateScheduleStrategy Scenario.rtForward
        (Scenario.svc [Scenario.p1, Scenario.p2] [Scenario.dmA, Scenario.dmB] ["host2"])
        Scenario.operator Scenario.strategy).err ≠ none ∧
    (∀ u ∈ stateUpdates (CreateScheduleStrategy Scenario.rtForward
        (Scenario.svc [Scenario.p1, Scenario.p2] [Scenario.dmA, Scenario.dmB] ["host2"])
        Scenario.operator Scenario.strategy).calls,
      Scenario.rtForward.NewObjectID 2 ∉ u.1) ∧
    ((∃ ids, (ids, IntentState.IntentStateSent) ∈
          stateUpdates (CreateScheduleStrategy Scenario.rtForward
            (Scenario.svc [Scenario.p1, Scenario.p2] [Scenario.dmA, Scenario.dmB] ["host2"])
            Scenario.operator Scenario.strategy).calls ∧
        Scenario.rtForward.NewObjectID 1 ∈ ids) ↔
      Scenario.rtForward.rangeOrder [Scenario.dmA.Host, Scenario.dmB.Host] =
        [Scenario.dmA.Host, Scenario.dmB.Host]) :=
  C2_partial_failure_depends_on_order Scenario.rtForward
    (Scenario.svc [Scenario.p1, Scenario.p2] [Scenario.dmA, Scenario.dmB] ["host2"])
    Scenario.operator Scenario.strategy 170 Scenario.p1 Scenario.p2 Scenario.dmA Scenario.dmB
    Scenario.unreachable (by decide) (fun a b h => Nat.add_left_cancel h)
    (fun ks => List.Perm.refl ks) rfl rfl (by decide) (by decide) (fun _ => rfl) (fun _ => rfl)

/-- Counterexample to C2 as stated: the hosts are visited in the order host2,
host1 (a permutation of the keys). Delivery to host2 fails first, the call
returns an error, and no list of IDs at all is passed to
`BatchUpdateIntentsState`, so the ID of the intent of `p1` is not passed
either: the `p1` intent is not marked `Sent`. -/
theorem C2_host2_visited_first_counterexample :
    (Scenario.rtReverse.rangeOrder ["host1", "host2"]).Perm ["host1", "host2"] ∧
    Scenario.rtReverse.rangeOrder ["host1", "host2"] = ["host2", "host1"] ∧
    ReachesGrouping Scenario.rtReverse
      (Scenario.svc [Scenario.p1, Scenario.p2] [Scenario.dmA, Scenario.dmB] ["host2"])
      Scenario.operator Scenario.strategy 170 [Scenario.p1, Scenario.p2]
      [Scenario.dmA, Scenario.dmB] ∧
    (CreateScheduleStrategy Scenario.rtReverse
        (Scenario.svc [Scenario.p1, Scenario.p2] [Scenario.dmA, Scenario.dmB] ["host2"])
        Scenario.operator Scenario.strategy).err =
      some (Error.wrap "send scheduling intents to decision maker host2" Scenario.unreachable) ∧
    stateUpdates (CreateScheduleStrategy Scenario.rtReverse
        (Scenario.svc [Scenario.p1, Scenario.p2] [Scenario.dmA, Scenario.dmB] ["host2"])
        Scenario.operator Scenario.strategy).calls = [] ∧
    ¬ (∃ ids, (ids, IntentState.IntentStateSent) ∈
          stateUpdates (CreateScheduleStrategy Scenario.rtReverse
            (Scenario.svc [Scenario.p1, Scenario.p2] [Scenario.dmA, Scenario.dmB] ["host2"])
            Scenario.operator Scenario.strategy).calls ∧
        (NewScheduleIntent (Scenario.rtReverse.NewObjectID 1)
          (stampStrategy Scenario.rtReverse 170 Scenario.strategy) Scenario.p1).ID ∈ ids) := by
  have hnone : stateUpdates (CreateScheduleStrategy Scenario.rtReverse
        (Scenario.svc [Scenario.p1, Scenario.p2] [Scenario.dmA, Scenario.dmB] ["host2"])
        Scenario.operator Scenario.strategy).calls = [] := by decide
  refine ⟨List.reverse_perm _, rfl, by decide, by decide, hnone, ?_⟩
  rw [hnone]
  simp

/-- C7, as amended: the grouping is by agent host, not by node. When every
delivery and every state update succeeds, the deliveries are one per host that
has an agent pod whose node has an intent; the delivery of a host is addressed
to the last agent pod in list order at that host whose node has an intent, and
its batch is, for each agent pod at that host in list order, the intents of
that agent pod's node. So every agent pod's host is sent the intents of the
agent pod's node: of two agent pods that report the same node ID, both are
sent that node's intents when their hosts differ, and only the last one in
list order is addressed when their hosts are equal. -/
theorem C7_grouping_is_by_host (rt : Runtime) (svc : Service)
    (operator : Claims) (strategy : ScheduleStrategy) (operatorID : ObjectID)
    (pods : List Pod) (dms : List DecisionMakerPod)
    (hreach : ReachesGrouping rt svc operator strategy operatorID pods dms)
    (horder : ∀ ks, (rt.rangeOrder ks).Perm ks)
    (hsend : ∀ d l, svc.DMAdapter.SendSchedulingIntent (some d) l = none)
    (hupd : ∀ ids st, svc.Repo.BatchUpdateIntentsState ids st = none) :
    deliveries (CreateScheduleStrategy rt svc operator strategy).calls =
      (rt.rangeOrder (groupIntents dms
          (intentsOf rt operatorID strategy pods)).nodeIDIntentsMap.keys).map
        (fun h => ((claimants dms (intentsOf rt operatorID strategy pods) h).getLast?,
          batchOf dms (intentsOf rt operatorID strategy pods) h)) ∧
    (∀ h, h ∈ rt.rangeOrder (groupIntents dms
          (intentsOf rt operatorID strategy pods)).nodeIDIntentsMap.keys ↔
        claimants dms (intentsOf rt operatorID strategy pods) h ≠ []) ∧
    (rt.rangeOrder (groupIntents dms
          (intentsOf rt operatorID strategy pods)).nodeIDIntentsMap.keys).Nodup ∧
    (∀ d ∈ dms, ∀ i ∈ intentsOf rt operatorID strategy pods, i.NodeID = d.NodeID →
      ∃ dl ∈ deliveries (CreateScheduleStrategy rt svc operator strategy).calls,
        i ∈ dl.2 ∧
        dl.1 = (claimants dms (intentsOf rt operatorID strategy pods) d.Host).getLast? ∧
        ∃ d1 ∈ dms, dl.1 = some d1 ∧ d1.Host = d.Host) := by
  have hdel : deliveries (CreateScheduleStrategy rt svc operator strategy).calls =
      (rt.rangeOrder (groupIntents dms
          (intentsOf rt operatorID strategy pods)).nodeIDIntentsMap.keys).map
        (fun h => ((claimants dms (intentsOf rt operatorID strategy pods) h).getLast?,
          batchOf dms (intentsOf rt operatorID strategy pods) h)) := by
    rw [CreateScheduleStrategy_all_ok rt svc operator strategy operatorID pods dms hreach horder
      hsend hupd]
    simp only
    rw [deliveries_visits _ _ _ (deliveries_prelude _ _ _ _)]
    simp only [groupIntents_dm, groupIntents_intents]
  have hkeys : ∀ h, h ∈ rt.rangeOrder (groupIntents dms
          (intentsOf rt operatorID strategy pods)).nodeIDIntentsMap.keys ↔
        claimants dms (intentsOf rt operatorID strategy pods) h ≠ [] := by
    intro h
    rw [(horder _).mem_iff, groupIntents_keys]
  refine ⟨hdel, hkeys, (horder _).nodup_iff.mpr (groupIntents_WF dms _), ?_⟩
  intro d hd i hi hn
  have hmem : d ∈ claimants dms (intentsOf rt operatorID strategy pods) d.Host := by
    unfold claimants
    rw [List.mem_filter]
    refine ⟨hd, ?_⟩
    have hne : (intentsOf rt operatorID strategy pods).filter (fun i => i.NodeID = d.NodeID)
        ≠ [] := List.ne_nil_of_mem (List.mem_filter.mpr ⟨hi, by simpa using hn⟩)
    simpa using hne
  have hne := List.ne_nil_of_mem hmem
  rw [hdel]
  refine ⟨_, List.mem_map.mpr ⟨d.Host, (hkeys _).mpr hne, rfl⟩, ?_, rfl, ?_⟩
  · exact (mem_batchOf _ _ _ _).mpr ⟨d, hd, rfl, hi, hn⟩
  · have hlast := List.getLast_mem hne
    refine ⟨_, ?_, List.getLast?_eq_getLast _ hne, ?_⟩
    · exact (List.mem_filter.mp hlast).1
    · have h2 := (List.mem_filter.mp hlast).2
      simp only [decide_eq_true_eq] at h2
      exact h2.1

/-- Witness of C7 as amended: two agent pods report node `A` from the same
host `host1`; the single delivery is addressed to the later one, and the
batch holds the intent of `p1` once for each of the two agent pods. -/
theorem C7_grouping_is_by_host_witness :
    deliveries (CreateScheduleStrategy Scenario.rtForward
        (Scenario.svc [Scenario.p1] [Scenario.dmA, Scenario.dmA1] [])
        Scenario.operator Scenario.strategy).calls =
      [(some Scenario.dmA1,
        [ NewScheduleIntent 1001 (stampStrategy Scenario.rtForward 170 Scenario.strategy)
            Scenario.p1,
          NewScheduleIntent 1001 (stampStrategy Scenario.rtForward 170 Scenario.strategy)
            Scenario.p1 ])] :=
  (C7_grouping_is_by_host Scenario.rtForward
    (Scenario.svc [Scenario.p1] [Scenario.dmA, Scenario.dmA1] [])
    Scenario.operator Scenario.strategy 170 [Scenario.p1] [Scenario.dmA, Scenario.dmA1]
    (by decide) (fun ks => List.Perm.refl ks) (fun _ _ => rfl) (fun _ _ => rfl)).1.trans
    (by decide)

/-- Counterexample to C7 as stated: the agent pods `dmA` at `host1` and
`dmA2` at `host3` both report node `A`, and `p1` runs on node `A`. Whether the
hosts are visited in insertion order or in reverse, the intent of `p1` is
delivered to both agent pods, and not only to the last one. -/
theorem C7_both_agents_receive_counterexample :
    Scenario.dmA.NodeID = Scenario.dmA2.NodeID ∧
    deliveries (CreateScheduleStrategy Scenario.rtForward
        (Scenario.svc [Scenario.p1] [Scenario.dmA, Scenario.dmA2] [])
        Scenario.operator Scenario.strategy).calls =
      [ (some Scenario.dmA,
          [NewScheduleIntent 1001 (stampStrategy Scenario.rtForward 170 Scenario.strategy)
            Scenario.p1]),
        (some Scenario.dmA2,
          [NewScheduleIntent 1001 (stampStrategy Scenario.rtForward 170 Scenario.strategy)
            Scenario.p1]) ] ∧
    deliveries (CreateScheduleStrategy Scenario.rtReverse
        (Scenario.svc [Scenario.p1] [Scenario.dmA, Scenario.dmA2] [])
        Scenario.operator Scenario.strategy).calls =
      [ (some Scenario.dmA2,
          [NewScheduleIntent 1001 (stampStrategy Scenario.rtReverse 170 Scenario.strategy)
            Scenario.p1]),
        (some Scenario.dmA,
          [NewScheduleIntent 1001 (stampStrategy Scenario.rtReverse 170 Scenario.strategy)
            Scenario.p1]) ] := by
  decide

/-! ## Lemmas about the adapter -/

namespace GoMap

variable {V : Type}

theorem get?_cons_of_ne (k1 k : String) (v1 : V) (m : GoMap V) (h : k1 ≠ k) :
    get? ((k1, v1) :: m) k = get? m k := by
  simp [get?, h]

theorem filterMap_keys_self (m : GoMap V) (hm : WF m) :
    (keys m).filterMap (fun k => (get? m k).map (fun v => (k, v))) = m := by
  induction m with
  | nil => rfl
  | cons kv m ih =>
    obtain ⟨k1, v1⟩ := kv
    have hm2 : k1 ∉ keys m ∧ WF m := by
      simpa only [WF, keys, List.map_cons, List.nodup_cons] using hm
    have hcongr : (keys m).filterMap (fun k => (get? ((k1, v1) :: m) k).map (fun v => (k, v))) =
        (keys m).filterMap (fun k => (get? m k).map (fun v => (k, v))) := by
      apply List.filterMap_congr
      intro k hk
      have hne : k1 ≠ k := fun e => hm2.1 (e ▸ hk)
      rw [get?_cons_of_ne k1 k v1 m hne]
    have hk : keys ((k1, v1) :: m) = k1 :: keys m := rfl
    rw [hk, List.filterMap_cons]
    simp only [get?, if_true, Option.map_some']
    have hcongr2 : List.filterMap
        (fun k => Option.map (fun v => (k, v)) (if k1 = k then some v1 else get? m k)) (keys m) =
        (keys m).filterMap (fun k => (get? m k).map (fun v => (k, v))) := by
      apply List.filterMap_congr
      intro k hk
      have hne : k1 ≠ k := fun e => hm2.1 (e ▸ hk)
      simp [hne]
    rw [hcongr2, ih hm2.2]

theorem range_perm (order : List String → List String) (m : GoMap V) (hm : WF m)
    (horder : ∀ ks, (order ks).Perm ks) : (range order m).Perm m := by
  unfold range
  have h := (horder (keys m)).filterMap (fun k => (get? m k).map (fun v => (k, v)))
  rw [filterMap_keys_self m hm] at h
  exact h

theorem foldl_set_unit_mem (l : List String) (m : GoMap Unit) (k : String) :
    ((l.foldl (fun m ns => set m ns ()) m).get? k).isSome = true ↔
      (m.get? k).isSome = true ∨ k ∈ l := by
  induction l generalizing m with
  | nil => simp
  | cons x l ih =>
    rw [List.foldl_cons, ih, get?_set]
    by_cases hx : x = k
    · subst hx; simp
    · have hx2 : ¬ k = x := fun e => hx e.symm
      simp [hx, hx2]

end GoMap

theorem foldl_keep_eq_filter {α β : Type} (skip : α → Prop) [DecidablePred skip] (f : α → β)
    (l : List α) (init : List β) :
    l.foldl (fun acc x => if skip x then acc else acc ++ [f x]) init =
      init ++ (l.filter (fun x => ¬ skip x)).map f := by
  induction l generalizing init with
  | nil => simp
  | cons x l ih =>
    rw [List.foldl_cons, ih]
    by_cases hx : skip x <;> simp [hx, List.filter_cons]

theorem podsFromCache_eq (env : Environment) (a : Adapter) (namespaces : List String)
    (selector : Selector) :
    podsFromCache env a namespaces selector =
      ((GoMap.range env.rangeOrder a.podCache).map Prod.snd).filter
        (fun pod =>
          (decide (namespaces.length = 0 ∨
              (namespaces.length = 1 ∧ namespaces.head? = some NamespaceAll)) ||
            decide (pod.Namespace ∈ namespaces)) &&
          (decide (selector.asString = "") || selector.Matches pod.Labels)) := by
  unfold podsFromCache
  have hfun : (fun (pods : List apiv1.Pod) (kv : String × apiv1.Pod) =>
      if ¬ (namespaces.length = 0 ∨
            (namespaces.length = 1 ∧ namespaces.head? = some NamespaceAll)) ∧
          ((namespaces.foldl (fun m ns => GoMap.set m ns ()) ([] : GoMap Unit)).get?
            kv.2.Namespace).isNone then pods
      else if selector.asString ≠ "" ∧ selector.Matches kv.2.Labels = false then pods
      else pods ++ [kv.2]) =
      (fun pods kv =>
        if (¬ (namespaces.length = 0 ∨
              (namespaces.length = 1 ∧ namespaces.head? = some NamespaceAll)) ∧
            kv.2.Namespace ∉ namespaces) ∨
            (selector.asString ≠ "" ∧ selector.Matches kv.2.Labels = false) then pods
        else pods ++ [kv.2]) := by
    funext pods kv
    have hmem := GoMap.foldl_set_unit_mem namespaces ([] : GoMap Unit) kv.2.Namespace
    have hnone : ((namespaces.foldl (fun m ns => GoMap.set m ns ()) ([] : GoMap Unit)).get?
        kv.2.Namespace).isNone = true ↔ kv.2.Namespace ∉ namespaces := by
      have hmem2 : ((namespaces.foldl (fun m ns => GoMap.set m ns ()) ([] : GoMap Unit)).get?
          kv.2.Namespace).isSome = true ↔ kv.2.Namespace ∈ namespaces := by
        rw [hmem]
        simp [GoMap.get?]
      rw [← hmem2]
      cases (namespaces.foldl (fun m ns => GoMap.set m ns ()) ([] : GoMap Unit)).get?
        kv.2.Namespace <;> simp
    by_cases h1 : ¬ (namespaces.length = 0 ∨
        (namespaces.length = 1 ∧ namespaces.head? = some NamespaceAll)) ∧
        kv.2.Namespace ∉ namespaces
    · have h1b := h1
      rw [← hnone] at h1b
      rw [if_pos h1b, if_pos (Or.inl h1)]
    · have h1b := h1
      rw [← hnone] at h1b
      rw [if_neg h1b]
      by_cases h2 : selector.asString ≠ "" ∧ selector.Matches kv.2.Labels = false
      · rw [if_pos h2, if_pos (Or.inr h2)]
      · rw [if_neg h2, if_neg (by tauto)]
  simp only []
  rw [hfun, foldl_keep_eq_filter
    (fun kv : String × apiv1.Pod =>
      (¬ (namespaces.length = 0 ∨
            (namespaces.length = 1 ∧ namespaces.head? = some NamespaceAll)) ∧
          kv.2.Namespace ∉ namespaces) ∨
        (selector.asString ≠ "" ∧ selector.Matches kv.2.Labels = false))
    (fun kv => kv.2)]
  rw [List.nil_append, List.filter_map]
  congr 1
  apply List.filter_congr
  intro kv _
  simp only [Function.comp]
  by_cases hA : namespaces.length = 0 ∨
      (namespaces.length = 1 ∧ namespaces.head? = some NamespaceAll) <;>
    by_cases hB : kv.2.Namespace ∈ namespaces <;>
    by_cases hC : selector.asString = "" <;>
    cases hD : selector.Matches kv.2.Labels <;>
    simp [hA, hB, hC, hD]

theorem queryPodsResults_none (env : Environment) (pods : List apiv1.Pod) :
    queryPodsResults env none pods = pods.map (toDomainPod env none) := by
  unfold queryPodsResults
  have h := foldl_keep_eq_filter (fun _ : apiv1.Pod => False) (toDomainPod env none) pods []
  simp only [if_false, List.nil_append, not_false_eq_true, decide_True, List.filter_true] at h
  simpa using h

theorem buildContainers_eq (pod : apiv1.Pod) (cmdRegex : Option Regexp) :
    buildContainers pod cmdRegex =
      (pod.Spec.Containers.filter
        (fun c =>
          match cmdRegex with
          | some re => re.MatchString (String.intercalate " " (c.Command ++ c.Args))
          | none => true)).map
        (fun c =>
          { ContainerID := (statusByName pod).getD c.Name ""
            Name := c.Name
            Command := c.Command ++ c.Args }) := by
  unfold buildContainers
  have h := foldl_keep_eq_filter
    (fun c : apiv1.Container =>
      (match cmdRegex with
        | some re => !re.MatchString (String.intercalate " " (c.Command ++ c.Args))
        | none => false) = true)
    (fun c : apiv1.Container =>
      ({ ContainerID := (statusByName pod).getD c.Name ""
         Name := c.Name
         Command := c.Command ++ c.Args } : Container))
    pod.Spec.Containers []
  rw [List.nil_append] at h
  rw [h]
  congr 1
  apply List.filter_congr
  intro c _
  cases cmdRegex with
  | none => simp
  | some re => cases re.MatchString (String.intercalate " " (c.Command ++ c.Args)) <;> simp

theorem queryPodsResults_some (env : Environment) (re : Regexp) (pods : List apiv1.Pod) :
    queryPodsResults env (some re) pods =
      (pods.filter (fun pod => pod.Spec.Containers.any
        (fun c => re.MatchString (String.intercalate " " (c.Command ++ c.Args))))).map
        (toDomainPod env (some re)) := by
  unfold queryPodsResults
  have h := foldl_keep_eq_filter
    (fun pod : apiv1.Pod =>
      (some re).isSome = true ∧ (buildContainers pod (some re)).length = 0)
    (toDomainPod env (some re)) pods []
  rw [List.nil_append] at h
  rw [h]
  congr 1
  apply List.filter_congr
  intro pod _
  rw [buildContainers_eq]
  have hlen : ((pod.Spec.Containers.filter
      (fun c => re.MatchString (String.intercalate " " (c.Command ++ c.Args)))).map
      (fun c => ({ ContainerID := (statusByName pod).getD c.Name ""
                   Name := c.Name
                   Command := c.Command ++ c.Args } : Container))).length = 0 ↔
      pod.Spec.Containers.any
        (fun c => re.MatchString (String.intercalate " " (c.Command ++ c.Args))) = false := by
    rw [List.length_map, List.length_eq_zero, List.filter_eq_nil_iff, List.any_eq_false]
  cases hany : pod.Spec.Containers.any
      (fun c => re.MatchString (String.intercalate " " (c.Command ++ c.Args))) with
  | false =>
    have h0 := hlen.mpr hany
    simp only [Option.isSome_some, true_and, h0, not_true_eq_false, decide_False]
  | true =>
    have h0 : ¬ _ := fun h => by
      have := hlen.mp h
      rw [hany] at this
      exact Bool.noConfusion this
    simp only [Option.isSome_some, true_and, h0, not_false_eq_true, decide_True]

theorem GoMap.set_of_not_mem {V : Type} (m : GoMap V) (k : String) (v : V)
    (hk : k ∉ GoMap.keys m) : GoMap.set m k v = m ++ [(k, v)] := by
  induction m with
  | nil => rfl
  | cons kv m ih =>
    obtain ⟨k1, v1⟩ := kv
    have hk2 : ¬ k = k1 ∧ k ∉ GoMap.keys m := by
      simpa only [GoMap.keys, List.map_cons, List.mem_cons, not_or] using hk
    have hne : ¬ k1 = k := fun e => hk2.1 e.symm
    simp only [GoMap.set, hne, if_false, List.cons_append, ih hk2.2]

theorem foldl_setPod (l : List apiv1.Pod) (m : GoMap apiv1.Pod)
    (hdisj : ∀ pod ∈ l, pod.UID ∉ GoMap.keys m) (hnodup : (l.map (fun pod => pod.UID)).Nodup) :
    l.foldl (fun m pod => GoMap.set m pod.UID pod) m = m ++ l.map (fun pod => (pod.UID, pod)) := by
  induction l generalizing m with
  | nil => simp
  | cons x l ih =>
    have hx : x.UID ∉ GoMap.keys m := hdisj x (List.mem_cons_self _ _)
    have hn : (∀ y ∈ l, ¬ x.UID = y.UID) ∧ (l.map (fun pod => pod.UID)).Nodup := by
      have h0 : (∀ y ∈ l, ¬ y.UID = x.UID) ∧ (l.map (fun pod => pod.UID)).Nodup := by
        simpa [List.nodup_cons] using hnodup
      exact ⟨fun y hy e => h0.1 y hy e.symm, h0.2⟩
    rw [List.foldl_cons, GoMap.set_of_not_mem m x.UID x hx, ih _ _ hn.2]
    · simp
    · intro pod hpod hmem
      have hmem2 : pod.UID ∈ GoMap.keys m ∨ pod.UID = x.UID := by
        simpa [GoMap.keys] using hmem
      rcases hmem2 with h | h
      · exact hdisj pod (List.mem_cons_of_mem _ hpod) h
      · exact hn.1 pod hpod h.symm

theorem cacheOf_values (snapshot : List apiv1.Pod)
    (huid : (snapshot.map (fun pod => pod.UID)).Nodup) :
    (cacheOf snapshot).values = snapshot ∧ (cacheOf snapshot).WF := by
  unfold cacheOf
  rw [foldl_setPod snapshot [] (by simp [GoMap.keys]) huid]
  constructor
  · simp [GoMap.values, List.map_map, Function.comp_def]
  · simpa [GoMap.WF, GoMap.keys, List.map_map, Function.comp_def] using huid

theorem filter_or_perm {α : Type} (p q : α → Bool) (l : List α)
    (hdisj : ∀ x ∈ l, ¬ (p x = true ∧ q x = true)) :
    (l.filter (fun x => p x || q x)).Perm (l.filter p ++ l.filter q) := by
  induction l with
  | nil => simp
  | cons x l ih =>
    have ih2 := ih (fun y hy => hdisj y (List.mem_cons_of_mem _ hy))
    have hx := hdisj x (List.mem_cons_self _ _)
    cases hp : p x <;> cases hq : q x
    · simpa [List.filter_cons, hp, hq] using ih2
    · simp only [List.filter_cons, hp, hq, Bool.or_true, if_true, Bool.false_eq_true, if_false]
      exact (List.Perm.cons x ih2).trans List.perm_middle.symm
    · simp only [List.filter_cons, hp, hq, Bool.or_false, if_true, Bool.false_eq_true, if_false,
        List.cons_append]
      exact List.Perm.cons x ih2
    · exact absurd ⟨hp, hq⟩ hx

/-- The pods of the namespaces of a duplicate-free list, listed namespace by
namespace, are the pods whose namespace is in the list. -/
theorem filter_namespaces_perm (snapshot : List apiv1.Pod) (keep : apiv1.Pod → Bool)
    (namespaces : List String) (hnodup : namespaces.Nodup) :
    (snapshot.filter (fun pod => decide (pod.Namespace ∈ namespaces) && keep pod)).Perm
      (namespaces.flatMap (fun ns =>
        snapshot.filter (fun pod => decide (pod.Namespace = ns) && keep pod))) := by
  induction namespaces with
  | nil => simp
  | cons n rest ih =>
    have hn : n ∉ rest ∧ rest.Nodup := by simpa [List.nodup_cons] using hnodup
    have hsplit : (fun pod : apiv1.Pod => decide (pod.Namespace ∈ n :: rest) && keep pod) =
        (fun pod => (decide (pod.Namespace = n) && keep pod) ||
          (decide (pod.Namespace ∈ rest) && keep pod)) := by
      funext pod
      by_cases h1 : pod.Namespace = n <;> by_cases h2 : pod.Namespace ∈ rest <;>
        cases keep pod <;> simp [h1, h2]
    rw [hsplit, List.flatMap_cons]
    refine (filter_or_perm _ _ snapshot ?_).trans (List.Perm.append_left _ (ih hn.2))
    intro pod _ h
    have h1 : pod.Namespace = n := by
      have := h.1
      simp only [Bool.and_eq_true, decide_eq_true_eq] at this
      exact this.1
    have h2 : pod.Namespace ∈ rest := by
      have := h.2
      simp only [Bool.and_eq_true, decide_eq_true_eq] at this
      exact this.1
    exact hn.1 (h1 ▸ h2)

theorem listPodsLiveLoop_snapshot (env : Environment) (snapshot : List apiv1.Pod)
    (labelSelector : String) (selector : Selector)
    (hparse : env.labelsParse labelSelector = .ok selector)
    (namespaces : List String) (results : List apiv1.Pod) (a : Adapter) :
    (listPodsLiveLoop (snapshotClient env snapshot) labelSelector namespaces results a).1 =
      .ok (results ++ namespaces.flatMap (fun ns =>
        snapshot.filter (fun pod =>
          (decide (ns = NamespaceAll) || decide (pod.Namespace = ns)) &&
            selector.Matches pod.Labels))) := by
  induction namespaces generalizing results a with
  | nil => simp [listPodsLiveLoop]
  | cons ns rest ih =>
    simp only [listPodsLiveLoop, snapshotClient, hparse]
    have ih2 := ih (results ++ snapshot.filter (fun pod =>
        (decide (ns = NamespaceAll) || decide (pod.Namespace = ns)) &&
          selector.Matches pod.Labels))
      ((snapshot.filter (fun pod =>
        (decide (ns = NamespaceAll) || decide (pod.Namespace = ns)) &&
          selector.Matches pod.Labels)).foldl setPodCache a)
    simp only [snapshotClient] at ih2
    rw [ih2]
    simp

theorem foldl_buildLabelSelectorTokens (selectors : List LabelSelector) (labels : List String) :
    selectors.foldl
      (fun labels selector =>
        if selector.Key = "" then labels
        else if selector.Value = "" then labels ++ [selector.Key]
        else labels ++ [selector.Key ++ "=" ++ selector.Value])
      labels =
    labels ++ (selectors.filter (fun s => s.Key ≠ "")).map selectorToken := by
  induction selectors generalizing labels with
  | nil => simp
  | cons s rest ih =>
    rw [List.foldl_cons, ih]
    by_cases hk : s.Key = ""
    · simp [hk]
    · by_cases hv : s.Value = ""
      · simp [hk, hv, selectorToken]
      · simp [hk, hv, selectorToken]

theorem buildLabelSelector_eq (selectors : List LabelSelector) :
    buildLabelSelector selectors =
      joinedSelectorTokens (selectors.filter (fun s => s.Key ≠ "")) := by
  unfold buildLabelSelector buildLabelSelectorTokens joinedSelectorTokens
  rw [foldl_buildLabelSelectorTokens, List.nil_append]

/-! ## Properties of the adapter -/

/-- C8, as amended: with the cache synced, for every set of cached pods and
every list `S` of label selectors, `QueryPods` with no namespace restriction
and no command regex returns exactly one result for each cached pod whose
label map satisfies every selector of `S` that has a non-empty key (the key is
present when the selector's value is empty, the key maps to exactly that value
otherwise) and no result for any other pod, whatever order the cache map is
iterated in; a selector with an empty key is ignored. The selector string
that `QueryPods` hands to the label library is the comma-joined list of the
tokens `key` and `key=value` of the selectors of `S` with a non-empty key; the
library is taken to read that list of tokens as the conjunction of those
requirements, and to print as the empty string only a selector that matches
everything. -/
theorem C8_cached_query_matches_nonempty_key_selectors (env : Environment) (a : Adapter)
    (client : Client) (S : List LabelSelector) (selector : Selector)
    (hclient : a.client = some client) (hsynced : a.cacheHasSynced = true)
    (hcache : a.podCache.WF)
    (horder : ∀ ks, (env.rangeOrder ks).Perm ks)
    (hparse : env.labelsParse (joinedSelectorTokens (S.filter (fun s => s.Key ≠ ""))) =
      .ok selector)
    (hmatch : ∀ labels, selector.Matches labels =
      (S.filter (fun s => s.Key ≠ "")).all (fun s => s.satisfiedBy labels))
    (hall : selector.asString = "" → ∀ labels, selector.Matches labels = true) :
    buildLabelSelector S = joinedSelectorTokens (S.filter (fun s => s.Key ≠ "")) ∧
    ∃ results,
      (QueryPods env a
        (some { K8SNamespace := [], LabelSelectors := S, CommandRegex := "" })).1 = .ok results ∧
      results.Perm
        ((a.podCache.values.filter
          (fun pod => (S.filter (fun s => s.Key ≠ "")).all (fun s => s.satisfiedBy pod.Labels))).map
          (toDomainPod env none)) := by
  refine ⟨buildLabelSelector_eq S,
    (podsFromCache env a [NamespaceAll] selector).map (toDomainPod env none), ?_, ?_⟩
  · simp only [QueryPods, hclient, List.length_nil, if_true, ne_eq, not_true_eq_false, if_false,
      listPods, buildLabelSelector_eq S, hparse, hsynced, queryPodsResults_none]
  · apply List.Perm.map
    rw [podsFromCache_eq]
    have hperm : ((GoMap.range env.rangeOrder a.podCache).map Prod.snd).Perm a.podCache.values :=
      (GoMap.range_perm env.rangeOrder a.podCache hcache horder).map Prod.snd
    have hfilter : ∀ pod : apiv1.Pod,
        ((decide (([NamespaceAll] : List String).length = 0 ∨
              (([NamespaceAll] : List String).length = 1 ∧
                ([NamespaceAll] : List String).head? = some NamespaceAll)) ||
            decide (pod.Namespace ∈ [NamespaceAll])) &&
          (decide (selector.asString = "") || selector.Matches pod.Labels)) =
        (S.filter (fun s => s.Key ≠ "")).all (fun s => s.satisfiedBy pod.Labels) := by
      intro pod
      rw [← hmatch]
      by_cases hs : selector.asString = ""
      · simp [hs, hall hs]
      · simp [hs]
    simp only [hfilter]
    exact hperm.filter _

/-- Witness of C8 as amended: the cache holds a web pod and a database pod,
and the selectors are one with an empty key and `app=web`. -/
theorem C8_cached_query_matches_nonempty_key_selectors_witness :
    buildLabelSelector [{ Key := "", Value := "x" }, { Key := "app", Value := "web" }] =
      "app=web" ∧
    ∃ results,
      (QueryPods Scenario.env (Scenario.adapter Scenario.env [Scenario.webPod, Scenario.dbPod] true)
        (some { K8SNamespace := [],
                LabelSelectors := [{ Key := "", Value := "x" }, { Key := "app", Value := "web" }],
                CommandRegex := "" })).1 = .ok results ∧
      results.Perm
        (((Scenario.adapter Scenario.env [Scenario.webPod, Scenario.dbPod] true).podCache.values.filter
          (fun pod =>
            (([{ Key := "", Value := "x" }, { Key := "app", Value := "web" }] :
              List LabelSelector).filter
            (fun s => s.Key ≠ "")).all (fun s => s.satisfiedBy pod.Labels))).map
          (toDomainPod Scenario.env none)) :=
  C8_cached_query_matches_nonempty_key_selectors Scenario.env
    (Scenario.adapter Scenario.env [Scenario.webPod, Scenario.dbPod] true)
    (snapshotClient Scenario.env [Scenario.webPod, Scenario.dbPod])
    [{ Key := "", Value := "x" }, { Key := "app", Value := "web" }]
    { asString := "app=web"
      Matches := fun labels =>
        ((Scenario.splitChars ',' "app=web".data).map Scenario.requirementOf).all
          (fun r => r.satisfiedBy labels) }
    rfl rfl (by decide) (fun ks => List.Perm.refl ks) rfl (fun _ => rfl)
    (fun h => absurd h (by decide))

/-- Counterexample to C8 as stated: the only selector has an empty key and the
value `x`. No label map of the cache maps the key `""` to `x`, so no cached
pod satisfies the selector, yet `QueryPods` returns both cached pods: the
selector is dropped by `buildLabelSelector` and the query matches all. -/
theorem C8_empty_key_selector_counterexample :
    (∀ pod ∈ (Scenario.adapter Scenario.env [Scenario.webPod, Scenario.dbPod] true).podCache.values,
      (({ Key := "", Value := "x" } : LabelSelector).satisfiedBy pod.Labels) = false) ∧
    (QueryPods Scenario.env (Scenario.adapter Scenario.env [Scenario.webPod, Scenario.dbPod] true)
      (some { K8SNamespace := [], LabelSelectors := [{ Key := "", Value := "x" }],
              CommandRegex := "" })).1 =
      .ok [toDomainPod Scenario.env none Scenario.webPod,
           toDomainPod Scenario.env none Scenario.dbPod] := by
  decide

/-- C9: for every list of pods that `listPods` returns and every non-empty
command regex that compiles to `re`, `QueryPods` returns, in listing order,
one result for each listed pod that has at least one container whose
`command` followed by `args`, joined by single spaces, matches `re`, and no
result for a pod without such a container; the `Containers` of a result are
exactly the matching containers of its pod, in their original order. -/
theorem C9_command_regex_keeps_matching_containers (env : Environment) (a a1 : Adapter)
    (client : Client) (opt : QueryPodsOptions) (re : Regexp) (pods : List apiv1.Pod)
    (hclient : a.client = some client)
    (hregex : opt.CommandRegex ≠ "")
    (hcompile : env.regexpCompile opt.CommandRegex = .ok re)
    (hlist : listPods env a
      (if opt.K8SNamespace.length = 0 then [NamespaceAll] else opt.K8SNamespace)
      (buildLabelSelector opt.LabelSelectors) = (.ok pods, a1)) :
    (QueryPods env a (some opt)).1 =
      .ok ((pods.filter (fun pod => pod.Spec.Containers.any
          (fun c => re.MatchString (String.intercalate " " (c.Command ++ c.Args))))).map
        (fun pod =>
          { K8SNamespace := pod.Namespace
            Labels := copyLabels env pod.Labels
            PodID := pod.UID
            NodeID := pod.Spec.NodeName
            Containers :=
              (pod.Spec.Containers.filter
                (fun c => re.MatchString (String.intercalate " " (c.Command ++ c.Args)))).map
                (fun c =>
                  { ContainerID := (statusByName pod).getD c.Name ""
                    Name := c.Name
                    Command := c.Command ++ c.Args }) })) := by
  simp only [QueryPods, hclient, hregex, ne_eq, not_false_eq_true, if_true, hcompile, hlist,
    queryPodsResults_some]
  congr 1
  apply List.map_congr_left
  intro pod _
  simp only [toDomainPod, buildContainers_eq]

/-- Witness of C9: the regex `serve` keeps the web pod with its server
container only, and drops the database pod. -/
theorem C9_command_regex_keeps_matching_containers_witness :
    (QueryPods Scenario.env (Scenario.adapter Scenario.env [Scenario.webPod, Scenario.dbPod] true)
      (some { K8SNamespace := [], LabelSelectors := [], CommandRegex := "serve" })).1 =
      .ok [{ K8SNamespace := "ns1", Labels := [("app", "web")], PodID := "uid-1",
             NodeID := "node-1",
             Containers := [{ ContainerID := "docker://123", Name := "c1",
                              Command := ["serve", "--port", "80"] }] }] :=
  (C9_command_regex_keeps_matching_containers Scenario.env
    (Scenario.adapter Scenario.env [Scenario.webPod, Scenario.dbPod] true)
    (Scenario.adapter Scenario.env [Scenario.webPod, Scenario.dbPod] true)
    (snapshotClient Scenario.env [Scenario.webPod, Scenario.dbPod])
    { K8SNamespace := [], LabelSelectors := [], CommandRegex := "serve" }
    { MatchString := fun text => decide ("serve".data <:+: text.data) }
    [Scenario.webPod, Scenario.dbPod] rfl (by decide) rfl rfl).trans (by decide)

/-- C10, as amended: for every snapshot of pods with pairwise distinct UIDs,
every label-selector string and every non-empty namespace list without
duplicates that is either the single entry `NamespaceAll` or does not contain
`NamespaceAll`, the pods that `listPods` returns from the cache holding that
snapshot when the synced flag is set are the same, as a multiset, as the pods
that it returns through `listPodsLive` against a cluster holding that same
snapshot when the flag is not set; when the selector string does not parse,
both return the same error. The label library is assumed to print as the
empty string only selectors that match everything. -/
theorem C10_cache_agrees_with_live_listing (env : Environment) (snapshot : List apiv1.Pod)
    (cache : GoMap apiv1.Pod) (namespaces : List String) (labelSelector : String)
    (huid : (snapshot.map (fun pod => pod.UID)).Nodup)
    (horder : ∀ ks, (env.rangeOrder ks).Perm ks)
    (hlaw : ∀ s selector, env.labelsParse s = .ok selector → selector.asString = "" →
      ∀ labels, selector.Matches labels = true)
    (hne : namespaces ≠ [])
    (hnodup : namespaces.Nodup)
    (hall : namespaces = [NamespaceAll] ∨ NamespaceAll ∉ namespaces) :
    SameListing
      (listPods env
        { client := some (snapshotClient env snapshot), podCache := cacheOf snapshot,
          cacheHasSynced := true } namespaces labelSelector).1
      (listPods env
        { client := some (snapshotClient env snapshot), podCache := cache,
          cacheHasSynced := false } namespaces labelSelector).1 := by
  cases hparse : env.labelsParse labelSelector with
  | error e => simp [listPods, hparse, SameListing]
  | ok selector =>
    simp only [listPods, hparse, listPodsLive, if_true, Bool.false_eq_true, if_false]
    rw [listPodsLiveLoop_snapshot env snapshot labelSelector selector hparse]
    simp only [SameListing, List.nil_append]
    rw [podsFromCache_eq]
    obtain ⟨hvals, hwf⟩ := cacheOf_values snapshot huid
    have hperm : ((GoMap.range env.rangeOrder (cacheOf snapshot)).map Prod.snd).Perm snapshot := by
      have h := (GoMap.range_perm env.rangeOrder (cacheOf snapshot) hwf horder).map Prod.snd
      have hv : (cacheOf snapshot).map Prod.snd = snapshot := hvals
      rwa [hv] at h
    refine (hperm.filter _).trans ?_
    have hsel : ∀ labels, (decide (selector.asString = "") || selector.Matches labels) =
        selector.Matches labels := by
      intro labels
      by_cases hs : selector.asString = ""
      · simp [hs, hlaw labelSelector selector hparse hs labels]
      · simp [hs]
    simp only [hsel]
    rcases hall with h | h
    · subst h
      simp [NamespaceAll]
    · have hnotall : ¬ (namespaces.length = 0 ∨
          (namespaces.length = 1 ∧ namespaces.head? = some NamespaceAll)) := by
        rintro (h0 | ⟨_, h1⟩)
        · exact hne (List.length_eq_zero.mp h0)
        · exact h (List.mem_of_mem_head? h1)
      simp only [hnotall, decide_False, Bool.false_or]
      have hflat : (namespaces.flatMap (fun ns =>
          snapshot.filter (fun pod =>
            (decide (ns = NamespaceAll) || decide (pod.Namespace = ns)) &&
              selector.Matches pod.Labels))) =
          (namespaces.flatMap (fun ns =>
            snapshot.filter (fun pod =>
              decide (pod.Namespace = ns) && selector.Matches pod.Labels))) := by
        apply List.flatMap_congr
        intro ns hns
        have hns2 : ¬ ns = NamespaceAll := fun e => h (e ▸ hns)
        simp [hns2]
      rw [hflat]
      exact filter_namespaces_perm snapshot (fun pod => selector.Matches pod.Labels) namespaces
        hnodup

/-- Witness of C10 as amended: two namespaces, the selector `app=web`, and a
cache that is visited in reverse order. -/
theorem C10_cache_agrees_with_live_listing_witness :
    SameListing
      (listPods Scenario.envReverse
        { client := some (snapshotClient Scenario.envReverse [Scenario.webPod, Scenario.dbPod]),
          podCache := cacheOf [Scenario.webPod, Scenario.dbPod],
          cacheHasSynced := true } ["ns2", "ns1"] "app=web").1
      (listPods Scenario.envReverse
        { client := some (snapshotClient Scenario.envReverse [Scenario.webPod, Scenario.dbPod]),
          podCache := [],
          cacheHasSynced := false } ["ns2", "ns1"] "app=web").1 :=
  C10_cache_agrees_with_live_listing Scenario.envReverse [Scenario.webPod, Scenario.dbPod] []
    ["ns2", "ns1"] "app=web" (by decide) (fun ks => List.reverse_perm ks)
    (by
      intro s selector hp hs labels
      simp only [Scenario.envReverse, Scenario.plainParse] at hp
      by_cases h0 : s = ""
      · simp only [h0, if_true, Except.ok.injEq] at hp
        subst hp
        rfl
      · simp only [h0, if_false, Except.ok.injEq] at hp
        subst hp
        exact absurd hs h0)
    (by decide) (by decide) (Or.inr (by decide))

/-- Counterexample to C10 as stated: the namespace list names `ns1` twice.
The cache path tests membership in a set and returns the web pod once; the
live path lists namespace by namespace and returns it twice. -/
theorem C10_duplicate_namespace_counterexample :
    (listPods Scenario.env (Scenario.adapter Scenario.env [Scenario.webPod] true)
      ["ns1", "ns1"] "").1 = .ok [Scenario.webPod] ∧
    (listPods Scenario.env (Scenario.adapter Scenario.env [Scenario.webPod] false)
      ["ns1", "ns1"] "").1 = .ok [Scenario.webPod, Scenario.webPod] ∧
    ¬ SameListing
      (listPods Scenario.env (Scenario.adapter Scenario.env [Scenario.webPod] true)
        ["ns1", "ns1"] "").1
      (listPods Scenario.env (Scenario.adapter Scenario.env [Scenario.webPod] false)
        ["ns1", "ns1"] "").1 := by
  have h1 : (listPods Scenario.env (Scenario.adapter Scenario.env [Scenario.webPod] true)
      ["ns1", "ns1"] "").1 = .ok [Scenario.webPod] := by decide
  have h2 : (listPods Scenario.env (Scenario.adapter Scenario.env [Scenario.webPod] false)
      ["ns1", "ns1"] "").1 = .ok [Scenario.webPod, Scenario.webPod] := by decide
  refine ⟨h1, h2, ?_⟩
  rw [h1, h2]
  intro h
  have hlen := List.Perm.length_eq h
  simp at hlen

/-! ## Lemmas about the agent-pod query -/

theorem nodeFilters_length_pos (nodeIDs : List String) (hne : nodeIDs ≠ []) :
    (nodeIDs.foldl (fun m id => GoMap.set m id ()) ([] : GoMap Unit)).length > 0 := by
  obtain ⟨x, rest, rfl⟩ := List.exists_cons_of_ne_nil hne
  have hmem := (GoMap.foldl_set_unit_mem (x :: rest) ([] : GoMap Unit) x).mpr
    (Or.inr (List.mem_cons_self _ _))
  cases hfold : (x :: rest).foldl (fun m id => GoMap.set m id ()) ([] : GoMap Unit) with
  | nil =>
    rw [hfold] at hmem
    simp [GoMap.get?] at hmem
  | cons kv m => simp

theorem queryDecisionMakerPodsResults_eq (nodeIDs : List String) (pods : List apiv1.Pod) :
    queryDecisionMakerPodsResults
        (nodeIDs.foldl (fun m id => GoMap.set m id ()) ([] : GoMap Unit)) pods =
      (pods.filter (fun pod =>
        decide (nodeIDs = []) || decide (pod.Spec.NodeName ∈ nodeIDs))).map toDecisionMakerPod := by
  unfold queryDecisionMakerPodsResults
  rw [foldl_keep_eq_filter
    (fun pod : apiv1.Pod =>
      (nodeIDs.foldl (fun m id => GoMap.set m id ()) ([] : GoMap Unit)).length > 0 ∧
        ((nodeIDs.foldl (fun m id => GoMap.set m id ()) ([] : GoMap Unit)).get?
          pod.Spec.NodeName).isNone)
    toDecisionMakerPod pods [], List.nil_append]
  congr 1
  apply List.filter_congr
  intro pod _
  by_cases hne : nodeIDs = []
  · subst hne
    simp
  · have hpos := nodeFilters_length_pos nodeIDs hne
    have hmem := GoMap.foldl_set_unit_mem nodeIDs ([] : GoMap Unit) pod.Spec.NodeName
    have hmem2 : ((nodeIDs.foldl (fun m id => GoMap.set m id ()) ([] : GoMap Unit)).get?
        pod.Spec.NodeName).isSome = true ↔ pod.Spec.NodeName ∈ nodeIDs := by
      rw [hmem]
      simp [GoMap.get?]
    by_cases hin : pod.Spec.NodeName ∈ nodeIDs
    · have h1 := hmem2.mpr hin
      cases hget : (nodeIDs.foldl (fun m id => GoMap.set m id ()) ([] : GoMap Unit)).get?
          pod.Spec.NodeName with
      | none => rw [hget] at h1; simp at h1
      | some u => simp [hne, hin]
    · have h1 : ¬ ((nodeIDs.foldl (fun m id => GoMap.set m id ()) ([] : GoMap Unit)).get?
          pod.Spec.NodeName).isSome = true := fun h => hin (hmem2.mp h)
      cases hget : (nodeIDs.foldl (fun m id => GoMap.set m id ()) ([] : GoMap Unit)).get?
          pod.Spec.NodeName with
      | none => simp [hne, hin, hpos]
      | some u => rw [hget] at h1; simp at h1

theorem QueryDecisionMakerPods_eq (env : Environment) (a a1 : Adapter) (client : Client)
    (opt : QueryDecisionMakerPodsOptions) (pods : List apiv1.Pod)
    (hclient : a.client = some client)
    (hlist : listPods env a
      (if opt.K8SNamespace.length = 0 then [NamespaceAll] else opt.K8SNamespace)
      (buildLabelSelector [opt.DecisionMakerLabel]) = (.ok pods, a1)) :
    (QueryDecisionMakerPods env a (some opt)).1 =
      .ok ((pods.filter (fun pod =>
        decide (opt.NodeIDs = []) || decide (pod.Spec.NodeName ∈ opt.NodeIDs))).map
        toDecisionMakerPod) := by
  simp only [QueryDecisionMakerPods, hclient, hlist, queryDecisionMakerPodsResults_eq]

theorem firstContainerPortLoop_skip (pre rest : List apiv1.Container)
    (hpre : ∀ x ∈ pre, x.Ports = []) :
    firstContainerPortLoop (pre ++ rest) = firstContainerPortLoop rest := by
  induction pre with
  | nil => rfl
  | cons x pre ih =>
    have hx : x.Ports = [] := hpre x (List.mem_cons_self _ _)
    rw [List.cons_append]
    simp only [firstContainerPortLoop, hx]
    exact ih (fun y hy => hpre y (List.mem_cons_of_mem _ hy))

/-! ## Properties of the agent-pod query -/

/-- C15: for every list of pods that `listPods` returns for the agent label
and every list of node IDs: when the node-ID list is non-empty,
`QueryDecisionMakerPods` returns one agent pod for exactly those listed pods
whose node name is in the list; when it is empty, it returns one agent pod for
every listed pod; in both cases in listing order. -/
theorem C15_agent_pods_are_filtered_by_node (env : Environment) (a a1 : Adapter)
    (client : Client) (opt : QueryDecisionMakerPodsOptions) (pods : List apiv1.Pod)
    (hclient : a.client = some client)
    (hlist : listPods env a
      (if opt.K8SNamespace.length = 0 then [NamespaceAll] else opt.K8SNamespace)
      (buildLabelSelector [opt.DecisionMakerLabel]) = (.ok pods, a1)) :
    (opt.NodeIDs ≠ [] →
      (QueryDecisionMakerPods env a (some opt)).1 =
        .ok ((pods.filter (fun pod => decide (pod.Spec.NodeName ∈ opt.NodeIDs))).map
          toDecisionMakerPod)) ∧
    (opt.NodeIDs = [] →
      (QueryDecisionMakerPods env a (some opt)).1 = .ok (pods.map toDecisionMakerPod)) := by
  rw [QueryDecisionMakerPods_eq env a a1 client opt pods hclient hlist]
  constructor
  · intro hne
    simp [hne]
  · intro he
    simp [he]

/-- Witness of C15: of the web pod on `node-1` and the database pod on
`node-2`, the node list `node-2` keeps the database pod. -/
theorem C15_agent_pods_are_filtered_by_node_witness :
    (QueryDecisionMakerPods Scenario.env
      (Scenario.adapter Scenario.env [Scenario.webPod, Scenario.dbPod] true)
      (some { K8SNamespace := [], NodeIDs := ["node-2"],
              DecisionMakerLabel := { Key := "", Value := "" } })).1 =
      .ok [{ NodeID := "node-2", Port := 0, Host := "10.0.1.1",
             State := NodeState.NodeStateOnline }] :=
  ((C15_agent_pods_are_filtered_by_node Scenario.env
    (Scenario.adapter Scenario.env [Scenario.webPod, Scenario.dbPod] true)
    (Scenario.adapter Scenario.env [Scenario.webPod, Scenario.dbPod] true)
    (snapshotClient Scenario.env [Scenario.webPod, Scenario.dbPod])
    { K8SNamespace := [], NodeIDs := ["node-2"], DecisionMakerLabel := { Key := "", Value := "" } }
    [Scenario.webPod, Scenario.dbPod] rfl rfl).1 (by decide)).trans (by decide)

/-- C16: for every agent pod that `QueryDecisionMakerPods` returns there is a
listed pod that it is built from, and its `Host` is that pod's own IP when
that is non-empty and the IP of the pod's node (the host IP) otherwise. -/
theorem C16_host_prefers_pod_ip (env : Environment) (a a1 : Adapter)
    (client : Client) (opt : QueryDecisionMakerPodsOptions) (pods : List apiv1.Pod)
    (results : List DecisionMakerPod)
    (hclient : a.client = some client)
    (hlist : listPods env a
      (if opt.K8SNamespace.length = 0 then [NamespaceAll] else opt.K8SNamespace)
      (buildLabelSelector [opt.DecisionMakerLabel]) = (.ok pods, a1))
    (hresults : (QueryDecisionMakerPods env a (some opt)).1 = .ok results) :
    ∀ dm ∈ results, ∃ pod ∈ pods,
      dm = toDecisionMakerPod pod ∧
      (pod.Status.PodIP ≠ "" → dm.Host = pod.Status.PodIP) ∧
      (pod.Status.PodIP = "" → dm.Host = pod.Status.HostIP) := by
  rw [QueryDecisionMakerPods_eq env a a1 client opt pods hclient hlist] at hresults
  have hres : results = (pods.filter (fun pod =>
      decide (opt.NodeIDs = []) || decide (pod.Spec.NodeName ∈ opt.NodeIDs))).map
      toDecisionMakerPod := by
    injection hresults with h
    exact h.symm
  intro dm hdm
  rw [hres] at hdm
  obtain ⟨pod, hpod, rfl⟩ := List.mem_map.mp hdm
  refine ⟨pod, (List.mem_filter.mp hpod).1, rfl, ?_, ?_⟩
  · intro h
    simp [toDecisionMakerPod, h]
  · intro h
    simp [toDecisionMakerPod, h]

/-- Witness of C16: the agent pod of the web pod has the pod IP as its host. -/
theorem C16_host_prefers_pod_ip_witness :
    ∃ pod ∈ [Scenario.webPod, Scenario.dbPod],
      toDecisionMakerPod Scenario.webPod = toDecisionMakerPod pod ∧
      (pod.Status.PodIP ≠ "" → (toDecisionMakerPod Scenario.webPod).Host = pod.Status.PodIP) ∧
      (pod.Status.PodIP = "" → (toDecisionMakerPod Scenario.webPod).Host = pod.Status.HostIP) :=
  C16_host_prefers_pod_ip Scenario.env
    (Scenario.adapter Scenario.env [Scenario.webPod, Scenario.dbPod] true)
    (Scenario.adapter Scenario.env [Scenario.webPod, Scenario.dbPod] true)
    (snapshotClient Scenario.env [Scenario.webPod, Scenario.dbPod])
    { K8SNamespace := [], NodeIDs := ["node-1"], DecisionMakerLabel := { Key := "", Value := "" } }
    [Scenario.webPod, Scenario.dbPod] [toDecisionMakerPod Scenario.webPod] rfl rfl (by decide)
    (toDecisionMakerPod Scenario.webPod) (List.mem_singleton.mpr rfl)

/-- C17: for every pod, `firstContainerPort` returns the first declared port
of the first container, in spec order, that declares at least one port, and 0
when no container declares a port. -/
theorem C17_first_declared_port (pod : apiv1.Pod) :
    (∀ (pre post : List apiv1.Container) (c : apiv1.Container) (port : apiv1.ContainerPort)
        (ports : List apiv1.ContainerPort),
      pod.Spec.Containers = pre ++ c :: post → (∀ x ∈ pre, x.Ports = []) →
      c.Ports = port :: ports → firstContainerPort pod = port.ContainerPort) ∧
    ((∀ c ∈ pod.Spec.Containers, c.Ports = []) → firstContainerPort pod = 0) := by
  constructor
  · intro pre post c port ports hsplit hpre hc
    unfold firstContainerPort
    rw [hsplit, firstContainerPortLoop_skip pre (c :: post) hpre]
    simp only [firstContainerPortLoop, hc]
  · intro hnone
    unfold firstContainerPort
    have h := firstContainerPortLoop_skip pod.Spec.Containers [] hnone
    rw [List.append_nil] at h
    rw [h]
    rfl

/-- Witness of C17: the first container declares no port, the second declares
8080 and 9090, the third declares 7070. -/
theorem C17_first_declared_port_witness :
    firstContainerPort
      { UID := "u", Name := "n", Namespace := "ns", Labels := []
        Spec :=
          { NodeName := "node"
            Containers :=
              [ { Name := "c0", Command := [], Args := [], Ports := [] },
                { Name := "c1", Command := [], Args := [],
                  Ports := [{ ContainerPort := 8080 }, { ContainerPort := 9090 }] },
                { Name := "c2", Command := [], Args := [], Ports := [{ ContainerPort := 7070 }] } ] }
        Status := { Phase := "", PodIP := "", HostIP := "", ContainerStatuses := [] } } = 8080 :=
  (C17_first_declared_port _).1
    [{ Name := "c0", Command := [], Args := [], Ports := [] }]
    [{ Name := "c2", Command := [], Args := [], Ports := [{ ContainerPort := 7070 }] }]
    { Name := "c1", Command := [], Args := [],
      Ports := [{ ContainerPort := 8080 }, { ContainerPort := 9090 }] }
    { ContainerPort := 8080 } [{ ContainerPort := 9090 }] rfl (by decide) rfl

/-- C18: `mapPodState` is a total function that maps the running phase to
`Online`, the pending phase to `Unknown`, and every other phase value, the
empty phase, `Succeeded` and `Failed` among them, to `Offline`. -/
theorem C18_pod_state_mapping :
    mapPodState apiv1.PodRunning = NodeState.NodeStateOnline ∧
    mapPodState apiv1.PodPending = NodeState.NodeStateUnknown ∧
    (∀ phase : String, phase ≠ apiv1.PodRunning → phase ≠ apiv1.PodPending →
      mapPodState phase = NodeState.NodeStateOffline) ∧
    mapPodState "" = NodeState.NodeStateOffline ∧
    mapPodState "Succeeded" = NodeState.NodeStateOffline ∧
    mapPodState "Failed" = NodeState.NodeStateOffline := by
  refine ⟨by decide, by decide, ?_, by decide, by decide, by decide⟩
  intro phase h1 h2
  simp [mapPodState, h1, h2]

/-- Witness of C18: the phase `Unknown` of the cluster API is mapped to
`Offline`. -/
theorem C18_pod_state_mapping_witness : mapPodState "Unknown" = NodeState.NodeStateOffline :=
  C18_pod_state_mapping.2.2.1 "Unknown" (by decide) (by decide)

/-- C19: for every query option whose non-empty command regex does not
compile, `QueryPods` on an adapter with a client returns the error that wraps
the compile error, and the adapter after the call is the adapter before it,
whatever the client, the pod cache and the synced flag are: no pod is listed
and the cache is unchanged. -/
theorem C19_invalid_regex_fails_before_listing (env : Environment) (a : Adapter)
    (client : Client) (opt : QueryPodsOptions) (e : Error)
    (hclient : a.client = some client)
    (hregex : opt.CommandRegex ≠ "")
    (hcompile : env.regexpCompile opt.CommandRegex = .error e) :
    QueryPods env a (some opt) = (.error (Error.wrap "compile command regex" e), a) ∧
    (QueryPods env a (some opt)).2.podCache = a.podCache := by
  have h : QueryPods env a (some opt) = (.error (Error.wrap "compile command regex" e), a) := by
    simp only [QueryPods, hclient, hregex, ne_eq, not_false_eq_true, if_true, hcompile]
  exact ⟨h, by rw [h]⟩

/-- Witness of C19: the pattern `(` does not compile, and the cache is not
synced, so a listing would have gone to the cluster and written the cache. -/
theorem C19_invalid_regex_fails_before_listing_witness :
    (QueryPods Scenario.env
      { client := some (snapshotClient Scenario.env [Scenario.webPod]), podCache := [],
        cacheHasSynced := false }
      (some { K8SNamespace := [], LabelSelectors := [], CommandRegex := "(" })).2.podCache = [] :=
  (C19_invalid_regex_fails_before_listing Scenario.env
    { client := some (snapshotClient Scenario.env [Scenario.webPod]), podCache := [],
      cacheHasSynced := false }
    (snapshotClient Scenario.env [Scenario.webPod])
    { K8SNamespace := [], LabelSelectors := [], CommandRegex := "(" }
    (Error.msg "missing closing )") rfl (by decide) rfl).2

/-! ## Lemmas about the records that `QueryPods` builds -/

theorem foldl_status_get? (statuses : List apiv1.ContainerStatus) (m : GoMap String)
    (name : String) :
    (statuses.foldl (fun m status => GoMap.set m status.Name status.ContainerID) m).get? name =
      match (statuses.filter (fun status => status.Name = name)).getLast? with
      | some status => some status.ContainerID
      | none => m.get? name := by
  induction statuses generalizing m with
  | nil => simp
  | cons st statuses ih =>
    rw [List.foldl_cons, ih, GoMap.get?_set]
    by_cases hn : st.Name = name
    · simp only [List.filter_cons, hn, decide_True, if_true]
      cases hl : statuses.filter (fun status => status.Name = name) with
      | nil => simp
      | cons c cs => simp [List.getLast?_eq_getLast _ (List.cons_ne_nil c cs)]
    · simp [List.filter_cons, hn]

theorem statusByName_getD (pod : apiv1.Pod) (name : String) :
    (statusByName pod).getD name "" =
      (((pod.Status.ContainerStatuses.filter (fun status => status.Name = name)).getLast?).map
        (fun status => status.ContainerID)).getD "" := by
  unfold statusByName GoMap.getD
  rw [foldl_status_get?]
  cases (pod.Status.ContainerStatuses.filter (fun status => status.Name = name)).getLast? <;>
    simp [GoMap.get?]

theorem buildContainers_none (pod : apiv1.Pod) :
    buildContainers pod none =
      pod.Spec.Containers.map
        (fun c =>
          { ContainerID :=
              (((pod.Status.ContainerStatuses.filter
                (fun status => status.Name = c.Name)).getLast?).map
                (fun status => status.ContainerID)).getD ""
            Name := c.Name
            Command := c.Command ++ c.Args }) := by
  rw [buildContainers_eq]
  simp only [List.filter_true, statusByName_getD]

namespace GoMap

variable {V : Type}

theorem get?_eq_some_iff_mem (m : GoMap V) (hm : WF m) (k : String) (v : V) :
    get? m k = some v ↔ (k, v) ∈ m := by
  induction m with
  | nil => simp [get?]
  | cons kv m ih =>
    obtain ⟨k1, v1⟩ := kv
    have hm2 : k1 ∉ keys m ∧ WF m := by
      simpa only [WF, keys, List.map_cons, List.nodup_cons] using hm
    by_cases h1 : k1 = k
    · subst h1
      simp only [get?, if_true, Option.some.injEq, List.mem_cons, Prod.mk.injEq, true_and]
      constructor
      · intro h; exact Or.inl h.symm
      · rintro (h | h)
        · exact h.symm
        · exact absurd (List.mem_map_of_mem Prod.fst h) hm2.1
    · have h2 : ¬ k = k1 := fun e => h1 e.symm
      simp only [get?, h1, if_false, ih hm2.2, List.mem_cons, Prod.mk.injEq, h2, false_and,
        false_or]

theorem get?_congr_perm (m1 m2 : GoMap V) (hperm : List.Perm m1 m2) (hm : WF m2) (k : String) :
    get? m1 k = get? m2 k := by
  have hm1 : WF m1 := by
    unfold WF keys
    exact (hperm.map Prod.fst).nodup_iff.mpr hm
  cases h2 : get? m2 k with
  | some v =>
    exact (get?_eq_some_iff_mem m1 hm1 k v).mpr
      (hperm.mem_iff.mpr ((get?_eq_some_iff_mem m2 hm k v).mp h2))
  | none =>
    cases h1 : get? m1 k with
    | none => rfl
    | some v =>
      have := (get?_eq_some_iff_mem m2 hm k v).mpr
        (hperm.mem_iff.mp ((get?_eq_some_iff_mem m1 hm1 k v).mp h1))
      rw [h2] at this
      exact Option.noConfusion this

theorem foldl_set_pairs_get? (l : GoMap V) (hl : WF l) (m : GoMap V) (k : String) :
    get? (l.foldl (fun cloned kv => set cloned kv.1 kv.2) m) k =
      match get? l k with
      | some v => some v
      | none => get? m k := by
  induction l generalizing m with
  | nil => simp [get?]
  | cons kv l ih =>
    obtain ⟨k1, v1⟩ := kv
    have hl2 : k1 ∉ keys l ∧ WF l := by
      simpa only [WF, keys, List.map_cons, List.nodup_cons] using hl
    rw [List.foldl_cons, ih hl2.2, get?_set]
    by_cases h1 : k1 = k
    · subst h1
      have hnone : get? l k1 = none := by
        cases hg : get? l k1 with
        | none => rfl
        | some v =>
          exact absurd (List.mem_map_of_mem Prod.fst
            ((get?_eq_some_iff_mem l hl2.2 k1 v).mp hg)) hl2.1
      simp [get?, hnone]
    · simp [get?, h1]

end GoMap

theorem copyLabels_get? (env : Environment) (labels : GoMap String) (hl : labels.WF)
    (horder : ∀ ks, (env.rangeOrder ks).Perm ks) (k : String) :
    (copyLabels env labels).get? k = labels.get? k := by
  unfold copyLabels
  by_cases h0 : labels.length = 0
  · have : labels = [] := List.length_eq_zero.mp h0
    subst this
    simp
  · rw [if_neg h0]
    have hperm := GoMap.range_perm env.rangeOrder labels hl horder
    have hwf : GoMap.WF (GoMap.range env.rangeOrder labels) := by
      unfold GoMap.WF GoMap.keys
      exact (hperm.map Prod.fst).nodup_iff.mpr hl
    rw [GoMap.foldl_set_pairs_get? _ hwf, GoMap.get?_congr_perm _ _ hperm hl]
    cases GoMap.get? labels k <;> simp [GoMap.get?]

/-! ## Properties of the records that `QueryPods` builds -/

/-- C20: when `QueryPods` is called without a command regex and `listPods`
returns the pods `pods`, the call returns one record for each listed pod, in
listing order, and for each of them `PodID` is the pod's UID, `NodeID` its
node name, `K8SNamespace` its namespace, `Labels` a map with the same value
as the pod's labels at every key, and `Containers` has one entry per spec
container in order, each with the container's name, `Command` equal to the
container's command followed by its args, and `ContainerID` equal to the
container ID of the status entry with the same container name (the last such
entry if there are several), or empty when there is none. -/
theorem C20_result_fields_without_regex (env : Environment) (a a1 : Adapter)
    (client : Client) (opt : QueryPodsOptions) (pods : List apiv1.Pod)
    (hclient : a.client = some client)
    (hregex : opt.CommandRegex = "")
    (hlist : listPods env a
      (if opt.K8SNamespace.length = 0 then [NamespaceAll] else opt.K8SNamespace)
      (buildLabelSelector opt.LabelSelectors) = (.ok pods, a1))
    (horder : ∀ ks, (env.rangeOrder ks).Perm ks)
    (hlabels : ∀ pod ∈ pods, pod.Labels.WF) :
    ∃ results,
      (QueryPods env a (some opt)).1 = .ok results ∧
      List.Forall₂
        (fun (pod : apiv1.Pod) (r : Pod) =>
          r.PodID = pod.UID ∧
          r.NodeID = pod.Spec.NodeName ∧
          r.K8SNamespace = pod.Namespace ∧
          (∀ k, r.Labels.get? k = pod.Labels.get? k) ∧
          r.Containers =
            pod.Spec.Containers.map
              (fun c =>
                { ContainerID :=
                    (((pod.Status.ContainerStatuses.filter
                      (fun status => status.Name = c.Name)).getLast?).map
                      (fun status => status.ContainerID)).getD ""
                  Name := c.Name
                  Command := c.Command ++ c.Args }))
        pods results := by
  refine ⟨pods.map (toDomainPod env none), ?_, ?_⟩
  · simp only [QueryPods, hclient, hregex, ne_eq, not_true_eq_false, if_false, hlist,
      queryPodsResults_none]
  · rw [List.forall₂_map_right_iff, List.forall₂_same]
    intro pod hpod
    refine ⟨rfl, rfl, rfl, ?_, ?_⟩
    · intro k
      exact copyLabels_get? env pod.Labels (hlabels pod hpod) horder k
    · exact buildContainers_none pod

/-- Witness of C20: the web pod, whose first container has a status entry and
whose second has none. -/
theorem C20_result_fields_without_regex_witness :
    (QueryPods Scenario.env (Scenario.adapter Scenario.env [Scenario.webPod] true)
      (some { K8SNamespace := ["ns1"], LabelSelectors := [{ Key := "app", Value := "web" }],
              CommandRegex := "" })).1 =
      .ok [{ K8SNamespace := "ns1", Labels := [("app", "web")], PodID := "uid-1",
             NodeID := "node-1",
             Containers :=
               [ { ContainerID := "docker://123", Name := "c1",
                   Command := ["serve", "--port", "80"] },
                 { ContainerID := "", Name := "c2", Command := ["sidecar"] } ] }] := by
  obtain ⟨results, hres, _⟩ :=
    C20_result_fields_without_regex Scenario.env
      (Scenario.adapter Scenario.env [Scenario.webPod] true)
      (Scenario.adapter Scenario.env [Scenario.webPod] true)
      (snapshotClient Scenario.env [Scenario.webPod])
      { K8SNamespace := ["ns1"], LabelSelectors := [{ Key := "app", Value := "web" }],
        CommandRegex := "" }
      [Scenario.webPod] rfl rfl rfl (fun ks => List.Perm.refl ks) (by decide)
  have h2 : (QueryPods Scenario.env (Scenario.adapter Scenario.env [Scenario.webPod] true)
      (some { K8SNamespace := ["ns1"], LabelSelectors := [{ Key := "app", Value := "web" }],
              CommandRegex := "" })).1 =
      .ok [{ K8SNamespace := "ns1", Labels := [("app", "web")], PodID := "uid-1",
             NodeID := "node-1",
             Containers :=
               [ { ContainerID := "docker://123", Name := "c1",
                   Command := ["serve", "--port", "80"] },
                 { ContainerID := "", Name := "c2", Command := ["sidecar"] } ] }] := by decide
  exact hres.trans (hres.symm.trans h2)

/-! ## Lemmas about the Directory steps -/

namespace GoMap

variable {V : Type}

theorem mem_delete (m : GoMap V) (k : String) (kv : String × V) (h : kv ∈ delete m k) :
    kv ∈ m := by
  induction m with
  | nil => simp [delete] at h
  | cons kv1 m ih =>
    obtain ⟨k1, v1⟩ := kv1
    by_cases h1 : k1 = k
    · simp only [delete, h1, if_true] at h
      exact List.mem_cons_of_mem _ h
    · simp only [delete, h1, if_false, List.mem_cons] at h
      rcases h with h | h
      · exact h ▸ List.mem_cons_self _ _
      · exact List.mem_cons_of_mem _ (ih h)

theorem WF_delete (m : GoMap V) (k : String) (hm : WF m) : WF (delete m k) := by
  induction m with
  | nil => simpa [delete] using hm
  | cons kv1 m ih =>
    obtain ⟨k1, v1⟩ := kv1
    have hm2 : k1 ∉ keys m ∧ WF m := by
      simpa only [WF, keys, List.map_cons, List.nodup_cons] using hm
    by_cases h1 : k1 = k
    · simp only [delete, h1, if_true]
      exact hm2.2
    · simp only [delete, h1, if_false, WF, keys, List.map_cons, List.nodup_cons]
      refine ⟨?_, ih hm2.2⟩
      intro hk
      obtain ⟨kv, hkv, hfst⟩ := List.mem_map.mp hk
      exact hm2.1 (List.mem_map.mpr ⟨kv, mem_delete m k kv hkv, hfst⟩)

theorem not_mem_keys_delete (m : GoMap V) (k : String) (hm : WF m) : k ∉ keys (delete m k) := by
  induction m with
  | nil => simp [delete, keys]
  | cons kv1 m ih =>
    obtain ⟨k1, v1⟩ := kv1
    have hm2 : k1 ∉ keys m ∧ WF m := by
      simpa only [WF, keys, List.map_cons, List.nodup_cons] using hm
    by_cases h1 : k1 = k
    · simp only [delete, h1, if_true]
      exact h1 ▸ hm2.1
    · simp only [delete, h1, if_false, keys, List.map_cons, List.mem_cons, not_or]
      exact ⟨fun e => h1 e.symm, ih hm2.2⟩

theorem mem_set (m : GoMap V) (k : String) (v : V) (kv : String × V) (h : kv ∈ set m k v) :
    kv = (k, v) ∨ kv ∈ m := by
  induction m with
  | nil =>
    simp only [set, List.mem_singleton] at h
    exact Or.inl h
  | cons kv1 m ih =>
    obtain ⟨k1, v1⟩ := kv1
    by_cases h1 : k1 = k
    · simp only [set, h1, if_true, List.mem_cons] at h
      rcases h with h | h
      · exact Or.inl h
      · exact Or.inr (List.mem_cons_of_mem _ h)
    · simp only [set, h1, if_false, List.mem_cons] at h
      rcases h with h | h
      · exact Or.inr (h ▸ List.mem_cons_self _ _)
      · rcases ih h with h2 | h2
        · exact Or.inl h2
        · exact Or.inr (List.mem_cons_of_mem _ h2)

end GoMap

theorem GoMap.mem_of_get? {V : Type} (m : GoMap V) (k : String) (v : V)
    (h : GoMap.get? m k = some v) : (k, v) ∈ m := by
  induction m with
  | nil => simp [GoMap.get?] at h
  | cons kv1 m ih =>
    obtain ⟨k1, v1⟩ := kv1
    by_cases h1 : k1 = k
    · simp only [GoMap.get?, h1, if_true, Option.some.injEq] at h
      rw [h1, h]
      exact List.mem_cons_self _ _
    · simp only [GoMap.get?, h1, if_false] at h
      exact List.mem_cons_of_mem _ (ih h)

theorem mem_podsFromCache (env : Environment) (a : Adapter) (namespaces : List String)
    (selector : Selector) (pod : apiv1.Pod)
    (h : pod ∈ podsFromCache env a namespaces selector) :
    ∃ k, (k, pod) ∈ a.podCache := by
  rw [podsFromCache_eq] at h
  have h1 := (List.mem_filter.mp h).1
  obtain ⟨kv, hkv, hsnd⟩ := List.mem_map.mp h1
  unfold GoMap.range at hkv
  obtain ⟨k, _, hk⟩ := List.mem_filterMap.mp hkv
  cases hget : GoMap.get? a.podCache k with
  | none => rw [hget] at hk; simp at hk
  | some v =>
    rw [hget] at hk
    simp only [Option.map_some', Option.some.injEq] at hk
    refine ⟨k, ?_⟩
    have hv : v = pod := by rw [← hsnd, ← hk]
    rw [← hv]
    exact GoMap.mem_of_get? _ _ _ hget

theorem listPods_synced (env : Environment) (a : Adapter) (namespaces : List String)
    (labelSelector : String) (hsynced : a.cacheHasSynced = true) :
    (listPods env a namespaces labelSelector).2 = a ∧
    ∀ pods, (listPods env a namespaces labelSelector).1 = .ok pods →
      ∀ pod ∈ pods, ∃ k, (k, pod) ∈ a.podCache := by
  unfold listPods
  cases hparse : env.labelsParse labelSelector with
  | error e =>
    refine ⟨rfl, ?_⟩
    intro pods hp
    simp at hp
  | ok selector =>
    simp only [hsynced, if_true, true_and]
    intro pods hp pod hpod
    have hp2 : podsFromCache env a namespaces selector = pods := by
      injection hp
    rw [← hp2] at hpod
    exact mem_podsFromCache env a namespaces selector pod hpod

theorem stepDirectory_keeps (env : Environment) (a : Adapter) (step : DirectoryStep)
    (hsynced : a.cacheHasSynced = true) (hcache : CacheWellKeyed a.podCache) :
    (stepDirectory env a step).1.cacheHasSynced = true ∧
    CacheWellKeyed (stepDirectory env a step).1.podCache := by
  cases step with
  | addOrUpdate pod =>
    refine ⟨hsynced, GoMap.WF_set _ _ _ hcache.1, ?_⟩
    intro kv hkv
    rcases GoMap.mem_set _ _ _ kv hkv with h | h
    · rw [h]
    · exact hcache.2 kv h
  | liveWrite pod =>
    refine ⟨hsynced, GoMap.WF_set _ _ _ hcache.1, ?_⟩
    intro kv hkv
    rcases GoMap.mem_set _ _ _ kv hkv with h | h
    · rw [h]
    · exact hcache.2 kv h
  | delete uid =>
    exact ⟨hsynced, GoMap.WF_delete _ _ hcache.1,
      fun kv hkv => hcache.2 kv (GoMap.mem_delete _ _ kv hkv)⟩
  | query namespaces labelSelector =>
    have h := (listPods_synced env a namespaces labelSelector hsynced).1
    simp only [stepDirectory, h]
    exact ⟨hsynced, hcache⟩

theorem runDirectory_keeps (env : Environment) (a : Adapter) (steps : List DirectoryStep)
    (hsynced : a.cacheHasSynced = true) (hcache : CacheWellKeyed a.podCache) :
    (runDirectory env a steps).1.cacheHasSynced = true ∧
    CacheWellKeyed (runDirectory env a steps).1.podCache := by
  induction steps generalizing a with
  | nil => exact ⟨hsynced, hcache⟩
  | cons step rest ih =>
    have h := stepDirectory_keeps env a step hsynced hcache
    simp only [runDirectory]
    exact ih _ h.1 h.2

theorem runDirectory_append (env : Environment) (a : Adapter) (s1 s2 : List DirectoryStep) :
    runDirectory env a (s1 ++ s2) =
      ((runDirectory env (runDirectory env a s1).1 s2).1,
        (runDirectory env a s1).2 ++ (runDirectory env (runDirectory env a s1).1 s2).2) := by
  induction s1 generalizing a with
  | nil => simp [runDirectory]
  | cons step rest ih =>
    rw [List.cons_append]
    simp only [runDirectory]
    rw [ih]
    simp only [List.append_assoc]

theorem stepDirectory_absent (env : Environment) (a : Adapter) (step : DirectoryStep)
    (uid : String) (hsynced : a.cacheHasSynced = true)
    (habsent : uid ∉ GoMap.keys a.podCache) (hstep : ¬ step.writes uid) :
    uid ∉ GoMap.keys (stepDirectory env a step).1.podCache := by
  cases step with
  | addOrUpdate pod =>
    intro h
    rcases (GoMap.mem_keys_set _ _ _ _).mp h with h1 | h1
    · exact habsent h1
    · exact hstep h1.symm
  | liveWrite pod =>
    intro h
    rcases (GoMap.mem_keys_set _ _ _ _).mp h with h1 | h1
    · exact habsent h1
    · exact hstep h1.symm
  | delete k =>
    intro h
    obtain ⟨kv, hkv, hfst⟩ := List.mem_map.mp h
    exact habsent (List.mem_map.mpr ⟨kv, GoMap.mem_delete _ _ kv hkv, hfst⟩)
  | query namespaces labelSelector =>
    have h := (listPods_synced env a namespaces labelSelector hsynced).1
    simp only [stepDirectory, h]
    exact habsent

theorem runDirectory_absent (env : Environment) (a : Adapter) (steps : List DirectoryStep)
    (uid : String) (hsynced : a.cacheHasSynced = true) (hcache : CacheWellKeyed a.podCache)
    (habsent : uid ∉ GoMap.keys a.podCache) (hsteps : ∀ step ∈ steps, ¬ step.writes uid) :
    ∀ r ∈ (runDirectory env a steps).2, ∀ pods, r = .ok pods → ∀ pod ∈ pods, pod.UID ≠ uid := by
  induction steps generalizing a with
  | nil =>
    intro r hr
    simp [runDirectory] at hr
  | cons step rest ih =>
    have hk := stepDirectory_keeps env a step hsynced hcache
    have ha := stepDirectory_absent env a step uid hsynced habsent
      (hsteps step (List.mem_cons_self _ _))
    have ih2 := ih (stepDirectory env a step).1 hk.1 hk.2 ha
      (fun st hst => hsteps st (List.mem_cons_of_mem _ hst))
    intro r hr pods hpods pod hpod
    simp only [runDirectory, List.mem_append] at hr
    rcases hr with hr | hr
    · cases step with
      | addOrUpdate p => simp [stepDirectory] at hr
      | liveWrite p => simp [stepDirectory] at hr
      | delete k => simp [stepDirectory] at hr
      | query namespaces labelSelector =>
        simp only [stepDirectory, List.mem_singleton] at hr
        rw [hr] at hpods
        obtain ⟨k, hkmem⟩ :=
          (listPods_synced env a namespaces labelSelector hsynced).2 pods hpods pod hpod
        have hkey : pod.UID = k := hcache.2 (k, pod) hkmem
        intro he
        apply habsent
        rw [← he, hkey]
        exact List.mem_map.mpr ⟨(k, pod), hkmem, rfl⟩
    · exact ih2 r hr pods hpods pod hpod

/-! ## Properties of the Directory steps -/

/-- C11, as amended: in every sequence of Directory steps (add or update
event, delete event, cache write by the live-query fallback, query served
from the synced cache), that starts from a cache whose entries are stored
under their pod UIDs, once a delete event for pod ID `uid` has been applied,
no later query returns a pod with ID `uid` unless a later add or update event
for `uid` or a later cache write by the live-query fallback for `uid`
occurred. The results of the whole run are those of the steps before the
delete event followed by those of the steps after it. -/
theorem C11_deleted_pod_absent_until_next_write (env : Environment) (a : Adapter)
    (uid : String) (pre post : List DirectoryStep)
    (hsynced : a.cacheHasSynced = true) (hcache : CacheWellKeyed a.podCache)
    (hpost : ∀ step ∈ post, ¬ step.writes uid) :
    (runDirectory env a (pre ++ DirectoryStep.delete uid :: post)).2 =
      (runDirectory env a pre).2 ++
        (runDirectory env (runDirectory env a (pre ++ [DirectoryStep.delete uid])).1 post).2 ∧
    ∀ r ∈ (runDirectory env (runDirectory env a (pre ++ [DirectoryStep.delete uid])).1 post).2,
      ∀ pods, r = .ok pods → ∀ pod ∈ pods, pod.UID ≠ uid := by
  have hsplit : pre ++ DirectoryStep.delete uid :: post =
      (pre ++ [DirectoryStep.delete uid]) ++ post := by simp
  have hpre := runDirectory_keeps env a pre hsynced hcache
  have hstate : (runDirectory env a (pre ++ [DirectoryStep.delete uid])).1 =
      deletePodCache (runDirectory env a pre).1 uid := by
    rw [runDirectory_append]
    simp [runDirectory, stepDirectory]
  have hres : (runDirectory env a (pre ++ [DirectoryStep.delete uid])).2 =
      (runDirectory env a pre).2 := by
    rw [runDirectory_append]
    simp [runDirectory, stepDirectory]
  constructor
  · rw [hsplit, runDirectory_append, hres]
  · rw [hstate]
    apply runDirectory_absent env _ post uid
    · exact hpre.1
    · exact ⟨GoMap.WF_delete _ _ hpre.2.1,
        fun kv hkv => hpre.2.2 kv (GoMap.mem_delete _ _ kv hkv)⟩
    · exact GoMap.not_mem_keys_delete _ _ hpre.2.1
    · exact hpost

/-- Witness of C11 as amended: the web pod is added, deleted, and queried
while the database pod is written by a live-query fallback. -/
theorem C11_deleted_pod_absent_until_next_write_witness :
    (runDirectory Scenario.env (Scenario.adapter Scenario.env [] true)
      ([DirectoryStep.addOrUpdate Scenario.webPod] ++ DirectoryStep.delete "uid-1" ::
        [DirectoryStep.liveWrite Scenario.dbPod, DirectoryStep.query [] ""])).2 =
      (runDirectory Scenario.env (Scenario.adapter Scenario.env [] true)
        [DirectoryStep.addOrUpdate Scenario.webPod]).2 ++
        (runDirectory Scenario.env
          (runDirectory Scenario.env (Scenario.adapter Scenario.env [] true)
            ([DirectoryStep.addOrUpdate Scenario.webPod] ++ [DirectoryStep.delete "uid-1"])).1
          [DirectoryStep.liveWrite Scenario.dbPod, DirectoryStep.query [] ""]).2 ∧
    ∀ r ∈ (runDirectory Scenario.env
        (runDirectory Scenario.env (Scenario.adapter Scenario.env [] true)
          ([DirectoryStep.addOrUpdate Scenario.webPod] ++ [DirectoryStep.delete "uid-1"])).1
        [DirectoryStep.liveWrite Scenario.dbPod, DirectoryStep.query [] ""]).2,
      ∀ pods, r = .ok pods → ∀ pod ∈ pods, pod.UID ≠ "uid-1" :=
  C11_deleted_pod_absent_until_next_write Scenario.env (Scenario.adapter Scenario.env [] true)
    "uid-1" [DirectoryStep.addOrUpdate Scenario.webPod]
    [DirectoryStep.liveWrite Scenario.dbPod, DirectoryStep.query [] ""] rfl (by decide)
    (by
      intro step hstep
      have h : step = DirectoryStep.liveWrite Scenario.dbPod ∨
          step = DirectoryStep.query [] "" := by simpa using hstep
      rcases h with h | h <;> subst h
      · show ¬ (Scenario.dbPod.UID = "uid-1")
        decide
      · exact fun hf => hf)

/-- Counterexample to C11 as stated: the cache holds the web pod; its delete
event is applied; then a live-query fallback that listed the web pod before
the deletion writes it to the cache (line 285); no add or update event
follows, and the next query returns the web pod, whose ID is the deleted
`uid-1`. -/
theorem C11_stale_live_write_counterexample :
    Scenario.webPod.UID = "uid-1" ∧
    (runDirectory Scenario.env (Scenario.adapter Scenario.env [Scenario.webPod] true)
      [ DirectoryStep.delete "uid-1",
        DirectoryStep.liveWrite Scenario.webPod,
        DirectoryStep.query [] "" ]).2 = [.ok [Scenario.webPod]] ∧
    (runDirectory Scenario.env (Scenario.adapter Scenario.env [Scenario.webPod] true)
      [ DirectoryStep.delete "uid-1",
        DirectoryStep.query [] "" ]).2 = [.ok []] := by
  decide

/-! ## Lemmas about the process resolver -/

namespace DecisionMaker

theorem hasPrefix_pod_append (u : String) : strings.HasPrefix ("pod" ++ u) "pod" = true := by
  unfold strings.HasPrefix
  rw [String.data_append, List.isPrefixOf_iff_prefix]
  exact List.prefix_append _ _

theorem trimPrefix_pod_append (u : String) : strings.TrimPrefix ("pod" ++ u) "pod" = u := by
  unfold strings.TrimPrefix
  rw [hasPrefix_pod_append, if_pos rfl, String.data_append, List.drop_left]

theorem replaceAll_eq_empty (u : String) (old new : Char)
    (h : strings.ReplaceAll u old new = "") : u = "" := by
  unfold strings.ReplaceAll at h
  have hdata : (String.mk (u.data.map (fun c => if c = old then new else c))).data = "".data := by
    rw [h]
  have hnil : u.data = [] := by simpa using hdata
  cases u with
  | mk data =>
    simp only at hnil
    rw [hnil]

theorem getPodInfoLoop_skip (pre rest : List String)
    (hpre : ∀ part ∈ pre, strings.HasPrefix part "pod" = false) :
    getPodInfoLoop (pre ++ rest) = getPodInfoLoop rest := by
  induction pre with
  | nil => rfl
  | cons x pre ih =>
    have hx : strings.HasPrefix x "pod" = false := hpre x (List.mem_cons_self _ _)
    rw [List.cons_append]
    simp only [getPodInfoLoop, hx, Bool.false_eq_true, if_false]
    exact ih (fun y hy => hpre y (List.mem_cons_of_mem _ hy))

theorem getProcessInfo_ok (fs : FileSystem) (rootDir : String) (pid : Int) :
    ∃ process, getProcessInfo fs rootDir pid = .ok process ∧ process.PID = pid := by
  refine ⟨_, rfl, ?_⟩
  cases hc : fs.ReadFile (commPathOf rootDir pid) <;>
    cases hs : fs.ReadFile (statPathOf rootDir pid) <;>
    simp only [hc, hs]
  · split
    · split <;> rfl
    · rfl
  · split
    · split <;> rfl
    · rfl

theorem scanLines_withEntries (fs : FileSystem) (entries : List DirEntry) (rootDir : String)
    (pid : Int) (lines : List String) (podMap : GoMap PodInfo) :
    scanLines (fs.withEntries entries) rootDir pid lines podMap =
      scanLines fs rootDir pid lines podMap := by
  induction lines generalizing podMap with
  | nil => rfl
  | cons line rest ih =>
    have hparse : parseCgroupToPodInfo (fs.withEntries entries) rootDir line pid podMap =
        parseCgroupToPodInfo fs rootDir line pid podMap := rfl
    simp only [scanLines, hparse, ih]

theorem scanEntry_withEntries (fs : FileSystem) (entries : List DirEntry) (rootDir : String)
    (st : ScanState) (entry : DirEntry) :
    scanEntry (fs.withEntries entries) rootDir st entry = scanEntry fs rootDir st entry := by
  have hopen : ∀ path, (fs.withEntries entries).Open path = fs.Open path := fun _ => rfl
  simp only [scanEntry, hopen, scanLines_withEntries]

theorem foldl_scanEntry_withEntries (fs : FileSystem) (entries : List DirEntry)
    (rootDir : String) (l : List DirEntry) (st : ScanState) :
    l.foldl (scanEntry (fs.withEntries entries) rootDir) st =
      l.foldl (scanEntry fs rootDir) st := by
  induction l generalizing st with
  | nil => rfl
  | cons x l ih => rw [List.foldl_cons, List.foldl_cons, scanEntry_withEntries, ih]

theorem FindPodInfoFrom_withEntries (rangeOrder : List String → List String) (fs : FileSystem)
    (entries : List DirEntry) (rootDir : String) :
    FindPodInfoFrom rangeOrder (fs.withEntries entries) rootDir =
      { result := .ok ((GoMap.range rangeOrder
          (entries.foldl (scanEntry fs rootDir) { podMap := [], opened := [] }).podMap).map
          Prod.snd)
        opened := (entries.foldl (scanEntry fs rootDir) { podMap := [], opened := [] }).opened } := by
  have hread : (fs.withEntries entries).ReadDir rootDir = .ok entries := rfl
  simp only [FindPodInfoFrom, hread, foldl_scanEntry_withEntries]

theorem scanEntry_not_candidate (fs : FileSystem) (rootDir : String) (st : ScanState)
    (entry : DirEntry) (h : candidatePath rootDir entry = none) :
    scanEntry fs rootDir st entry = st := by
  unfold candidatePath at h
  unfold scanEntry
  by_cases hdir : entry.IsDir = false
  · rw [if_pos hdir]
  · rw [if_neg hdir] at h ⊢
    cases hatoi : strconv.Atoi entry.Name with
    | error e => rfl
    | ok pid =>
      rw [hatoi] at h
      exact Option.noConfusion h

theorem scanEntry_opened (fs : FileSystem) (rootDir : String) (st : ScanState)
    (entry : DirEntry) :
    (scanEntry fs rootDir st entry).opened =
      st.opened ++ (candidatePath rootDir entry).toList := by
  unfold candidatePath scanEntry
  by_cases hdir : entry.IsDir = false
  · simp [hdir]
  · rw [if_neg hdir, if_neg hdir]
    cases hatoi : strconv.Atoi entry.Name with
    | error e => simp
    | ok pid =>
      cases hopen : fs.Open (cgroupPathOf rootDir pid) <;> simp [hopen]

theorem foldl_scanEntry_opened (fs : FileSystem) (rootDir : String) (entries : List DirEntry)
    (st : ScanState) :
    (entries.foldl (scanEntry fs rootDir) st).opened =
      st.opened ++ entries.filterMap (candidatePath rootDir) := by
  induction entries generalizing st with
  | nil => simp
  | cons x l ih =>
    rw [List.foldl_cons, ih, scanEntry_opened, List.filterMap_cons]
    cases candidatePath rootDir x <;> simp

theorem scanEntry_podMap (fs : FileSystem) (rootDir : String) (st1 st2 : ScanState)
    (entry : DirEntry) (h : st1.podMap = st2.podMap) :
    (scanEntry fs rootDir st1 entry).podMap = (scanEntry fs rootDir st2 entry).podMap := by
  unfold scanEntry
  by_cases hdir : entry.IsDir = false
  · simp only [hdir, if_true, h]
  · rw [if_neg hdir, if_neg hdir]
    cases hatoi : strconv.Atoi entry.Name with
    | error e => exact h
    | ok pid =>
      cases hopen : fs.Open (cgroupPathOf rootDir pid) with
      | error e => simp only [hopen]; exact h
      | ok lines => simp only [hopen, h]

theorem scanEntry_unopenable (fs : FileSystem) (rootDir : String) (st : ScanState)
    (entry : DirEntry) (pid : Int) (err : Error)
    (hatoi : strconv.Atoi entry.Name = .ok pid)
    (hopen : fs.Open (cgroupPathOf rootDir pid) = .error err) :
    (scanEntry fs rootDir st entry).podMap = st.podMap := by
  unfold scanEntry
  by_cases hdir : entry.IsDir = false
  · rw [if_pos hdir]
  · rw [if_neg hdir]
    simp only [hatoi, hopen]

theorem foldl_scanEntry_filter (fs : FileSystem) (rootDir : String) (entries : List DirEntry)
    (removed : DirEntry → Bool) (st1 st2 : ScanState) (h : st1.podMap = st2.podMap)
    (hremoved : ∀ entry ∈ entries, removed entry = true →
      ∃ pid err, strconv.Atoi entry.Name = .ok pid ∧
        fs.Open (cgroupPathOf rootDir pid) = .error err) :
    (entries.foldl (scanEntry fs rootDir) st1).podMap =
      ((entries.filter (fun entry => !removed entry)).foldl (scanEntry fs rootDir) st2).podMap := by
  induction entries generalizing st1 st2 with
  | nil => simpa using h
  | cons x l ih =>
    have hl : ∀ entry ∈ l, removed entry = true →
        ∃ pid err, strconv.Atoi entry.Name = .ok pid ∧
          fs.Open (cgroupPathOf rootDir pid) = .error err :=
      fun entry he => hremoved entry (List.mem_cons_of_mem _ he)
    cases hx : removed x with
    | true =>
      obtain ⟨pid, err, hatoi, hopen⟩ := hremoved x (List.mem_cons_self _ _) hx
      simp only [List.foldl_cons, List.filter_cons, hx, Bool.not_true, Bool.false_eq_true,
        if_false]
      exact ih _ _ ((scanEntry_unopenable fs rootDir st1 x pid err hatoi hopen).trans h) hl
    | false =>
      simp only [List.foldl_cons, List.filter_cons, hx, Bool.not_false, if_true]
      exact ih _ _ (scanEntry_podMap fs rootDir st1 st2 x h) hl

end DecisionMaker

/-! ## Properties of the process resolver -/

/-- C12: for every cgroup hierarchy path whose first segment, between the
separators `/`, that starts with `pod` is `pod` followed by a non-empty string
`u`, `getPodInfoFromCgroup` succeeds with the pod UID `u` in which every
underscore is replaced by a hyphen and with the container ID equal to the
segment right after it, or empty when it is the last segment. For the path of
the line `9:cpuset:/kubepods/burstable/pod123abc_456def/docker-abcdef.scope`
it yields `123abc-456def` and `docker-abcdef.scope`, and
`parseCgroupToPodInfo` on that line and an empty map stores one pod info with
that pod UID, that container ID and the process. -/
theorem C12_pod_uid_and_container_id_from_cgroup_path :
    (∀ (cgroupPath u : String) (pre post : List String),
      strings.Split cgroupPath '/' = pre ++ ("pod" ++ u) :: post →
      (∀ part ∈ pre, strings.HasPrefix part "pod" = false) →
      u ≠ "" →
      DecisionMaker.getPodInfoFromCgroup cgroupPath =
        .ok (strings.ReplaceAll u '_' '-', post.head?.getD "")) ∧
    (∀ u : String,
      (strings.ReplaceAll u '_' '-').data = u.data.map (fun c => if c = '_' then '-' else c)) ∧
    DecisionMaker.getPodInfoFromCgroup "/kubepods/burstable/pod123abc_456def/docker-abcdef.scope" =
      .ok ("123abc-456def", "docker-abcdef.scope") ∧
    (∀ (fs : DecisionMaker.FileSystem) (rootDir : String) (pid : Int),
      ∃ process, DecisionMaker.getProcessInfo fs rootDir pid = .ok process ∧
        DecisionMaker.parseCgroupToPodInfo fs rootDir
            "9:cpuset:/kubepods/burstable/pod123abc_456def/docker-abcdef.scope" pid [] =
          (none, [("123abc-456def",
            { PodName := "", Namespace := "", PodUID := "123abc-456def",
              ContainerID := "docker-abcdef.scope", Processes := [process] })])) := by
  refine ⟨?_, fun _ => rfl, by decide, ?_⟩
  · intro cgroupPath u pre post hsplit hpre hu
    unfold DecisionMaker.getPodInfoFromCgroup
    rw [hsplit, DecisionMaker.getPodInfoLoop_skip pre _ hpre]
    simp only [DecisionMaker.getPodInfoLoop, DecisionMaker.hasPrefix_pod_append, if_true,
      DecisionMaker.trimPrefix_pod_append, Option.getD_some]
    have hne : ¬ strings.ReplaceAll u '_' '-' = "" :=
      fun h => hu (DecisionMaker.replaceAll_eq_empty u '_' '-' h)
    rw [if_neg hne]
  · intro fs rootDir pid
    obtain ⟨process, hp, _⟩ := DecisionMaker.getProcessInfo_ok fs rootDir pid
    refine ⟨process, hp, ?_⟩
    have hparts : strings.Split
        "9:cpuset:/kubepods/burstable/pod123abc_456def/docker-abcdef.scope" ':' =
        ["9", "cpuset", "/kubepods/burstable/pod123abc_456def/docker-abcdef.scope"] := by
      decide
    have hinfo : DecisionMaker.getPodInfoFromCgroup
        "/kubepods/burstable/pod123abc_456def/docker-abcdef.scope" =
        .ok ("123abc-456def", "docker-abcdef.scope") := by decide
    unfold DecisionMaker.parseCgroupToPodInfo
    simp only [hparts, List.length_cons, List.length_nil, List.getD_cons_succ,
      List.getD_cons_zero, hinfo, hp, GoMap.get?, GoMap.set]
    rfl

/-- Witness of C12: a path whose pod segment is the last one. -/
theorem C12_pod_uid_and_container_id_from_cgroup_path_witness :
    DecisionMaker.getPodInfoFromCgroup "/kubepods/pod12_34" = .ok ("12-34", "") :=
  (C12_pod_uid_and_container_id_from_cgroup_path.1 "/kubepods/pod12_34" "12_34"
    ["", "kubepods"] [] (by decide) (by decide) (by decide)).trans (by decide)

/-- C13, as amended: `FindPodInfoFrom` treats an entry of the root directory
as a process candidate (opens its cgroup record) only if the entry is a
directory whose name `strconv.Atoi` parses as an integer, of any sign; the
cgroup records it opens are those of the candidates, in directory order.
Every other entry, such as a directory named `self`, is skipped without
error: the scan of a directory with such an entry is the scan of the
directory without it. -/
theorem C13_candidates_are_directories_with_integer_names
    (rangeOrder : List String → List String) (fs : DecisionMaker.FileSystem) (rootDir : String) :
    (∀ entry : DecisionMaker.DirEntry,
      DecisionMaker.candidatePath rootDir entry ≠ none ↔
        (entry.IsDir = true ∧ ∃ pid, strconv.Atoi entry.Name = .ok pid)) ∧
    (∀ entries : List DecisionMaker.DirEntry,
      (DecisionMaker.FindPodInfoFrom rangeOrder (fs.withEntries entries) rootDir).opened =
        entries.filterMap (DecisionMaker.candidatePath rootDir)) ∧
    (∀ (pre post : List DecisionMaker.DirEntry) (entry : DecisionMaker.DirEntry),
      DecisionMaker.candidatePath rootDir entry = none →
      DecisionMaker.FindPodInfoFrom rangeOrder (fs.withEntries (pre ++ entry :: post)) rootDir =
        DecisionMaker.FindPodInfoFrom rangeOrder (fs.withEntries (pre ++ post)) rootDir ∧
      ∃ pods, (DecisionMaker.FindPodInfoFrom rangeOrder
        (fs.withEntries (pre ++ entry :: post)) rootDir).result = .ok pods) ∧
    DecisionMaker.candidatePath rootDir { Name := "self", IsDir := true } = none := by
  refine ⟨?_, ?_, ?_, ?_⟩
  · intro entry
    unfold DecisionMaker.candidatePath
    by_cases hdir : entry.IsDir = false
    · simp [hdir]
    · have hdir2 : entry.IsDir = true := by simpa using hdir
      rw [if_neg hdir]
      cases hatoi : strconv.Atoi entry.Name with
      | error e => simp [hdir2]
      | ok pid => simp [hdir2]
  · intro entries
    rw [DecisionMaker.FindPodInfoFrom_withEntries]
    simp [DecisionMaker.foldl_scanEntry_opened]
  · intro pre post entry hnot
    rw [DecisionMaker.FindPodInfoFrom_withEntries, DecisionMaker.FindPodInfoFrom_withEntries]
    have hfold : (pre ++ entry :: post).foldl (DecisionMaker.scanEntry fs rootDir)
        { podMap := [], opened := [] } =
        (pre ++ post).foldl (DecisionMaker.scanEntry fs rootDir)
          { podMap := [], opened := [] } := by
      rw [List.foldl_append, List.foldl_cons,
        DecisionMaker.scanEntry_not_candidate fs rootDir _ entry hnot, ← List.foldl_append]
    rw [hfold]
    exact ⟨rfl, _, rfl⟩
  · have h : strconv.Atoi "self" = .error (Error.msg "strconv.Atoi: invalid syntax") := by
      decide
    simp [DecisionMaker.candidatePath, h]

/-- Witness of C13 as amended: the directory `self` between two process
directories is skipped. -/
theorem C13_candidates_are_directories_with_integer_names_witness :
    DecisionMaker.FindPodInfoFrom (fun ks => ks)
        ((Scenario.procFS []).withEntries
          ([{ Name := "41", IsDir := true }] ++ { Name := "self", IsDir := true } ::
            [{ Name := "42", IsDir := true }])) "/proc" =
      DecisionMaker.FindPodInfoFrom (fun ks => ks)
        ((Scenario.procFS []).withEntries
          ([{ Name := "41", IsDir := true }] ++ [{ Name := "42", IsDir := true }])) "/proc" :=
  ((C13_candidates_are_directories_with_integer_names (fun ks => ks) (Scenario.procFS [])
    "/proc").2.2.1 [{ Name := "41", IsDir := true }] [{ Name := "42", IsDir := true }]
    { Name := "self", IsDir := true } (by decide)).1

/-- Counterexample to C13 as stated: the names `0` and `-1` do not parse as
positive integers, yet the directories of these names are process candidates:
their cgroup records are opened and their processes are in the result. -/
theorem C13_zero_and_negative_names_counterexample :
    strconv.Atoi "0" = .ok 0 ∧ strconv.Atoi "-1" = .ok (-1) ∧
    DecisionMaker.FindPodInfoFrom (fun ks => ks)
        (Scenario.procFS [{ Name := "0", IsDir := true }, { Name := "-1", IsDir := true }])
        "/proc" =
      { result := .ok
          [{ PodName := "", Namespace := "", PodUID := "123abc-456def",
             ContainerID := "docker-abcdef.scope",
             Processes :=
               [ { PID := 0, Command := "nginx", PPID := 1 },
                 { PID := -1, Command := "nginx", PPID := 1 } ] }]
        opened := ["/proc/0/cgroup", "/proc/-1/cgroup"] } := by
  decide

/-- C14: `FindPodInfoFrom` returns an error exactly when enumerating the root
directory fails; and for every process table, removing from the directory any
entries whose cgroup records cannot be opened leaves the call successful with
the same result. -/
theorem C14_only_the_root_listing_can_fail
    (rangeOrder : List String → List String) (fs : DecisionMaker.FileSystem) (rootDir : String) :
    ((∃ err, (DecisionMaker.FindPodInfoFrom rangeOrder fs rootDir).result = .error err) ↔
      (∃ err, fs.ReadDir rootDir = .error err)) ∧
    (∀ (entries : List DecisionMaker.DirEntry) (removed : DecisionMaker.DirEntry → Bool),
      (∀ entry ∈ entries, removed entry = true →
        ∃ pid err, strconv.Atoi entry.Name = .ok pid ∧
          fs.Open (DecisionMaker.cgroupPathOf rootDir pid) = .error err) →
      ∃ pods,
        (DecisionMaker.FindPodInfoFrom rangeOrder (fs.withEntries entries) rootDir).result =
          .ok pods ∧
        (DecisionMaker.FindPodInfoFrom rangeOrder
          (fs.withEntries (entries.filter (fun entry => !removed entry))) rootDir).result =
          .ok pods) := by
  constructor
  · unfold DecisionMaker.FindPodInfoFrom
    cases hread : fs.ReadDir rootDir with
    | error e => simp
    | ok entries => simp
  · intro entries removed hremoved
    rw [DecisionMaker.FindPodInfoFrom_withEntries, DecisionMaker.FindPodInfoFrom_withEntries]
    refine ⟨_, rfl, ?_⟩
    rw [DecisionMaker.foldl_scanEntry_filter fs rootDir entries removed _ _ rfl hremoved]

/-- Witness of C14: the cgroup record of process 7 cannot be opened; the scan
with the directory `7` gives the result of the scan without it. -/
theorem C14_only_the_root_listing_can_fail_witness :
    ∃ pods,
      (DecisionMaker.FindPodInfoFrom (fun ks => ks)
        ((Scenario.procFS []).withEntries
          [{ Name := "7", IsDir := true }, { Name := "42", IsDir := true }]) "/proc").result =
        .ok pods ∧
      (DecisionMaker.FindPodInfoFrom (fun ks => ks)
        ((Scenario.procFS []).withEntries
          (([{ Name := "7", IsDir := true }, { Name := "42", IsDir := true }] :
            List DecisionMaker.DirEntry).filter (fun entry => !(entry.Name == "7")))) "/proc").result =
        .ok pods :=
  (C14_only_the_root_listing_can_fail (fun ks => ks) (Scenario.procFS []) "/proc").2
    [{ Name := "7", IsDir := true }, { Name := "42", IsDir := true }]
    (fun entry => entry.Name == "7")
    (by
      intro entry hentry hrem
      have hname : entry.Name = "7" := by simpa using hrem
      refine ⟨7, Error.msg "no such file or directory", ?_, by decide⟩
      rw [hname]
      decide)

/-! ## The state update of a delivered batch -/

/-- The calls of the delivery loop: the visits that made both calls, then at
most one delivery that failed. -/
theorem deliver_trace (svc : Service) (g : Groups) (hosts : List String) :
    ∃ visited last, visited <+: hosts ∧
      (deliver svc g hosts []).calls = visited.flatMap g.visitCalls ++ last ∧
      (last = [] ∨ ∃ h ∈ hosts, last = [g.sendCall h]) := by
  induction hosts with
  | nil => exact ⟨[], [], List.prefix_refl _, by simp [deliver], Or.inl rfl⟩
  | cons host rest ih =>
    cases hs : svc.DMAdapter.SendSchedulingIntent (g.nodeIDDMap.get? host)
        (g.nodeIDIntentsMap.getD host []) with
    | some e =>
      refine ⟨[], [g.sendCall host], List.nil_prefix, ?_, Or.inr ⟨host, List.mem_cons_self _ _, rfl⟩⟩
      simp [deliver, hs, Groups.sendCall]
    | none =>
      cases hu : svc.Repo.BatchUpdateIntentsState (g.nodeIDIntentIDsMap.getD host [])
          IntentState.IntentStateSent with
      | some e =>
        refine ⟨[host], [], ?_, ?_, Or.inl rfl⟩
        · exact List.prefix_iff_eq_append.mpr (by simp)
        · simp [deliver, hs, hu, Groups.visitCalls, Groups.sendCall, Groups.updateCall]
      | none =>
        obtain ⟨visited, last, hpre, hcalls, hlast⟩ := ih
        refine ⟨host :: visited, last, ?_, ?_, ?_⟩
        · exact (List.cons_prefix_cons).mpr ⟨rfl, hpre⟩
        · simp only [deliver, hs, hu, List.nil_append]
          rw [deliver_append, hcalls]
          simp [Groups.visitCalls, Groups.sendCall, Groups.updateCall]
        · rcases hlast with h | ⟨h, hh, hl⟩
          · exact Or.inl h
          · exact Or.inr ⟨h, List.mem_cons_of_mem _ hh, hl⟩

/-- C21: in every call of `CreateScheduleStrategy` that reaches the delivery
loop, whatever the transport and the repository answer, the calls made after
the three calls before the loop are, for the hosts visited (a prefix of the
visiting order), one `SendSchedulingIntent` with the batch of the host
followed by one `BatchUpdateIntentsState` whose list is the list of the IDs of
the intents of that batch, in the order of the batch, with state `Sent`; a
delivery that fails ends the trace without an update. So every list of IDs
passed to `BatchUpdateIntentsState` is the ID list, of the same length, of a
batch passed to `SendSchedulingIntent`, and the state passed is `Sent`. -/
theorem C21_state_update_has_the_ids_of_the_delivered_batch (rt : Runtime) (svc : Service)
    (operator : Claims) (strategy : ScheduleStrategy) (operatorID : ObjectID)
    (pods : List Pod) (dms : List DecisionMakerPod)
    (hreach : ReachesGrouping rt svc operator strategy operatorID pods dms) :
    (∃ visited last,
      visited <+: rt.rangeOrder
        (groupIntents dms (intentsOf rt operatorID strategy pods)).nodeIDIntentsMap.keys ∧
      (CreateScheduleStrategy rt svc operator strategy).calls =
        preludeCalls rt operatorID strategy pods ++
          visited.flatMap (fun host =>
            [ Call.SendSchedulingIntent
                ((groupIntents dms (intentsOf rt operatorID strategy pods)).nodeIDDMap.get? host)
                ((groupIntents dms (intentsOf rt operatorID strategy pods)).nodeIDIntentsMap.getD
                  host []),
              Call.BatchUpdateIntentsState
                (((groupIntents dms (intentsOf rt operatorID strategy pods)).nodeIDIntentsMap.getD
                  host []).map (fun intent => intent.ID))
                IntentState.IntentStateSent ]) ++ last ∧
      (last = [] ∨ ∃ d l, last = [Call.SendSchedulingIntent d l])) ∧
    ∀ ids state, Call.BatchUpdateIntentsState ids state ∈
        (CreateScheduleStrategy rt svc operator strategy).calls →
      state = IntentState.IntentStateSent ∧
      ∃ d l, Call.SendSchedulingIntent d l ∈
          (CreateScheduleStrategy rt svc operator strategy).calls ∧
        ids = l.map (fun intent => intent.ID) ∧ ids.length = l.length := by
  have hvisit : ∀ host, (groupIntents dms (intentsOf rt operatorID strategy pods)).visitCalls host =
      [ Call.SendSchedulingIntent
          ((groupIntents dms (intentsOf rt operatorID strategy pods)).nodeIDDMap.get? host)
          ((groupIntents dms (intentsOf rt operatorID strategy pods)).nodeIDIntentsMap.getD
            host []),
        Call.BatchUpdateIntentsState
          (((groupIntents dms (intentsOf rt operatorID strategy pods)).nodeIDIntentsMap.getD
            host []).map (fun intent => intent.ID))
          IntentState.IntentStateSent ] := by
    intro host
    simp only [Groups.visitCalls, Groups.sendCall, Groups.updateCall, groupIntents_ids,
      groupIntents_intents]
  obtain ⟨visited, last, hpre, hcalls, hlast⟩ :=
    deliver_trace svc (groupIntents dms (intentsOf rt operatorID strategy pods))
      (rt.rangeOrder (groupIntents dms (intentsOf rt operatorID strategy pods)).nodeIDIntentsMap.keys)
  have htrace : (CreateScheduleStrategy rt svc operator strategy).calls =
      preludeCalls rt operatorID strategy pods ++
        visited.flatMap (groupIntents dms (intentsOf rt operatorID strategy pods)).visitCalls ++
        last := by
    rw [CreateScheduleStrategy_of_reaches rt svc operator strategy operatorID pods dms hreach,
      deliver_append, hcalls, List.append_assoc]
  have hlast2 : last = [] ∨ ∃ d l, last = [Call.SendSchedulingIntent d l] := by
    rcases hlast with h | ⟨h, _, hl⟩
    · exact Or.inl h
    · exact Or.inr ⟨_, _, hl⟩
  refine ⟨⟨visited, last, hpre, ?_, hlast2⟩, ?_⟩
  · rw [htrace, funext hvisit]
  · intro ids state hmem
    rw [htrace] at hmem ⊢
    simp only [List.mem_append, List.mem_flatMap] at hmem
    rcases hmem with (hmem | ⟨host, hhost, hmem⟩) | hmem
    · simp [preludeCalls] at hmem
    · rw [hvisit host] at hmem
      simp only [List.mem_cons, reduceCtorEq, false_or, Call.BatchUpdateIntentsState.injEq,
        List.not_mem_nil, or_false] at hmem
      obtain ⟨hids, hstate⟩ := hmem
      refine ⟨hstate,
        (groupIntents dms (intentsOf rt operatorID strategy pods)).nodeIDDMap.get? host,
        (groupIntents dms (intentsOf rt operatorID strategy pods)).nodeIDIntentsMap.getD host [],
        ?_, hids, ?_⟩
      · simp only [List.mem_append, List.mem_flatMap]
        refine Or.inl (Or.inr ⟨host, hhost, ?_⟩)
        rw [hvisit host]
        exact List.mem_cons_self _ _
      · rw [hids, List.length_map]
    · rcases hlast2 with h | ⟨d, l, h⟩
      · rw [h] at hmem
        simp at hmem
      · rw [h] at hmem
        simp at hmem

/-- Witness of C21: the scenario of two pods on two nodes with one agent each. -/
theorem C21_state_update_has_the_ids_of_the_delivered_batch_witness :
    ReachesGrouping Scenario.rtForward
      (Scenario.svc [Scenario.p1, Scenario.p2] [Scenario.dmA, Scenario.dmB] [])
      Scenario.operator Scenario.strategy 170 [Scenario.p1, Scenario.p2]
      [Scenario.dmA, Scenario.dmB] ∧
    ∀ ids state, Call.BatchUpdateIntentsState ids state ∈
        (CreateScheduleStrategy Scenario.rtForward
          (Scenario.svc [Scenario.p1, Scenario.p2] [Scenario.dmA, Scenario.dmB] [])
          Scenario.operator Scenario.strategy).calls →
      state = IntentState.IntentStateSent ∧
      ∃ d l, Call.SendSchedulingIntent d l ∈
          (CreateScheduleStrategy Scenario.rtForward
            (Scenario.svc [Scenario.p1, Scenario.p2] [Scenario.dmA, Scenario.dmB] [])
            Scenario.operator Scenario.strategy).calls ∧
        ids = l.map (fun intent => intent.ID) ∧ ids.length = l.length :=
  ⟨by decide,
    (C21_state_update_has_the_ids_of_the_delivered_batch Scenario.rtForward
      (Scenario.svc [Scenario.p1, Scenario.p2] [Scenario.dmA, Scenario.dmB] [])
      Scenario.operator Scenario.strategy 170 [Scenario.p1, Scenario.p2]
      [Scenario.dmA, Scenario.dmB] (by decide)).2⟩

/-! ## The node IDs passed to the agent-pod query -/

/-- The invariant of the loop of lines 40 to 47 after the pods with node IDs
`seen`: the set `nodeIDsMap` holds the node IDs of the list `nodeIDs`, these
are the node IDs seen, and they stand in the order of their first occurrence. -/
theorem intentsStep_nodeIDs (rt : Runtime) (s : ScheduleStrategy) (acc : IntentsAcc)
    (seen : List String) (pod : Pod)
    (hmap : ∀ n, (acc.nodeIDsMap.get? n).isSome = true ↔ n ∈ acc.nodeIDs)
    (hmem : ∀ n, n ∈ acc.nodeIDs ↔ n ∈ seen)
    (hord : acc.nodeIDs.Pairwise (fun a b => seen.indexOf a < seen.indexOf b)) :
    (∀ n, ((intentsStep rt s acc pod).nodeIDsMap.get? n).isSome = true ↔
      n ∈ (intentsStep rt s acc pod).nodeIDs) ∧
    (∀ n, n ∈ (intentsStep rt s acc pod).nodeIDs ↔ n ∈ seen ++ [pod.NodeID]) ∧
    (intentsStep rt s acc pod).nodeIDs.Pairwise
      (fun a b => (seen ++ [pod.NodeID]).indexOf a < (seen ++ [pod.NodeID]).indexOf b) := by
  have hkeep : acc.nodeIDs.Pairwise
      (fun a b => (seen ++ [pod.NodeID]).indexOf a < (seen ++ [pod.NodeID]).indexOf b) := by
    refine List.Pairwise.imp_of_mem ?_ hord
    intro a b ha hb hlt
    rw [List.indexOf_append_of_mem ((hmem a).mp ha), List.indexOf_append_of_mem ((hmem b).mp hb)]
    exact hlt
  unfold intentsStep
  cases hget : acc.nodeIDsMap.get? pod.NodeID with
  | some u =>
    have hin : pod.NodeID ∈ acc.nodeIDs := (hmap _).mp (by simp [hget])
    refine ⟨hmap, ?_, hkeep⟩
    intro n
    simp only [List.mem_append, List.mem_singleton]
    constructor
    · intro h
      exact Or.inl ((hmem n).mp h)
    · rintro (h | h)
      · exact (hmem n).mpr h
      · rw [h]
        exact hin
  | none =>
    have hout : pod.NodeID ∉ acc.nodeIDs := by
      intro h
      have := (hmap _).mpr h
      simp [hget] at this
    have hout2 : pod.NodeID ∉ seen := fun h => hout ((hmem _).mpr h)
    refine ⟨?_, ?_, ?_⟩
    · intro n
      simp only [GoMap.get?_set, List.mem_append, List.mem_singleton]
      by_cases hn : pod.NodeID = n
      · simp [hn]
      · have hn2 : ¬ n = pod.NodeID := fun e => hn e.symm
        simp only [hn, if_false, hn2, or_false]
        exact hmap n
    · intro n
      simp only [List.mem_append, List.mem_singleton, hmem n]
    · rw [List.pairwise_append]
      refine ⟨hkeep, List.pairwise_singleton _ _, ?_⟩
      intro a ha b hb
      rw [List.mem_singleton] at hb
      subst hb
      rw [List.indexOf_append_of_mem ((hmem a).mp ha), List.indexOf_append_of_not_mem hout2]
      have := List.indexOf_lt_length.mpr ((hmem a).mp ha)
      omega

theorem foldl_intentsStep_nodeIDs (rt : Runtime) (s : ScheduleStrategy) (pods : List Pod)
    (acc : IntentsAcc) (seen : List String)
    (hmap : ∀ n, (acc.nodeIDsMap.get? n).isSome = true ↔ n ∈ acc.nodeIDs)
    (hmem : ∀ n, n ∈ acc.nodeIDs ↔ n ∈ seen)
    (hord : acc.nodeIDs.Pairwise (fun a b => seen.indexOf a < seen.indexOf b)) :
    (∀ n, n ∈ (pods.foldl (intentsStep rt s) acc).nodeIDs ↔
      n ∈ seen ++ pods.map (fun pod => pod.NodeID)) ∧
    (pods.foldl (intentsStep rt s) acc).nodeIDs.Pairwise
      (fun a b => (seen ++ pods.map (fun pod => pod.NodeID)).indexOf a <
        (seen ++ pods.map (fun pod => pod.NodeID)).indexOf b) := by
  induction pods generalizing acc seen with
  | nil => simpa using ⟨hmem, hord⟩
  | cons pod pods ih =>
    obtain ⟨h1, h2, h3⟩ := intentsStep_nodeIDs rt s acc seen pod hmap hmem hord
    have := ih (intentsStep rt s acc pod) (seen ++ [pod.NodeID]) h1 h2 h3
    simpa only [List.foldl_cons, List.map_cons, List.append_assoc, List.singleton_append]
      using this

/-- The node IDs that the call passes on: the node IDs of the matched pods,
each once, in the order of first occurrence. -/
theorem nodeIDsOf_spec (rt : Runtime) (operatorID : ObjectID) (strategy : ScheduleStrategy)
    (pods : List Pod) :
    (nodeIDsOf rt operatorID strategy pods).Nodup ∧
    (∀ n, n ∈ nodeIDsOf rt operatorID strategy pods ↔ ∃ pod ∈ pods, pod.NodeID = n) ∧
    (nodeIDsOf rt operatorID strategy pods).Pairwise
      (fun a b => (pods.map (fun pod => pod.NodeID)).indexOf a <
        (pods.map (fun pod => pod.NodeID)).indexOf b) := by
  obtain ⟨h1, h2⟩ := foldl_intentsStep_nodeIDs rt (stampStrategy rt operatorID strategy) pods
    { intents := [], nodeIDsMap := [], nodeIDs := [] } []
    (by simp [GoMap.get?]) (by simp) List.Pairwise.nil
  simp only [List.nil_append] at h1 h2
  refine ⟨?_, ?_, h2⟩
  · refine List.Pairwise.imp ?_ h2
    intro a b hlt hab
    rw [hab] at hlt
    exact Nat.lt_irrefl _ hlt
  · intro n
    rw [show nodeIDsOf rt operatorID strategy pods =
      (pods.foldl (intentsStep rt (stampStrategy rt operatorID strategy))
        { intents := [], nodeIDsMap := [], nodeIDs := [] }).nodeIDs from rfl, h1]
    simp

/-- Once the strategy and its intents are persisted, the calls are the three
calls before the loop followed by calls of the delivery loop only. -/
theorem CreateScheduleStrategy_after_insert (rt : Runtime) (svc : Service) (operator : Claims)
    (strategy : ScheduleStrategy) (operatorID : ObjectID) (pods : List Pod)
    (hop : rt.GetBsonObjectUID operator = .ok operatorID)
    (hpods : svc.K8SAdapter.QueryPods (queryOptOf strategy) = .ok pods)
    (hne : pods ≠ [])
    (hins : svc.Repo.InsertStrategyAndIntents (stampStrategy rt operatorID strategy)
      (intentsOf rt operatorID strategy pods) = none) :
    ∃ rest, (CreateScheduleStrategy rt svc operator strategy).calls =
        preludeCalls rt operatorID strategy pods ++ rest ∧
      ∀ c ∈ rest, (∃ d l, c = Call.SendSchedulingIntent d l) ∨
        (∃ ids st, c = Call.BatchUpdateIntentsState ids st) := by
  have hp : pods.length ≠ 0 := by simpa using hne
  unfold intentsOf at hins
  cases hdms : svc.K8SAdapter.QueryDecisionMakerPods
      (dmQueryOptOf (nodeIDsOf rt operatorID strategy pods)) with
  | error e =>
    refine ⟨[], ?_, by simp⟩
    unfold nodeIDsOf at hdms
    simp [CreateScheduleStrategy, hop, hpods, hp, hins, hdms, preludeCalls, intentsOf, nodeIDsOf]
  | ok dms =>
    by_cases hd : dms.length = 0
    · refine ⟨[], ?_, by simp⟩
      unfold nodeIDsOf at hdms
      simp [CreateScheduleStrategy, hop, hpods, hp, hins, hdms, hd, preludeCalls, intentsOf,
        nodeIDsOf]
    · have hreach : ReachesGrouping rt svc operator strategy operatorID pods dms :=
        ⟨hop, hpods, hne, hins, hdms, by simpa using hd⟩
      refine ⟨_, ?_, deliver_calls_kind svc
        (groupIntents dms (intentsOf rt operatorID strategy pods))
        (rt.rangeOrder (groupIntents dms
          (intentsOf rt operatorID strategy pods)).nodeIDIntentsMap.keys)⟩
      rw [CreateScheduleStrategy_of_reaches rt svc operator strategy operatorID pods dms hreach,
        deliver_append]

/-- C22: in every call of `CreateScheduleStrategy` in which `QueryPods`
returns a non-empty list of pods and the strategy and its intents are
persisted, `QueryDecisionMakerPods` is called with one node-ID list only, and
that list has no duplicates, contains a node ID exactly when at least one
matched pod has it, and lists the node IDs in the order of their first
occurrence among the pods. -/
theorem C22_node_ids_are_distinct_in_first_occurrence_order (rt : Runtime) (svc : Service)
    (operator : Claims) (strategy : ScheduleStrategy) (operatorID : ObjectID) (pods : List Pod)
    (hop : rt.GetBsonObjectUID operator = .ok operatorID)
    (hpods : svc.K8SAdapter.QueryPods (queryOptOf strategy) = .ok pods)
    (hne : pods ≠ [])
    (hins : svc.Repo.InsertStrategyAndIntents (stampStrategy rt operatorID strategy)
      (intentsOf rt operatorID strategy pods) = none) :
    ∃ nodeIDs : List String,
      (∀ opt, Call.QueryDecisionMakerPods opt ∈
          (CreateScheduleStrategy rt svc operator strategy).calls ↔
        opt = { K8SNamespace := [], NodeIDs := nodeIDs, DecisionMakerLabel := dmLabel }) ∧
      nodeIDs.Nodup ∧
      (∀ n, n ∈ nodeIDs ↔ ∃ pod ∈ pods, pod.NodeID = n) ∧
      nodeIDs.Pairwise (fun a b =>
        (pods.map (fun pod => pod.NodeID)).indexOf a <
          (pods.map (fun pod => pod.NodeID)).indexOf b) := by
  obtain ⟨rest, hcalls, hrest⟩ :=
    CreateScheduleStrategy_after_insert rt svc operator strategy operatorID pods hop hpods hne hins
  obtain ⟨h1, h2, h3⟩ := nodeIDsOf_spec rt operatorID strategy pods
  refine ⟨nodeIDsOf rt operatorID strategy pods, ?_, h1, h2, h3⟩
  intro opt
  rw [hcalls]
  constructor
  · intro hmem
    rcases List.mem_append.mp hmem with hmem | hmem
    · simpa [preludeCalls, dmQueryOptOf] using hmem
    · rcases hrest _ hmem with ⟨d, l, h⟩ | ⟨ids, st, h⟩ <;> cases h
  · intro hopt
    subst hopt
    exact List.mem_append_left _ (by simp [preludeCalls, dmQueryOptOf])

/-- Witness of C22: three pods, the third on the node of the first; the list
passed on is `B`, `A`. -/
theorem C22_node_ids_are_distinct_in_first_occurrence_order_witness :
    nodeIDsOf Scenario.rtForward 170 Scenario.strategy
      [Scenario.p2, Scenario.p1, Scenario.p2] = ["B", "A"] ∧
    ∃ nodeIDs : List String,
      (∀ opt, Call.QueryDecisionMakerPods opt ∈
          (CreateScheduleStrategy Scenario.rtForward
            (Scenario.svc [Scenario.p2, Scenario.p1, Scenario.p2] [Scenario.dmA, Scenario.dmB] [])
            Scenario.operator Scenario.strategy).calls ↔
        opt = { K8SNamespace := [], NodeIDs := nodeIDs, DecisionMakerLabel := dmLabel }) ∧
      nodeIDs.Nodup ∧
      (∀ n, n ∈ nodeIDs ↔ ∃ pod ∈ [Scenario.p2, Scenario.p1, Scenario.p2], pod.NodeID = n) ∧
      nodeIDs.Pairwise (fun a b =>
        ([Scenario.p2, Scenario.p1, Scenario.p2].map (fun pod => pod.NodeID)).indexOf a <
          ([Scenario.p2, Scenario.p1, Scenario.p2].map (fun pod => pod.NodeID)).indexOf b) :=
  ⟨by decide,
    C22_node_ids_are_distinct_in_first_occurrence_order Scenario.rtForward
      (Scenario.svc [Scenario.p2, Scenario.p1, Scenario.p2] [Scenario.dmA, Scenario.dmB] [])
      Scenario.operator Scenario.strategy 170 [Scenario.p2, Scenario.p1, Scenario.p2]
      rfl rfl (by decide) rfl⟩

/-! ## The frame of `parseCgroupToPodInfo` -/

/-- C23: for every map, every process and every cgroup line with at least
three fields whose third field resolves to the pod UID `u` and the container
ID `c`, `parseCgroupToPodInfo` returns no error and, with `process` the record
that `getProcessInfo` gives for the process: when `u` is in the map, the entry
of `u` keeps its fields, has `process` appended at the end of its process
list, and has its container ID replaced by `c` only when it was empty and `c`
is not; when `u` is not in the map, the entry of `u` is the pod info with pod
UID `u`, container ID `c` and the single process `process`; the entry of every
other pod UID is the same as before, and `u` is the only key that can be new. -/
theorem C23_parse_updates_the_entry_of_the_pod_only (fs : DecisionMaker.FileSystem)
    (rootDir line : String) (pid : Int) (podInfoMap : GoMap DecisionMaker.PodInfo)
    (u c : String)
    (hparts : (strings.Split line ':').length ≥ 3)
    (hres : DecisionMaker.getPodInfoFromCgroup ((strings.Split line ':').getD 2 "") = .ok (u, c)) :
    ∃ process, DecisionMaker.getProcessInfo fs rootDir pid = .ok process ∧ process.PID = pid ∧
      (DecisionMaker.parseCgroupToPodInfo fs rootDir line pid podInfoMap).1 = none ∧
      (∀ podInfo, podInfoMap.get? u = some podInfo →
        (DecisionMaker.parseCgroupToPodInfo fs rootDir line pid podInfoMap).2.get? u =
          some { podInfo with
            Processes := podInfo.Processes ++ [process]
            ContainerID := if podInfo.ContainerID = "" ∧ c ≠ "" then c
              else podInfo.ContainerID }) ∧
      (podInfoMap.get? u = none →
        (DecisionMaker.parseCgroupToPodInfo fs rootDir line pid podInfoMap).2.get? u =
          some { PodName := "", Namespace := "", PodUID := u, ContainerID := c,
                 Processes := [process] }) ∧
      (∀ k, k ≠ u →
        (DecisionMaker.parseCgroupToPodInfo fs rootDir line pid podInfoMap).2.get? k =
          podInfoMap.get? k) ∧
      (∀ k, k ∈ (DecisionMaker.parseCgroupToPodInfo fs rootDir line pid podInfoMap).2.keys ↔
        k ∈ podInfoMap.keys ∨ k = u) := by
  obtain ⟨process, hp, hpid⟩ := DecisionMaker.getProcessInfo_ok fs rootDir pid
  refine ⟨process, hp, hpid, ?_⟩
  unfold DecisionMaker.parseCgroupToPodInfo
  simp only [hparts, if_true, hres, hp]
  cases hget : podInfoMap.get? u with
  | some podInfo =>
    refine ⟨rfl, ?_, ?_, ?_, ?_⟩
    · intro podInfo1 h1
      cases h1
      simp only [GoMap.get?_set, if_true]
      by_cases hc : c = ""
      · simp [hc]
      · by_cases he : podInfo.ContainerID = ""
        · simp [hc, he]
        · simp [hc, he]
    · intro h
      cases h
    · intro k hk
      simp only [GoMap.get?_set]
      rw [if_neg (fun e => hk e.symm)]
    · intro k
      simp only [GoMap.mem_keys_set]
  | none =>
    refine ⟨rfl, ?_, ?_, ?_, ?_⟩
    · intro podInfo1 h1
      cases h1
    · intro _
      simp only [GoMap.get?_set, if_true]
    · intro k hk
      simp only [GoMap.get?_set]
      rw [if_neg (fun e => hk e.symm)]
    · intro k
      simp only [GoMap.mem_keys_set]

/-- Witness of C23: the cgroup line of the design arrives for process 43 when
the pod already has process 42 and no container ID. -/
theorem C23_parse_updates_the_entry_of_the_pod_only_witness :
    DecisionMaker.parseCgroupToPodInfo (Scenario.procFS []) "/proc" Scenario.cgroupLine 43
        Scenario.podInfoMap =
      (none,
        [("other", Scenario.otherInfo),
         ("123abc-456def",
          { Scenario.webInfo with
            ContainerID := "docker-abcdef.scope"
            Processes := [{ PID := 42, Command := "nginx", PPID := 1 },
                          { PID := 43, Command := "nginx", PPID := 1 }] })]) ∧
    ∃ process, DecisionMaker.getProcessInfo (Scenario.procFS []) "/proc" 43 = .ok process ∧
      process.PID = 43 ∧
      (DecisionMaker.parseCgroupToPodInfo (Scenario.procFS []) "/proc" Scenario.cgroupLine 43
        Scenario.podInfoMap).1 = none :=
  ⟨by decide,
    (C23_parse_updates_the_entry_of_the_pod_only (Scenario.procFS []) "/proc" Scenario.cgroupLine 43
      Scenario.podInfoMap "123abc-456def" "docker-abcdef.scope" (by decide) (by decide)).imp
      (fun _ h => ⟨h.1, h.2.1, h.2.2.1⟩)⟩

/-! ## The selector string -/

/-- C24, as amended: for every list of label selectors, `buildLabelSelector`
returns the comma-joined list, in input order, of one token per selector that
has a non-empty key, the token being the key alone when the value is empty and
`key=value` otherwise; a selector with an empty key gives no token. For the
empty list it returns the empty string. -/
theorem C24_selector_string_joins_the_tokens_of_keyed_selectors
    (selectors : List LabelSelector) :
    buildLabelSelector selectors =
      String.intercalate ","
        ((selectors.filter (fun s => s.Key ≠ "")).map
          (fun s => if s.Value = "" then s.Key else s.Key ++ "=" ++ s.Value)) ∧
    buildLabelSelector [] = "" :=
  ⟨buildLabelSelector_eq selectors, rfl⟩

/-- Counterexample to C24 as stated: for a selector with an empty key and the
value `x` followed by the selector of the key `a`, one token per selector
joined by commas is `=x,a`, and `buildLabelSelector` returns `a`. -/
theorem C24_empty_key_selector_has_no_token_counterexample :
    buildLabelSelector [{ Key := "", Value := "x" }, { Key := "a", Value := "" }] = "a" ∧
    joinedSelectorTokens [{ Key := "", Value := "x" }, { Key := "a", Value := "" }] = "=x,a" ∧
    ¬ buildLabelSelector [{ Key := "", Value := "x" }, { Key := "a", Value := "" }] =
      joinedSelectorTokens [{ Key := "", Value := "x" }, { Key := "a", Value := "" }] := by
  decide

/-- C27: `buildLabelSelector` ignores every selector whose key is empty: its
result on a list is its result on the list without the selectors of empty
key, and on a list made only of selectors of empty key, whatever their
values, it is the empty string. With that string, which the label library
parses into a selector that prints as the empty string, a query of the synced
cache over all namespaces and without command regex returns one result for
every cached pod. -/
theorem C27_selectors_with_empty_key_are_ignored :
    (∀ selectors : List LabelSelector,
      buildLabelSelector selectors =
        buildLabelSelector (selectors.filter (fun s => s.Key ≠ ""))) ∧
    (∀ selectors : List LabelSelector, (∀ s ∈ selectors, s.Key = "") →
      buildLabelSelector selectors = "") ∧
    (∀ (env : Environment) (a : Adapter) (client : Client) (selectors : List LabelSelector)
        (selector : Selector),
      a.client = some client → a.cacheHasSynced = true → a.podCache.WF →
      (∀ ks, (env.rangeOrder ks).Perm ks) →
      (∀ s ∈ selectors, s.Key = "") →
      env.labelsParse "" = .ok selector → selector.asString = "" →
      ∃ results,
        (QueryPods env a
          (some { K8SNamespace := [], LabelSelectors := selectors, CommandRegex := "" })).1 =
          .ok results ∧
        results.Perm (a.podCache.values.map (toDomainPod env none))) := by
  have hempty : ∀ selectors : List LabelSelector, (∀ s ∈ selectors, s.Key = "") →
      buildLabelSelector selectors = "" := by
    intro selectors hall
    rw [buildLabelSelector_eq]
    have hnil : selectors.filter (fun s => s.Key ≠ "") = [] := by
      rw [List.filter_eq_nil_iff]
      intro s hs
      simp [hall s hs]
    rw [hnil]
    rfl
  refine ⟨?_, hempty, ?_⟩
  · intro selectors
    rw [buildLabelSelector_eq, buildLabelSelector_eq, List.filter_filter]
    simp
  · intro env a client selectors selector hclient hsynced hcache horder hall hparse hprint
    refine ⟨(podsFromCache env a [NamespaceAll] selector).map (toDomainPod env none), ?_, ?_⟩
    · simp only [QueryPods, hclient, List.length_nil, if_true, ne_eq, not_true_eq_false,
        if_false, listPods, hempty selectors hall, hparse, hsynced, queryPodsResults_none]
    · apply List.Perm.map
      rw [podsFromCache_eq]
      have hperm : ((GoMap.range env.rangeOrder a.podCache).map Prod.snd).Perm
          a.podCache.values :=
        (GoMap.range_perm env.rangeOrder a.podCache hcache horder).map Prod.snd
      have hfilter : ∀ pod : apiv1.Pod,
          ((decide (([NamespaceAll] : List String).length = 0 ∨
                (([NamespaceAll] : List String).length = 1 ∧
                  ([NamespaceAll] : List String).head? = some NamespaceAll)) ||
              decide (pod.Namespace ∈ [NamespaceAll])) &&
            (decide (selector.asString = "") || selector.Matches pod.Labels)) = true := by
        intro pod
        simp [hprint]
      simp only [hfilter, List.filter_true]
      exact hperm

/-- Witness of C27: the only selector has an empty key and the value `x`; the
query returns the two cached pods. -/
theorem C27_selectors_with_empty_key_are_ignored_witness :
    buildLabelSelector [{ Key := "", Value := "x" }] = "" ∧
    ∃ results,
      (QueryPods Scenario.env (Scenario.adapter Scenario.env [Scenario.webPod, Scenario.dbPod] true)
        (some { K8SNamespace := [], LabelSelectors := [{ Key := "", Value := "x" }],
                CommandRegex := "" })).1 = .ok results ∧
      results.Perm
        ((Scenario.adapter Scenario.env [Scenario.webPod, Scenario.dbPod] true).podCache.values.map
          (toDomainPod Scenario.env none)) :=
  ⟨C27_selectors_with_empty_key_are_ignored.2.1 [{ Key := "", Value := "x" }] (by decide),
    C27_selectors_with_empty_key_are_ignored.2.2 Scenario.env
      (Scenario.adapter Scenario.env [Scenario.webPod, Scenario.dbPod] true)
      (snapshotClient Scenario.env [Scenario.webPod, Scenario.dbPod])
      [{ Key := "", Value := "x" }]
      { asString := "", Matches := fun _ => true }
      rfl rfl (by decide) (fun ks => List.Perm.refl ks) (by decide) rfl rfl⟩

/-! ## The node of a delivered batch -/

theorem mem_deliveries (calls : List Call) (dl : Option DecisionMakerPod × List ScheduleIntent) :
    dl ∈ deliveries calls ↔ Call.SendSchedulingIntent dl.1 dl.2 ∈ calls := by
  unfold deliveries
  rw [List.mem_filterMap]
  constructor
  · rintro ⟨c, hc, hdl⟩
    cases c <;> simp at hdl
    subst hdl
    exact hc
  · intro h
    exact ⟨_, h, rfl⟩

/-- Every delivery of a call that reaches the delivery loop is the delivery of
the visit of some host. -/
theorem deliveries_of_reaches (rt : Runtime) (svc : Service) (operator : Claims)
    (strategy : ScheduleStrategy) (operatorID : ObjectID) (pods : List Pod)
    (dms : List DecisionMakerPod)
    (hreach : ReachesGrouping rt svc operator strategy operatorID pods dms)
    (dl : Option DecisionMakerPod × List ScheduleIntent)
    (hdl : dl ∈ deliveries (CreateScheduleStrategy rt svc operator strategy).calls) :
    ∃ host, dl.1 = (groupIntents dms (intentsOf rt operatorID strategy pods)).nodeIDDMap.get? host ∧
      dl.2 = batchOf dms (intentsOf rt operatorID strategy pods) host := by
  obtain ⟨visited, last, _, hcalls, hlast⟩ :=
    deliver_trace svc (groupIntents dms (intentsOf rt operatorID strategy pods))
      (rt.rangeOrder (groupIntents dms (intentsOf rt operatorID strategy pods)).nodeIDIntentsMap.keys)
  rw [mem_deliveries,
    CreateScheduleStrategy_of_reaches rt svc operator strategy operatorID pods dms hreach,
    deliver_append, hcalls] at hdl
  simp only [List.mem_append, List.mem_flatMap] at hdl
  rcases hdl with hdl | ⟨host, _, hdl⟩ | hdl
  · simp [preludeCalls] at hdl
  · simp only [Groups.visitCalls, Groups.sendCall, Groups.updateCall, List.mem_cons,
      Call.SendSchedulingIntent.injEq, reduceCtorEq, List.not_mem_nil, or_false] at hdl
    exact ⟨host, hdl.1, by rw [hdl.2, groupIntents_intents]⟩
  · rcases hlast with h | ⟨host, _, h⟩
    · rw [h] at hdl
      simp at hdl
    · rw [h] at hdl
      simp only [Groups.sendCall, List.mem_singleton, Call.SendSchedulingIntent.injEq] at hdl
      exact ⟨host, hdl.1, by rw [hdl.2, groupIntents_intents]⟩

theorem mem_claimants (dms : List DecisionMakerPod) (intents : List ScheduleIntent)
    (host : String) (d : DecisionMakerPod) (hd : d ∈ claimants dms intents host) :
    d ∈ dms ∧ d.Host = host := by
  unfold claimants at hd
  rw [List.mem_filter] at hd
  exact ⟨hd.1, (of_decide_eq_true hd.2).1⟩

theorem claimants_ne_nil_of_mem_batchOf (dms : List DecisionMakerPod)
    (intents : List ScheduleIntent) (host : String) (i : ScheduleIntent)
    (hi : i ∈ batchOf dms intents host) : claimants dms intents host ≠ [] := by
  obtain ⟨d, hd, hh, hmem, hn⟩ := (mem_batchOf _ _ _ _).mp hi
  apply List.ne_nil_of_mem (a := d)
  unfold claimants
  rw [List.mem_filter]
  refine ⟨hd, decide_eq_true ⟨hh, ?_⟩⟩
  apply List.ne_nil_of_mem (a := i)
  rw [List.mem_filter]
  exact ⟨hmem, decide_eq_true hn⟩

/-- C25, as amended: in every call of `CreateScheduleStrategy` that reaches
the delivery loop, every batch passed to `SendSchedulingIntent` that holds an
intent is addressed to an agent pod of the list, and each intent of the batch
has the node ID of an agent pod of the list at the host of the addressee.
When agent pods of the list that have the same host have the same node ID,
each intent of a batch has the node ID of the agent pod the batch is sent to. -/
theorem C25_batch_intents_are_of_a_node_at_the_host (rt : Runtime) (svc : Service)
    (operator : Claims) (strategy : ScheduleStrategy) (operatorID : ObjectID)
    (pods : List Pod) (dms : List DecisionMakerPod)
    (hreach : ReachesGrouping rt svc operator strategy operatorID pods dms) :
    (∀ dl ∈ deliveries (CreateScheduleStrategy rt svc operator strategy).calls,
      ∀ intent ∈ dl.2, ∃ d ∈ dms, dl.1 = some d ∧
        ∃ d1 ∈ dms, d1.Host = d.Host ∧ intent.NodeID = d1.NodeID) ∧
    ((∀ d1 ∈ dms, ∀ d2 ∈ dms, d1.Host = d2.Host → d1.NodeID = d2.NodeID) →
      ∀ dl ∈ deliveries (CreateScheduleStrategy rt svc operator strategy).calls,
        ∀ intent ∈ dl.2, ∃ d ∈ dms, dl.1 = some d ∧ intent.NodeID = d.NodeID) := by
  have hgen : ∀ dl ∈ deliveries (CreateScheduleStrategy rt svc operator strategy).calls,
      ∀ intent ∈ dl.2, ∃ d ∈ dms, dl.1 = some d ∧
        ∃ d1 ∈ dms, d1.Host = d.Host ∧ intent.NodeID = d1.NodeID := by
    intro dl hdl intent hintent
    obtain ⟨host, h1, h2⟩ :=
      deliveries_of_reaches rt svc operator strategy operatorID pods dms hreach dl hdl
    rw [h2] at hintent
    have hne := claimants_ne_nil_of_mem_batchOf _ _ _ _ hintent
    rw [groupIntents_dm, List.getLast?_eq_getLast _ hne] at h1
    obtain ⟨hd, hh⟩ := mem_claimants _ _ _ _ (List.getLast_mem hne)
    obtain ⟨d1, hd1, hh1, _, hn⟩ := (mem_batchOf _ _ _ _).mp hintent
    exact ⟨_, hd, h1, d1, hd1, hh1.trans hh.symm, hn⟩
  refine ⟨hgen, ?_⟩
  intro hhost dl hdl intent hintent
  obtain ⟨d, hd, h1, d1, hd1, hh, hn⟩ := hgen dl hdl intent hintent
  exact ⟨d, hd, h1, hn.trans (hhost d1 hd1 d hd hh)⟩

/-- Witness of C25 as amended: the scenario of two pods on two nodes with one
agent each. -/
theorem C25_batch_intents_are_of_a_node_at_the_host_witness :
    deliveries (CreateScheduleStrategy Scenario.rtForward
        (Scenario.svc [Scenario.p1, Scenario.p2] [Scenario.dmA, Scenario.dmB] [])
        Scenario.operator Scenario.strategy).calls ≠ [] ∧
    ∀ dl ∈ deliveries (CreateScheduleStrategy Scenario.rtForward
        (Scenario.svc [Scenario.p1, Scenario.p2] [Scenario.dmA, Scenario.dmB] [])
        Scenario.operator Scenario.strategy).calls,
      ∀ intent ∈ dl.2, ∃ d ∈ [Scenario.dmA, Scenario.dmB],
        dl.1 = some d ∧ intent.NodeID = d.NodeID :=
  ⟨by decide,
    (C25_batch_intents_are_of_a_node_at_the_host Scenario.rtForward
      (Scenario.svc [Scenario.p1, Scenario.p2] [Scenario.dmA, Scenario.dmB] [])
      Scenario.operator Scenario.strategy 170 [Scenario.p1, Scenario.p2]
      [Scenario.dmA, Scenario.dmB] (by decide)).2 (by decide)⟩

/-- Counterexample to C25 as stated: the agent pods of node `A` and of node
`B` have no address yet, so both have the empty host; the only batch holds the
intents of both nodes and is sent to the agent pod of node `B`, and its first
intent has node `A`. -/
theorem C25_two_nodes_at_one_host_counterexample :
    deliveries (CreateScheduleStrategy Scenario.rtForward
        (Scenario.svc [Scenario.p1, Scenario.p2] [Scenario.dmPendingA, Scenario.dmPendingB] [])
        Scenario.operator Scenario.strategy).calls =
      [(some Scenario.dmPendingB,
        intentsOf Scenario.rtForward 170 Scenario.strategy [Scenario.p1, Scenario.p2])] ∧
    (intentsOf Scenario.rtForward 170 Scenario.strategy [Scenario.p1, Scenario.p2]).map
      (fun intent => intent.NodeID) = ["A", "B"] ∧
    Scenario.dmPendingB.NodeID = "B" := by
  decide

/-! ## Repeated processes in the scan -/

namespace DecisionMaker

theorem PidsWithin_mono (podMap : GoMap PodInfo) (pids pids1 : List Int)
    (h : PidsWithin podMap pids) (hsub : ∀ p ∈ pids, p ∈ pids1) : PidsWithin podMap pids1 :=
  fun kv hkv => ⟨(h kv hkv).1, fun p hp => hsub _ ((h kv hkv).2 p hp)⟩

/-- A parsed line of a process that is not yet in the pod map keeps the
process lists free of repeated process IDs. -/
theorem parseCgroupToPodInfo_PidsWithin (fs : FileSystem) (rootDir line : String) (pid : Int)
    (podMap : GoMap PodInfo) (pids : List Int) (h : PidsWithin podMap pids)
    (hnew : pid ∉ pids) :
    PidsWithin (parseCgroupToPodInfo fs rootDir line pid podMap).2 (pid :: pids) := by
  have hold : PidsWithin podMap (pid :: pids) :=
    PidsWithin_mono _ _ _ h (fun p hp => List.mem_cons_of_mem _ hp)
  obtain ⟨process, hp, hpid⟩ := getProcessInfo_ok fs rootDir pid
  unfold parseCgroupToPodInfo
  by_cases hparts : (strings.Split line ':').length ≥ 3
  · rw [if_pos hparts]
    cases hres : getPodInfoFromCgroup ((strings.Split line ':').getD 2 "") with
    | error e => exact hold
    | ok uc =>
      obtain ⟨u, c⟩ := uc
      simp only [hp]
      cases hget : podMap.get? u with
      | some podInfo =>
        have hin := h _ (GoMap.mem_of_get? _ _ _ hget)
        intro kv hkv
        rcases GoMap.mem_set _ _ _ _ hkv with hkv | hkv
        · subst hkv
          have hprocs : ∀ info : PodInfo, info.Processes = podInfo.Processes ++ [process] →
              (info.Processes.map (fun p => p.PID)).Nodup ∧
                ∀ p ∈ info.Processes, p.PID ∈ pid :: pids := by
            intro info hinfo
            rw [hinfo]
            constructor
            · rw [List.map_append, List.nodup_append]
              refine ⟨hin.1, by simp, ?_⟩
              intro a ha hb
              simp only [List.map_cons, List.map_nil, List.mem_singleton] at hb
              obtain ⟨p, hp1, hp2⟩ := List.mem_map.mp ha
              have := hin.2 p hp1
              rw [hp2, hb, hpid] at this
              exact hnew this
            · intro p hp1
              rcases List.mem_append.mp hp1 with hp1 | hp1
              · exact List.mem_cons_of_mem _ (hin.2 p hp1)
              · rw [List.mem_singleton] at hp1
                rw [hp1, hpid]
                exact List.mem_cons_self _ _
          apply hprocs
          dsimp only
          split <;> rfl
        · exact hold kv hkv
      | none =>
        intro kv hkv
        rcases GoMap.mem_set _ _ _ _ hkv with hkv | hkv
        · subst hkv
          simp [hpid]
        · exact hold kv hkv
  · rw [if_neg hparts]
    exact hold

theorem scanLines_no_marker (fs : FileSystem) (rootDir : String) (pid : Int)
    (lines : List String) (podMap : GoMap PodInfo)
    (h : lines.filter (fun line => strings.Contains line "kubepods") = []) :
    scanLines fs rootDir pid lines podMap = podMap := by
  induction lines with
  | nil => rfl
  | cons line rest ih =>
    by_cases hc : strings.Contains line "kubepods" = true
    · simp [List.filter_cons, hc] at h
    · have hc2 : strings.Contains line "kubepods" = false := by simpa using hc
      rw [List.filter_cons, hc2] at h
      simp only [scanLines, hc2]
      exact ih h

/-- The scan of a cgroup record with at most one line that holds the marker
parses at most one line. -/
theorem scanLines_one_marker (fs : FileSystem) (rootDir : String) (pid : Int)
    (lines : List String) (podMap : GoMap PodInfo)
    (h : (lines.filter (fun line => strings.Contains line "kubepods")).length ≤ 1) :
    scanLines fs rootDir pid lines podMap = podMap ∨
      ∃ line, scanLines fs rootDir pid lines podMap =
        (parseCgroupToPodInfo fs rootDir line pid podMap).2 := by
  induction lines with
  | nil => exact Or.inl rfl
  | cons line rest ih =>
    by_cases hc : strings.Contains line "kubepods" = true
    · have hrest : rest.filter (fun line => strings.Contains line "kubepods") = [] := by
        rw [List.filter_cons, if_pos hc, List.length_cons] at h
        exact List.length_eq_zero.mp (by omega)
      right
      refine ⟨line, ?_⟩
      simp only [scanLines, hc, if_true]
      cases hparse : parseCgroupToPodInfo fs rootDir line pid podMap with
      | mk err podMap1 =>
        cases err with
        | some e => rfl
        | none => exact scanLines_no_marker fs rootDir pid rest podMap1 hrest
    · have hc2 : strings.Contains line "kubepods" = false := by simpa using hc
      rw [List.filter_cons, hc2] at h
      simp only [scanLines, hc2]
      exact ih h

theorem scanEntry_PidsWithin (fs : FileSystem) (rootDir : String) (st : ScanState)
    (entry : DirEntry) (pids : List Int)
    (hlines : ∀ path lines, fs.Open path = .ok lines →
      (lines.filter (fun line => strings.Contains line "kubepods")).length ≤ 1)
    (h : PidsWithin st.podMap pids)
    (hnew : ∀ pid, candidatePid entry = some pid → pid ∉ pids) :
    PidsWithin (scanEntry fs rootDir st entry).podMap (pids ++ (candidatePid entry).toList) := by
  have hold : PidsWithin st.podMap (pids ++ (candidatePid entry).toList) :=
    PidsWithin_mono _ _ _ h (fun p hp => List.mem_append_left _ hp)
  by_cases hdir : entry.IsDir = false
  · have hst : scanEntry fs rootDir st entry = st := by
      unfold scanEntry
      rw [if_pos hdir]
    rw [hst]
    exact hold
  · cases hatoi : strconv.Atoi entry.Name with
    | error e =>
      have hst : scanEntry fs rootDir st entry = st := by
        unfold scanEntry
        rw [if_neg hdir]
        simp only [hatoi]
      rw [hst]
      exact hold
    | ok pid =>
      have hcand : candidatePid entry = some pid := by
        unfold candidatePid
        rw [if_neg hdir]
        simp only [hatoi]
      have hnew2 : pid ∉ pids := hnew pid hcand
      cases hopen : fs.Open (cgroupPathOf rootDir pid) with
      | error e =>
        have hst : (scanEntry fs rootDir st entry).podMap = st.podMap :=
          scanEntry_unopenable fs rootDir st entry pid e hatoi hopen
        rw [hst]
        exact hold
      | ok lines =>
        have hst : (scanEntry fs rootDir st entry).podMap =
            scanLines fs rootDir pid lines st.podMap := by
          unfold scanEntry
          rw [if_neg hdir]
          simp only [hatoi, hopen]
        rw [hst, hcand]
        rcases scanLines_one_marker fs rootDir pid lines st.podMap (hlines _ _ hopen) with
          hs | ⟨line, hs⟩
        · rw [hs]
          rw [hcand] at hold
          exact hold
        · rw [hs]
          refine PidsWithin_mono _ _ _
            (parseCgroupToPodInfo_PidsWithin fs rootDir line pid st.podMap pids h hnew2) ?_
          intro p hp
          simpa [or_comm] using hp

theorem foldl_scanEntry_PidsWithin (fs : FileSystem) (rootDir : String)
    (entries : List DirEntry) (st : ScanState) (pids : List Int)
    (hlines : ∀ path lines, fs.Open path = .ok lines →
      (lines.filter (fun line => strings.Contains line "kubepods")).length ≤ 1)
    (h : PidsWithin st.podMap pids)
    (hnodup : (pids ++ entries.filterMap candidatePid).Nodup) :
    PidsWithin (entries.foldl (scanEntry fs rootDir) st).podMap
      (pids ++ entries.filterMap candidatePid) := by
  induction entries generalizing st pids with
  | nil => simpa using h
  | cons entry rest ih =>
    have hsplit : pids ++ (entry :: rest).filterMap candidatePid =
        (pids ++ (candidatePid entry).toList) ++ rest.filterMap candidatePid := by
      rw [List.filterMap_cons]
      cases candidatePid entry <;> simp
    rw [hsplit] at hnodup ⊢
    rw [List.foldl_cons]
    apply ih _ _ _ hnodup
    apply scanEntry_PidsWithin fs rootDir st entry pids hlines h
    intro pid hpid hin
    rw [hpid] at hnodup
    have h1 := (List.nodup_append.mp hnodup).1
    rw [List.nodup_append] at h1
    exact h1.2.2 hin (by simp)

end DecisionMaker

namespace DecisionMaker

theorem parseCgroupToPodInfo_short (fs : FileSystem) (rootDir line : String) (pid : Int)
    (podMap : GoMap PodInfo) (h : ¬ (strings.Split line ':').length ≥ 3) :
    parseCgroupToPodInfo fs rootDir line pid podMap = (none, podMap) := by
  unfold parseCgroupToPodInfo
  rw [if_neg h]

theorem parseCgroupToPodInfo_unresolved (fs : FileSystem) (rootDir line : String) (pid : Int)
    (podMap : GoMap PodInfo) (err : Error) (h : (strings.Split line ':').length ≥ 3)
    (hres : getPodInfoFromCgroup ((strings.Split line ':').getD 2 "") = .error err) :
    parseCgroupToPodInfo fs rootDir line pid podMap = (some err, podMap) := by
  unfold parseCgroupToPodInfo
  rw [if_pos h]
  simp only [hres]

/-- A line that resolves to the pod `u` appends the process ID to the process
list of `u` and leaves the other lists as they are. -/
theorem parseCgroupToPodInfo_resolved (fs : FileSystem) (rootDir line : String) (pid : Int)
    (podMap : GoMap PodInfo) (u c : String) (h : (strings.Split line ':').length ≥ 3)
    (hres : getPodInfoFromCgroup ((strings.Split line ':').getD 2 "") = .ok (u, c)) :
    (parseCgroupToPodInfo fs rootDir line pid podMap).1 = none ∧
    (∀ key, pidsOf (parseCgroupToPodInfo fs rootDir line pid podMap).2 key =
      pidsOf podMap key ++ (if u = key then [pid] else [])) ∧
    ((∀ kv ∈ podMap, kv.2.PodUID = kv.1) →
      ∀ kv ∈ (parseCgroupToPodInfo fs rootDir line pid podMap).2, kv.2.PodUID = kv.1) := by
  obtain ⟨process, hp, hpid⟩ := getProcessInfo_ok fs rootDir pid
  unfold parseCgroupToPodInfo
  simp only [h, if_true, hres, hp]
  cases hget : podMap.get? u with
  | some podInfo =>
    refine ⟨rfl, ?_, ?_⟩
    · intro key
      unfold pidsOf
      simp only [GoMap.get?_set]
      by_cases hk : u = key
      · subst hk
        simp only [if_true, hget]
        split <;> simp [hpid]
      · simp [hk]
    · intro hkeyed kv hkv
      rcases GoMap.mem_set _ _ _ _ hkv with hkv | hkv
      · subst hkv
        have := hkeyed _ (GoMap.mem_of_get? _ _ _ hget)
        dsimp only at this ⊢
        split <;> exact this
      · exact hkeyed kv hkv
  | none =>
    refine ⟨rfl, ?_, ?_⟩
    · intro key
      unfold pidsOf
      simp only [GoMap.get?_set]
      by_cases hk : u = key
      · subst hk
        simp [hget, hpid]
      · simp [hk]
    · intro hkeyed kv hkv
      rcases GoMap.mem_set _ _ _ _ hkv with hkv | hkv
      · subst hkv
        rfl
      · exact hkeyed kv hkv

/-- The scanner loop appends the process ID to the list of a pod once for each
append of the record to that pod. -/
theorem scanLines_pidsOf (fs : FileSystem) (rootDir : String) (pid : Int)
    (lines : List String) (podMap : GoMap PodInfo) :
    (∀ key, pidsOf (scanLines fs rootDir pid lines podMap) key =
      pidsOf podMap key ++ ((appendedPods lines).filter (fun u => u = key)).map (fun _ => pid)) ∧
    ((∀ kv ∈ podMap, kv.2.PodUID = kv.1) →
      ∀ kv ∈ scanLines fs rootDir pid lines podMap, kv.2.PodUID = kv.1) := by
  induction lines generalizing podMap with
  | nil => simp [scanLines, appendedPods]
  | cons line rest ih =>
    by_cases hc : strings.Contains line "kubepods" = true
    · by_cases hparts : (strings.Split line ':').length ≥ 3
      · cases hres : getPodInfoFromCgroup ((strings.Split line ':').getD 2 "") with
        | error err =>
          simp only [scanLines, hc, if_true, appendedPods, hparts, hres,
            parseCgroupToPodInfo_unresolved fs rootDir line pid podMap err hparts hres]
          simp
        | ok found =>
          obtain ⟨u, c⟩ := found
          obtain ⟨h1, h2, h3⟩ :=
            parseCgroupToPodInfo_resolved fs rootDir line pid podMap u c hparts hres
          have hscan : scanLines fs rootDir pid (line :: rest) podMap =
              scanLines fs rootDir pid rest
                (parseCgroupToPodInfo fs rootDir line pid podMap).2 := by
            simp only [scanLines, hc, if_true]
            cases hparse : parseCgroupToPodInfo fs rootDir line pid podMap with
            | mk err podMap1 =>
              rw [hparse] at h1
              simp only at h1
              subst h1
              rfl
          have happ : appendedPods (line :: rest) = u :: appendedPods rest := by
            simp only [appendedPods, hc, if_true, hparts, hres]
          rw [hscan, happ]
          obtain ⟨ih1, ih2⟩ := ih (parseCgroupToPodInfo fs rootDir line pid podMap).2
          refine ⟨?_, fun hk => ih2 (h3 hk)⟩
          intro key
          rw [ih1 key, h2 key]
          by_cases hk : u = key
          · simp [hk, List.filter_cons]
          · simp [hk, List.filter_cons]
      · simp only [scanLines, hc, if_true, appendedPods, hparts, if_false,
          parseCgroupToPodInfo_short fs rootDir line pid podMap hparts]
        exact ih podMap
    · have hc2 : strings.Contains line "kubepods" = false := by simpa using hc
      simp only [scanLines, hc2, appendedPods]
      exact ih podMap

theorem scanEntry_pidsOf (fs : FileSystem) (rootDir : String) (st : ScanState)
    (entry : DirEntry) :
    (∀ key, pidsOf (scanEntry fs rootDir st entry).podMap key =
      pidsOf st.podMap key ++ appendedPids fs rootDir entry key) ∧
    ((∀ kv ∈ st.podMap, kv.2.PodUID = kv.1) →
      ∀ kv ∈ (scanEntry fs rootDir st entry).podMap, kv.2.PodUID = kv.1) := by
  by_cases hdir : entry.IsDir = false
  · have hst : scanEntry fs rootDir st entry = st := by
      unfold scanEntry
      rw [if_pos hdir]
    have hcand : candidatePid entry = none := by
      unfold candidatePid
      rw [if_pos hdir]
    rw [hst]
    simp [appendedPids, hcand]
  · cases hatoi : strconv.Atoi entry.Name with
    | error e =>
      have hst : scanEntry fs rootDir st entry = st := by
        unfold scanEntry
        rw [if_neg hdir]
        simp only [hatoi]
      have hcand : candidatePid entry = none := by
        unfold candidatePid
        rw [if_neg hdir]
        simp only [hatoi]
      rw [hst]
      simp [appendedPids, hcand]
    | ok pid =>
      have hcand : candidatePid entry = some pid := by
        unfold candidatePid
        rw [if_neg hdir]
        simp only [hatoi]
      cases hopen : fs.Open (cgroupPathOf rootDir pid) with
      | error e =>
        have hst : (scanEntry fs rootDir st entry).podMap = st.podMap :=
          scanEntry_unopenable fs rootDir st entry pid e hatoi hopen
        rw [hst]
        simp [appendedPids, hcand, hopen]
      | ok lines =>
        have hst : (scanEntry fs rootDir st entry).podMap =
            scanLines fs rootDir pid lines st.podMap := by
          unfold scanEntry
          rw [if_neg hdir]
          simp only [hatoi, hopen]
        rw [hst]
        simp only [appendedPids, hcand, hopen]
        exact scanLines_pidsOf fs rootDir pid lines st.podMap

theorem foldl_scanEntry_pidsOf (fs : FileSystem) (rootDir : String) (entries : List DirEntry)
    (st : ScanState) :
    (∀ key, pidsOf (entries.foldl (scanEntry fs rootDir) st).podMap key =
      pidsOf st.podMap key ++ entries.flatMap (fun entry => appendedPids fs rootDir entry key)) ∧
    ((∀ kv ∈ st.podMap, kv.2.PodUID = kv.1) →
      ∀ kv ∈ (entries.foldl (scanEntry fs rootDir) st).podMap, kv.2.PodUID = kv.1) := by
  induction entries generalizing st with
  | nil => simp
  | cons entry rest ih =>
    obtain ⟨h1, h2⟩ := scanEntry_pidsOf fs rootDir st entry
    obtain ⟨ih1, ih2⟩ := ih (scanEntry fs rootDir st entry)
    rw [List.foldl_cons]
    refine ⟨?_, fun hk => ih2 (h2 hk)⟩
    intro key
    rw [ih1 key, h1 key, List.flatMap_cons, List.append_assoc]

end DecisionMaker

/-- C26, as amended: for every process table, `FindPodInfoFrom` succeeds and
the process list of each pod of its result holds, in directory order, the
process ID of each candidate directory whose cgroup record can be opened once
for every line of that record that holds the marker `kubepods`, has at least
three fields between `:` and resolves to that pod, the lines being counted up
to the first marker line with three fields that does not resolve. Hence,
when every cgroup record that can be opened has at most one line with the
marker and the names of the candidate directories parse to pairwise distinct
process IDs, each process ID occurs at most once in the process list of every
pod of the result. -/
theorem C26_pid_once_per_resolved_marker_line (rangeOrder : List String → List String)
    (fs : DecisionMaker.FileSystem) (rootDir : String) (entries : List DecisionMaker.DirEntry)
    (hread : fs.ReadDir rootDir = .ok entries) :
    ∃ pods, (DecisionMaker.FindPodInfoFrom rangeOrder fs rootDir).result = .ok pods ∧
      (∀ podInfo ∈ pods,
        podInfo.Processes.map (fun p => p.PID) =
          entries.flatMap (fun entry =>
            DecisionMaker.appendedPids fs rootDir entry podInfo.PodUID)) ∧
      ((entries.filterMap DecisionMaker.candidatePid).Nodup →
        (∀ path lines, fs.Open path = .ok lines →
          (lines.filter (fun line => strings.Contains line "kubepods")).length ≤ 1) →
        ∀ podInfo ∈ pods, (podInfo.Processes.map (fun p => p.PID)).Nodup) := by
  have hres : (DecisionMaker.FindPodInfoFrom rangeOrder fs rootDir).result =
      .ok ((GoMap.range rangeOrder
        (entries.foldl (DecisionMaker.scanEntry fs rootDir)
          { podMap := [], opened := [] }).podMap).map Prod.snd) := by
    simp only [DecisionMaker.FindPodInfoFrom, hread]
  have hfrom : ∀ podInfo ∈ (GoMap.range rangeOrder
      (entries.foldl (DecisionMaker.scanEntry fs rootDir)
        { podMap := [], opened := [] }).podMap).map Prod.snd,
      ∃ k, GoMap.get? (entries.foldl (DecisionMaker.scanEntry fs rootDir)
        { podMap := [], opened := [] }).podMap k = some podInfo := by
    intro podInfo hmem
    obtain ⟨kv, hkv, hsnd⟩ := List.mem_map.mp hmem
    unfold GoMap.range at hkv
    obtain ⟨k, _, hk⟩ := List.mem_filterMap.mp hkv
    refine ⟨k, ?_⟩
    cases hget : GoMap.get?
        (entries.foldl (DecisionMaker.scanEntry fs rootDir) { podMap := [], opened := [] }).podMap
        k with
    | none =>
      rw [hget] at hk
      cases hk
    | some v =>
      rw [hget] at hk
      simp only [Option.map_some', Option.some.injEq] at hk
      rw [← hsnd, ← hk]
  refine ⟨_, hres, ?_, ?_⟩
  · intro podInfo hmem
    obtain ⟨k, hget⟩ := hfrom podInfo hmem
    obtain ⟨h1, h2⟩ := DecisionMaker.foldl_scanEntry_pidsOf fs rootDir entries
      { podMap := [], opened := [] }
    have hkey : podInfo.PodUID = k :=
      h2 (by intro kv hkv; cases hkv) _ (GoMap.mem_of_get? _ _ _ hget)
    have hpids := h1 k
    unfold DecisionMaker.pidsOf at hpids
    simp only [hget, GoMap.get?, List.nil_append] at hpids
    rw [hkey]
    exact hpids
  · intro hpids hlines podInfo hmem
    obtain ⟨k, hget⟩ := hfrom podInfo hmem
    have hinv := DecisionMaker.foldl_scanEntry_PidsWithin fs rootDir entries
      { podMap := [], opened := [] } [] hlines (by intro kv hkv; cases hkv)
      (by simpa using hpids)
    exact (hinv _ (GoMap.mem_of_get? _ _ _ hget)).1

/-- Witness of C26 as amended: two processes of one pod, each with a cgroup
record of one line. -/
theorem C26_pid_once_per_resolved_marker_line_witness :
    ∃ pods,
      (DecisionMaker.FindPodInfoFrom (fun ks => ks)
        (Scenario.procFS [{ Name := "42", IsDir := true }, { Name := "43", IsDir := true }])
        "/proc").result = .ok pods ∧
      (∀ podInfo ∈ pods,
        podInfo.Processes.map (fun p => p.PID) =
          ([{ Name := "42", IsDir := true }, { Name := "43", IsDir := true }] :
            List DecisionMaker.DirEntry).flatMap (fun entry =>
            DecisionMaker.appendedPids
              (Scenario.procFS [{ Name := "42", IsDir := true }, { Name := "43", IsDir := true }])
              "/proc" entry podInfo.PodUID)) ∧
      ∀ podInfo ∈ pods, (podInfo.Processes.map (fun p => p.PID)).Nodup :=
  (C26_pid_once_per_resolved_marker_line (fun ks => ks)
    (Scenario.procFS [{ Name := "42", IsDir := true }, { Name := "43", IsDir := true }])
    "/proc" [{ Name := "42", IsDir := true }, { Name := "43", IsDir := true }] rfl).imp
    (fun _ h => ⟨h.1, h.2.1, h.2.2 (by decide)
      (by
        intro path lines hopen
        have hl : lines = [Scenario.cgroupLine] := by
          unfold Scenario.procFS at hopen
          by_cases hp : path = "/proc/7/cgroup"
          · simp [hp] at hopen
          · simpa [hp] using hopen.symm
        rw [hl]
        decide)⟩)

/-- Counterexample to C26 as stated: the cgroup record of process 42 has two
lines with the marker `kubepods`, one per controller, for the same pod; the
process list of that pod holds process 42 twice. -/
theorem C26_two_marker_lines_counterexample :
    ∃ podInfo,
      (DecisionMaker.FindPodInfoFrom (fun ks => ks)
        (Scenario.procFSTwoLines [{ Name := "42", IsDir := true }]) "/proc").result =
        .ok [podInfo] ∧
      podInfo.Processes = [{ PID := 42, Command := "nginx", PPID := 1 },
                           { PID := 42, Command := "nginx", PPID := 1 }] ∧
      ¬ (podInfo.Processes.map (fun p => p.PID)).Nodup :=
  ⟨{ PodName := "", Namespace := "", PodUID := "123abc-456def",
     ContainerID := "docker-abcdef.scope",
     Processes := [{ PID := 42, Command := "nginx", PPID := 1 },
                   { PID := 42, Command := "nginx", PPID := 1 }] },
    by decide, rfl, by decide⟩

/-! ## The paths of the per-process records -/

/-- C28, the code at a failing input: for every root directory and process,
the cgroup record is read from `<rootDir>/<pid>/cgroup` and the command-name
and stat records from `/<rootDir>/<pid>/comm` and `/<rootDir>/<pid>/stat`, the
same directory text behind one more `/`. For the relative root directory
`testdata/proc` the cgroup record of process 42 is read from the relative path
`testdata/proc/42/cgroup` and the two other records from the absolute paths
`/testdata/proc/42/comm` and `/testdata/proc/42/stat`: in a process table
that holds the three records under `testdata/proc/42`, the scan finds the pod
of the process and leaves the command name and the parent process ID of the
process at their zero values. -/
theorem C28_comm_and_stat_paths_have_one_more_slash :
    (∀ (rootDir : String) (pid : Int),
      DecisionMaker.cgroupPathOf rootDir pid = (rootDir ++ "/" ++ toString pid) ++ "/cgroup" ∧
      DecisionMaker.commPathOf rootDir pid = "/" ++ (rootDir ++ "/" ++ toString pid) ++ "/comm" ∧
      DecisionMaker.statPathOf rootDir pid = "/" ++ (rootDir ++ "/" ++ toString pid) ++ "/stat") ∧
    DecisionMaker.cgroupPathOf "testdata/proc" 42 = "testdata/proc/42/cgroup" ∧
    DecisionMaker.commPathOf "testdata/proc" 42 = "/testdata/proc/42/comm" ∧
    DecisionMaker.statPathOf "testdata/proc" 42 = "/testdata/proc/42/stat" ∧
    Scenario.relativeFS.ReadFile "testdata/proc/42/comm" = .ok "nginx\n" ∧
    Scenario.relativeFS.ReadFile "testdata/proc/42/stat" = .ok "42 (nginx) S 1 42 42 0" ∧
    (DecisionMaker.FindPodInfoFrom (fun ks => ks) Scenario.relativeFS "testdata/proc").result =
      .ok [{ PodName := "", Namespace := "", PodUID := "123abc-456def",
             ContainerID := "docker-abcdef.scope",
             Processes := [{ PID := 42, Command := "", PPID := 0 }] }] := by
  refine ⟨?_, by decide, by decide, by decide, by decide, by decide, by decide⟩
  intro rootDir pid
  simp only [DecisionMaker.cgroupPathOf, DecisionMaker.commPathOf, DecisionMaker.statPathOf,
    String.append_assoc]
  exact ⟨trivial, trivial, trivial⟩

/-! ## The errors of `getPodInfoFromCgroup` -/

namespace DecisionMaker

theorem replaceAll_ne_empty (s : String) (old new : Char) (h : s ≠ "") :
    strings.ReplaceAll s old new ≠ "" :=
  fun e => h (replaceAll_eq_empty s old new e)

theorem replaceAll_no_underscore (s : String) : '_' ∉ (strings.ReplaceAll s '_' '-').data := by
  unfold strings.ReplaceAll
  simp only [List.mem_map, not_exists, not_and]
  intro c _
  by_cases hc : c = '_'
  · simp [hc]
  · simp [hc]

theorem trimPrefix_pod_eq_empty (part : String) (hp : strings.HasPrefix part "pod" = true) :
    strings.TrimPrefix part "pod" = "" ↔ part = "pod" := by
  unfold strings.TrimPrefix
  rw [if_pos hp]
  unfold strings.HasPrefix at hp
  obtain ⟨t, ht⟩ := List.isPrefixOf_iff_prefix.mp hp
  have hdata : part.data = "pod".data ++ t := ht.symm
  constructor
  · intro h
    have h1 : part.data.drop "pod".data.length = [] := by
      have := congrArg String.data h
      simpa using this
    rw [hdata, List.drop_left] at h1
    rw [h1, List.append_nil] at hdata
    exact String.ext hdata
  · intro h
    rw [h]
    rfl

/-- The result of the loop of `getPodInfoFromCgroup`: the first segment that
starts with `pod` decides. -/
theorem getPodInfoLoop_eq (parts : List String) :
    getPodInfoLoop parts =
      match parts.find? (fun part => strings.HasPrefix part "pod") with
      | none => none
      | some part =>
        some (strings.ReplaceAll (strings.TrimPrefix part "pod") '_' '-',
          ((parts.dropWhile (fun part => !strings.HasPrefix part "pod")).drop 1).head?.getD "") := by
  induction parts with
  | nil => rfl
  | cons part rest ih =>
    by_cases hp : strings.HasPrefix part "pod" = true
    · simp [getPodInfoLoop, hp, List.find?_cons, List.dropWhile_cons]
    · have hp2 : strings.HasPrefix part "pod" = false := by simpa using hp
      simp only [getPodInfoLoop, hp2, List.find?_cons, List.dropWhile_cons, Bool.not_false,
        if_true, ih]
      simp

end DecisionMaker

/-- C29: `getPodInfoFromCgroup` returns an error, the error `pod UID not found
in cgroup path`, exactly when no segment of the path between the separators
`/` starts with `pod` or the first segment that starts with `pod` is exactly
`pod`; whenever it succeeds, the returned pod UID is not empty and contains no
underscore. -/
theorem C29_error_iff_no_pod_segment_or_bare_pod (cgroupPath : String) :
    ((∃ err, DecisionMaker.getPodInfoFromCgroup cgroupPath = .error err) ↔
      ((∀ part ∈ strings.Split cgroupPath '/', strings.HasPrefix part "pod" = false) ∨
        (strings.Split cgroupPath '/').find? (fun part => strings.HasPrefix part "pod") =
          some "pod")) ∧
    (∀ err, DecisionMaker.getPodInfoFromCgroup cgroupPath = .error err →
      err = Error.msg "pod UID not found in cgroup path") ∧
    (∀ podUID containerID,
      DecisionMaker.getPodInfoFromCgroup cgroupPath = .ok (podUID, containerID) →
        podUID ≠ "" ∧ '_' ∉ podUID.data) := by
  unfold DecisionMaker.getPodInfoFromCgroup
  rw [DecisionMaker.getPodInfoLoop_eq]
  cases hfind : (strings.Split cgroupPath '/').find? (fun part => strings.HasPrefix part "pod") with
  | none =>
    have hall : ∀ part ∈ strings.Split cgroupPath '/', strings.HasPrefix part "pod" = false := by
      intro part hpart
      have := List.find?_eq_none.mp hfind part hpart
      simpa using this
    refine ⟨?_, ?_, ?_⟩
    · simp only [Option.getD_none, if_true]
      exact ⟨fun _ => Or.inl hall, fun _ => ⟨_, rfl⟩⟩
    · intro err herr
      simp only [Option.getD_none, if_true, Except.error.injEq] at herr
      exact herr.symm
    · intro podUID containerID hok
      simp at hok
  | some part =>
    have hp : strings.HasPrefix part "pod" = true :=
      @List.find?_some _ (fun part => strings.HasPrefix part "pod") part _ hfind
    have hmem : part ∈ strings.Split cgroupPath '/' := List.mem_of_find?_eq_some hfind
    simp only [Option.getD_some]
    by_cases hbare : part = "pod"
    · have hempty : strings.ReplaceAll (strings.TrimPrefix part "pod") '_' '-' = "" := by
        rw [hbare]
        rfl
      simp only [hempty, if_true]
      refine ⟨⟨fun _ => Or.inr (by rw [hbare]), fun _ => ⟨_, rfl⟩⟩, ?_, ?_⟩
      · intro err herr
        simp only [Except.error.injEq] at herr
        exact herr.symm
      · intro podUID containerID hok
        simp at hok
    · have hne : strings.ReplaceAll (strings.TrimPrefix part "pod") '_' '-' ≠ "" :=
        DecisionMaker.replaceAll_ne_empty _ _ _
          (fun e => hbare ((DecisionMaker.trimPrefix_pod_eq_empty part hp).mp e))
      simp only [hne, if_false]
      refine ⟨⟨?_, ?_⟩, ?_, ?_⟩
      · rintro ⟨err, herr⟩
        simp at herr
      · rintro (hall | hsome)
        · rw [hall part hmem] at hp
          cases hp
        · exact absurd (Option.some.inj hsome) hbare
      · intro err herr
        simp at herr
      · intro podUID containerID hok
        simp only [Except.ok.injEq, Prod.mk.injEq] at hok
        rw [← hok.1]
        exact ⟨hne, DecisionMaker.replaceAll_no_underscore _⟩

/-- Witness of C29: a path whose pod segment has an underscore. -/
theorem C29_error_iff_no_pod_segment_or_bare_pod_witness :
    DecisionMaker.getPodInfoFromCgroup "/kubepods/pod12_34" = .ok ("12-34", "") ∧
    ("12-34" ≠ "" ∧ '_' ∉ "12-34".data) ∧
    (∃ err, DecisionMaker.getPodInfoFromCgroup "/kubepods/pod/abc" = .error err) :=
  ⟨by decide,
    (C29_error_iff_no_pod_segment_or_bare_pod "/kubepods/pod12_34").2.2 "12-34" "" (by decide),
    (C29_error_iff_no_pod_segment_or_bare_pod "/kubepods/pod/abc").1.mpr (Or.inr (by decide))⟩

/-! ## The text of an agent pod -/

theorem stringOfRune_length (r : Int) : (stringOfRune r).length = 1 := by
  unfold stringOfRune
  split <;> rfl

/-- C30, the code at a failing input: for every agent pod, `String()` returns
`(` + NodeID + `)` + Host + `:` followed by the text `string(rune(Port))`,
which is one character, the code point of number `Port`, and not the decimal
digits of `Port`. For the agent pod of node `A` at `host1` with port 9000 it
returns `(A)host1:` followed by the character U+2328, where the decimal digits
give `(A)host1:9000`; `SendSchedulingIntent` posts to the URL
`http://host1:9000/api/v1/intents` and, on a status that is not OK, puts the
text with the character U+2328 in its error message. -/
theorem C30_String_writes_the_port_as_a_code_point :
    (∀ d : DecisionMakerPod,
      d.String = "(" ++ d.NodeID ++ ")" ++ d.Host ++ ":" ++ stringOfRune (runeOfInt d.Port) ∧
      (stringOfRune (runeOfInt d.Port)).length = 1) ∧
    Scenario.dmA.String = "(A)host1:\u2328" ∧
    "(" ++ Scenario.dmA.NodeID ++ ")" ++ Scenario.dmA.Host ++ ":" ++
      strconv.Itoa Scenario.dmA.Port = "(A)host1:9000" ∧
    ¬ Scenario.dmA.String = "(A)host1:9000" ∧
    Scenario.agentOutOfService.SendSchedulingIntent Scenario.dmA [] =
      some (Error.msg
        "decision maker (A)host1:\u2328 returned non-OK status: 503 Service Unavailable") ∧
    Scenario.agentOutOfService.SendSchedulingIntent Scenario.dmB [] = none := by
  refine ⟨fun d => ⟨rfl, stringOfRune_length _⟩, by decide, by decide, by decide, by decide,
    by decide⟩

end Api
